import Mathlib

/-! Police vs Thief: session registry, round lifecycle and scoring (`app.js`)

A shallow embedding of the server in `app.js`.

* JavaScript `Map`s and plain objects used as dictionaries are insertion-ordered
  association lists (`JsMap`): `set` on an existing key replaces the value in place,
  `set` on a new key appends.
* Every socket handler is a function from the registry `games` (and the request) to the
  new registry and the list of messages it emits, in emission order. An object mutated in
  place is written back under the key it was read from.
* `Math.random()` and `randomUUID()` are inputs of the functions that call them.
* Identifiers (`randomUUID()` tokens, `socket.id`) are opaque; they are natural numbers
  here. `undefined` identifiers are `none`.
* Scores and points are integers (`Int`); `round` is a counter starting at `0` (`Nat`).
* `totalRounds` is stored as the handler computes it, without rounding: it is a rational
  number (`ℚ`), as every finite JavaScript number is, and it is only ever compared.
-/

namespace PoliceVsThief

/-! ## Insertion-ordered dictionaries -/

/-- JavaScript `Map` (or plain object with string keys): entries in insertion order. -/
abbrev JsMap (κ ν : Type) := List (κ × ν)

namespace JsMap

variable {κ ν : Type} [DecidableEq κ]

/-- `m.get(k)`; `none` is `undefined`. -/
def get : JsMap κ ν → κ → Option ν
  | [], _ => none
  | (k0, v0) :: rest, k => if k0 = k then some v0 else get rest k

/-- `m.has(k)`. -/
def has (m : JsMap κ ν) (k : κ) : Bool := (m.get k).isSome

/-- `m.set(k, v)`: replaces the value of an existing key where it stands, appends a new key. -/
def set : JsMap κ ν → κ → ν → JsMap κ ν
  | [], k, v => [(k, v)]
  | (k0, v0) :: rest, k, v => if k0 = k then (k, v) :: rest else (k0, v0) :: set rest k v

/-- `m.delete(k)`. -/
def delete (m : JsMap κ ν) (k : κ) : JsMap κ ν := m.filter (fun e => decide (e.1 ≠ k))

/-- `Array.from(m.keys())`. -/
def keys (m : JsMap κ ν) : List κ := m.map Prod.fst

/-- `Array.from(m.values())`. -/
def values (m : JsMap κ ν) : List ν := m.map Prod.snd

end JsMap

/-! ## Data model -/

/-- Player identifier, a `randomUUID()` token. -/
abbrev PlayerId := Nat

/-- Channel identifier, `socket.id`. -/
abbrev SocketId := Nat

/-- Session code, the key of `games`. -/
abbrev TeamCode := String

/-- Values of `state.status`. -/
inductive Status where
  | lobby | assigning | guessing | revealing | ended
deriving DecidableEq, Repr

/-- Role tags of the `round:role` message. -/
inductive Role where
  | POLICE | THIEF | CIVILIAN
deriving DecidableEq, Repr

/-- Value stored in `state.players`. -/
structure Player where
  id : PlayerId
  name : String
  socketId : Option SocketId
  score : Int
  connected : Bool
deriving DecidableEq, Repr

/-- Element of `roles.civilians`. -/
structure Civilian where
  id : PlayerId
  pts : Int
deriving DecidableEq, Repr

/-- The object stored in `state.roles`. -/
structure Roles where
  policeId : Option PlayerId
  thiefId : Option PlayerId
  civilians : List Civilian
deriving DecidableEq, Repr

/-- The `guess` field of a history entry (`by` is `byId` here). -/
structure Guess where
  byId : PlayerId
  targetId : PlayerId
  correct : Bool
deriving DecidableEq, Repr

/-- Element of `state.history`. The keys of `delta` are property names: `some id` for a
player id, `none` for the property name `undefined`. -/
structure HistoryEntry where
  round : Nat
  policeId : Option PlayerId
  thiefId : Option PlayerId
  civilians : List Civilian
  guess : Guess
  delta : JsMap (Option PlayerId) Int
  totals : JsMap PlayerId Int
deriving DecidableEq, Repr

/-- The game state stored in `games` under its `teamCode`. -/
structure State where
  teamCode : TeamCode
  hostId : PlayerId
  players : JsMap PlayerId Player
  totalRounds : ℚ
  round : Nat
  order : List PlayerId
  status : Status
  roles : Option Roles
  history : List HistoryEntry
deriving DecidableEq, Repr

/-- The registry `games`. -/
abbrev Games := JsMap TeamCode State

/-! ## Messages -/

/-- Element of `getPublicPlayers(state)`. -/
structure PublicPlayer where
  id : PlayerId
  name : String
  score : Int
  connected : Bool
deriving DecidableEq, Repr

/-- Payload of `lobby:update`. -/
structure LobbyUpdate where
  teamCode : TeamCode
  hostId : PlayerId
  players : List PublicPlayer
  totalRounds : ℚ
  round : Nat
  status : Status
  order : List PlayerId
  history : List HistoryEntry
deriving DecidableEq, Repr

/-- The `{ id, name }` objects of `round:result`. -/
structure Named where
  id : Option PlayerId
  name : Option String
deriving DecidableEq, Repr

/-- Element of `civilians` in `round:result`. -/
structure NamedCivilian where
  id : PlayerId
  name : Option String
  pts : Int
deriving DecidableEq, Repr

/-- Payload of `round:result`. -/
structure RoundResult where
  round : Nat
  correct : Bool
  police : Named
  thief : Named
  civilians : List NamedCivilian
  delta : JsMap (Option PlayerId) Int
  totals : JsMap PlayerId Int
deriving DecidableEq, Repr

/-- Event name and payload of an emitted message. -/
inductive Payload where
  | lobbyCreated (teamCode : TeamCode) (playerId : PlayerId)
  | lobbyJoined (teamCode : TeamCode) (playerId : PlayerId)
  | lobbyUpdate (snapshot : LobbyUpdate)
  | roundRole (role : Role) (points : Int)
  | policeRevealed (round : Nat) (policeId : Option PlayerId) (policeName : Option String)
  | roundResult (result : RoundResult)
  | gameEnded (winners : List PublicPlayer) (totals : JsMap PlayerId Int)
  | gameDismantled (message : String)
  | errorToast (message : String)
deriving DecidableEq, Repr

/-- Where a message goes: `socket.emit` and `io.to(socketId)` reach one channel,
`io.to(teamCode)` reaches the room of the session. -/
inductive Address where
  | socket (socketId : SocketId)
  | room (teamCode : TeamCode)
deriving DecidableEq, Repr

/-- One emitted message. -/
structure Msg where
  dest : Address
  payload : Payload
deriving DecidableEq, Repr

/-! ## Constants and small JavaScript idioms -/

/-- Civilians static points, descending. -/
def CIVILIAN_POINTS : List Int := [900, 800, 700, 600, 500, 400, 300, 200]

/-- Award of the police on a correct guess. -/
def POLICE_WIN : Int := 1000

/-- Award of the thief when the police guesses wrong. -/
def THIEF_WIN : Int := 1000

/-- `x || d` for a number or `undefined`: `undefined` and `0` are falsy. -/
def numOr (x : Option Int) (d : Int) : Int :=
  match x with
  | some v => if v = 0 then d else v
  | none => d

/-- `x || d` for a number that need not be an integer, or `NaN`: `NaN` and `0` are falsy. -/
def ratOr (x : Option ℚ) (d : ℚ) : ℚ :=
  match x with
  | some v => if v = 0 then d else v
  | none => d

/-- `x || d` for a string or `undefined`: `undefined` and the empty string are falsy. -/
def strOr (x : Option String) (d : String) : String :=
  match x with
  | some v => if v = "" then d else v
  | none => d

/-- The alphabet of `makeTeamCode`. -/
def chars : List Char := "ABCDEFGHJKLMNPQRSTUVWXYZ23456789".toList

/-- `makeTeamCode()`; `rnd i` is the value of `(Math.random() * chars.length) | 0` at
iteration `i`, an index into the 32 characters. -/
def makeTeamCode (rnd : Nat → Fin 32) : TeamCode :=
  (List.range 6).foldl (fun s i => s.push (chars.getD (rnd i).val 'A')) ""

/-! ## Session-wide snapshot -/

/-- `getPublicPlayers(state)`. -/
def getPublicPlayers (state : State) : List PublicPlayer :=
  state.players.values.map (fun p =>
    { id := p.id, name := p.name, score := p.score, connected := p.connected })

/-- `broadcastLobby(state)`: the `lobby:update` message sent to the room of the session. -/
def broadcastLobby (state : State) : Msg :=
  { dest := .room state.teamCode
    payload := .lobbyUpdate
      { teamCode := state.teamCode
        hostId := state.hostId
        players := getPublicPlayers state
        totalRounds := state.totalRounds
        round := state.round
        status := state.status
        order := state.order
        history := state.history } }

/-! ## Role assignment -/

/-- Outcome of the random draws of the shuffle: `rnd i` is the value of
`Math.floor(Math.random() * (i + 1))` at loop index `i`, one of `0, ..., i`. -/
abbrev Draws := (i : Nat) → Fin (i + 1)

/-- The destructuring swap `[ids[i], ids[j]] = [ids[j], ids[i]]` for indices inside `ids`. -/
def swap (ids : List PlayerId) (i j : Nat) : List PlayerId :=
  match ids[i]?, ids[j]? with
  | some a, some b => (ids.set i b).set j a
  | _, _ => ids

/-- The loop `for (let i = ...; i > 0; i--)` of the shuffle, entered with index `i`. -/
def shuffleLoop (rnd : Draws) : Nat → List PlayerId → List PlayerId
  | 0, ids => ids
  | i + 1, ids => shuffleLoop rnd i (swap ids (i + 1) (rnd (i + 1)).val)

/-- The shuffle of `assignRoles`, started at `i = ids.length - 1`. -/
def shuffle (rnd : Draws) (ids : List PlayerId) : List PlayerId :=
  shuffleLoop rnd (ids.length - 1) ids

/-- `assignRoles(state)`. -/
def assignRoles (rnd : Draws) (state : State) : State :=
  let ids := shuffle rnd state.players.keys
  let policeId := ids[0]?
  let thiefId := ids[1]?
  let civIds := ids.drop 2
  let civilians := civIds.mapIdx (fun idx id =>
    ({ id := id, pts := numOr CIVILIAN_POINTS[idx]? 100 } : Civilian))
  { state with roles := some { policeId := policeId, thiefId := thiefId, civilians := civilians } }

/-- `currentTotals(state)`. -/
def currentTotals (state : State) : JsMap PlayerId Int :=
  state.players.foldl (fun totals e => totals.set e.1 e.2.score) []

/-! ## Round lifecycle -/

/-- `startRound(state)`: the state after the call and the messages emitted, in order. -/
def startRound (rnd : Draws) (state : State) : State × List Msg :=
  let state := { state with round := state.round + 1 }
  let state := { state with status := Status.assigning }
  let state := assignRoles rnd state
  match state.roles with
  | none => (state, [])  -- not reached: `assignRoles` has just stored a roles object
  | some roles =>
    -- Secretly tell each player their role
    let policeId := roles.policeId
    let thiefId := roles.thiefId
    let civilians := roles.civilians
    let civMap : JsMap PlayerId Int := civilians.foldl (fun m c => m.set c.id c.pts) []
    let secret : List Msg := state.players.filterMap (fun e =>
      match e.2.socketId with
      | none => none  -- `continue`
      | some socketId =>
        if some e.1 = policeId then
          some { dest := .socket socketId, payload := .roundRole .POLICE POLICE_WIN }
        else if some e.1 = thiefId then
          some { dest := .socket socketId, payload := .roundRole .THIEF 0 }
        else
          some { dest := .socket socketId
                 payload := .roundRole .CIVILIAN (numOr (civMap.get e.1) 0) })
    -- Reveal only who the police is (to everyone)
    let revealed : Msg :=
      { dest := .room state.teamCode
        payload := .policeRevealed state.round policeId
          ((policeId.bind state.players.get).map (fun p => p.name)) }
    let state := { state with status := Status.guessing }
    (state, secret ++ [revealed, broadcastLobby state])

/-- `Math.max(...xs)`; `none` is `-Infinity`, the value for no arguments. -/
def mathMax : List Int → Option Int
  | [] => none
  | x :: rest =>
    match mathMax rest with
    | none => some x
    | some m => some (max x m)

/-- `endRoundWithGuess(state, guesserId, targetId)`: destructuring `state.roles` when it is
`null` throws before anything is changed; otherwise the state after the call and the
messages emitted, in order. -/
def endRoundWithGuess (state : State) (guesserId targetId : PlayerId) :
    Except String (State × List Msg) :=
  match state.roles with
  | none => .error "Cannot destructure property \x27policeId\x27 of \x27state.roles\x27 as it is null."
  | some roles =>
    let policeId := roles.policeId
    let thiefId := roles.thiefId
    let civilians := roles.civilians
    let correct : Bool := decide (some targetId = thiefId)
    -- Compute deltas
    let delta : JsMap (Option PlayerId) Int :=
      state.players.foldl (fun d e => d.set (some e.1) 0) []
    let delta :=
      if correct then (delta.set policeId POLICE_WIN).set thiefId 0
      else (delta.set policeId 0).set thiefId THIEF_WIN
    let delta := civilians.foldl (fun d c =>
      d.set (some c.id) (numOr (d.get (some c.id)) 0 + numOr (some c.pts) 0)) delta
    -- Apply scores
    let state := { state with players := state.players.map (fun e =>
      (e.1, { e.2 with score := e.2.score + numOr (delta.get (some e.1)) 0 })) }
    let totals := currentTotals state
    -- Record history
    let entry : HistoryEntry :=
      { round := state.round, policeId := policeId, thiefId := thiefId, civilians := civilians
        guess := { byId := guesserId, targetId := targetId, correct := correct }
        delta := delta, totals := totals }
    let state := { state with history := state.history ++ [entry] }
    -- Reveal results to everyone
    let result : Msg :=
      { dest := .room state.teamCode
        payload := .roundResult
          { round := state.round
            correct := correct
            police := { id := policeId
                        name := (policeId.bind state.players.get).map (fun p => p.name) }
            thief := { id := thiefId
                       name := (thiefId.bind state.players.get).map (fun p => p.name) }
            civilians := civilians.map (fun c =>
              { id := c.id, name := (state.players.get c.id).map (fun p => p.name), pts := c.pts })
            delta := delta
            totals := totals } }
    let state := { state with status := Status.revealing }
    let state := { state with roles := none }
    if (state.round : ℚ) ≥ state.totalRounds then
      let state := { state with status := Status.ended }
      let maxScore := mathMax (state.players.values.map (fun p => p.score))
      let winners := (getPublicPlayers state).filter (fun p => decide (some p.score = maxScore))
      .ok (state, [result,
        { dest := .room state.teamCode, payload := .gameEnded winners (currentTotals state) },
        broadcastLobby state])
    else
      .ok (state, [result, broadcastLobby state])

/-- `findGame(teamCode)`: throws `Error('Game not found')` when the code is not registered. -/
def findGame (games : Games) (teamCode : TeamCode) : Except String State :=
  match games.get teamCode with
  | none => .error "Game not found"
  | some state => .ok state

/-! ## Socket handlers

Each handler takes the registry, the `socket.id` of the requesting channel and the fields of
the request, and returns the registry after the call with the messages emitted. -/

/-- `socket.emit('error:toast', message)`. -/
def toast (socket : SocketId) (message : String) : Msg :=
  { dest := .socket socket, payload := .errorToast message }

/-- Handler of `lobby:create`; `rnd` are the draws of `makeTeamCode()`, `uuid` the result of
`randomUUID()`. `Number(totalRounds)` is a finite number (`some q`, an integer or not) or
`NaN` (`none`); an infinite value is clamped like any value beyond the bounds. -/
def lobbyCreate (games : Games) (socket : SocketId) (rnd : Nat → Fin 32) (uuid : PlayerId)
    (hostName : Option String) (totalRounds : Option ℚ) : Games × List Msg :=
  let teamCode := makeTeamCode rnd
  let hostId := uuid
  let state : State :=
    { teamCode := teamCode
      hostId := hostId
      players := []
      totalRounds := max 1 (min 50 (ratOr totalRounds 10))
      round := 0
      order := []
      status := Status.lobby
      roles := none
      history := [] }
  let host : Player :=
    { id := hostId, name := strOr hostName "Host", socketId := some socket, score := 0
      connected := true }
  let state := { state with players := state.players.set hostId host }
  let state := { state with order := state.players.keys }
  let games := games.set teamCode state
  (games, [{ dest := .socket socket, payload := .lobbyCreated teamCode hostId },
           broadcastLobby state])

/-- Handler of `lobby:dismantle`. -/
def lobbyDismantle (games : Games) (socket : SocketId) (teamCode : TeamCode)
    (playerId : PlayerId) : Games × List Msg :=
  match findGame games teamCode with
  | .error message => (games, [toast socket (strOr (some message) "Dismantle failed.")])
  | .ok state =>
    if playerId ≠ state.hostId then
      (games, [toast socket "Only the host can dismantle the lobby."])
    else
      (games.delete teamCode,
        [{ dest := .room state.teamCode
           payload := .gameDismantled "The host has dismantled the lobby." }])

/-- Handler of `lobby:join`; `uuid` is the result of `randomUUID()`. -/
def lobbyJoin (games : Games) (socket : SocketId) (teamCode : TeamCode) (uuid : PlayerId)
    (playerName : Option String) : Games × List Msg :=
  match findGame games teamCode with
  | .error message => (games, [toast socket (strOr (some message) "Join failed")])
  | .ok state =>
    let playerId := uuid
    let player : Player :=
      { id := playerId, name := strOr playerName "Player", socketId := some socket, score := 0
        connected := true }
    let state := { state with players := state.players.set playerId player }
    let state := { state with order := state.players.keys }
    (games.set teamCode state,
      [{ dest := .socket socket, payload := .lobbyJoined teamCode playerId },
       broadcastLobby state])

/-- Handler of `player:reconnect`. -/
def playerReconnect (games : Games) (socket : SocketId) (teamCode : TeamCode)
    (playerId : PlayerId) : Games × List Msg :=
  match findGame games teamCode with
  | .error message => (games, [toast socket (strOr (some message) "Reconnect failed")])
  | .ok state =>
    match state.players.get playerId with
    | none => (games, [toast socket "Unknown player"])
    | some p =>
      let p := { p with socketId := some socket }
      let p := { p with connected := true }
      let state := { state with players := state.players.set playerId p }
      let replay : List Msg :=
        match decide (state.status = Status.guessing), state.roles with
        | true, some roles =>
          let policeId := roles.policeId
          let thiefId := roles.thiefId
          let civilians := roles.civilians
          let civMap : JsMap PlayerId Int := civilians.foldl (fun m c => m.set c.id c.pts) []
          let role : Msg :=
            if some playerId = policeId then
              { dest := .socket socket, payload := .roundRole .POLICE POLICE_WIN }
            else if some playerId = thiefId then
              { dest := .socket socket, payload := .roundRole .THIEF 0 }
            else
              { dest := .socket socket
                payload := .roundRole .CIVILIAN (numOr (civMap.get playerId) 0) }
          [role,
           { dest := .socket socket
             payload := .policeRevealed state.round policeId
               ((policeId.bind state.players.get).map (fun q => q.name)) }]
        | _, _ => []
      (games.set teamCode state, replay ++ [broadcastLobby state])

/-- Handler of `round:start`; `rnd` are the draws of the shuffle. -/
def roundStart (games : Games) (socket : SocketId) (teamCode : TeamCode) (playerId : PlayerId)
    (rnd : Draws) : Games × List Msg :=
  match findGame games teamCode with
  | .error message => (games, [toast socket (strOr (some message) "Start round failed")])
  | .ok state =>
    let starterIndex := state.round % state.order.length
    let starterId := state.order[starterIndex]?
    if some playerId ≠ starterId then
      let starterName :=
        strOr ((starterId.bind state.players.get).map (fun p => p.name)) "the next player"
      (games, [toast socket ("It\x27s " ++ starterName ++ "\x27s turn to start the round.")])
    else if state.status = Status.ended then
      (games, [toast socket "Game already ended"])
    else if state.status = Status.guessing then
      (games, [toast socket "Round in progress"])
    else
      let r := startRound rnd state
      (games.set teamCode r.1, r.2)

/-- Handler of `police:guess`. -/
def policeGuess (games : Games) (socket : SocketId) (teamCode : TeamCode)
    (playerId targetId : PlayerId) : Games × List Msg :=
  match findGame games teamCode with
  | .error message => (games, [toast socket (strOr (some message) "Guess failed")])
  | .ok state =>
    match state.roles with
    | none => (games, [toast socket "No active round"])
    | some roles =>
      if some playerId ≠ roles.policeId then
        (games, [toast socket "Only police can guess"])
      else if ¬ state.players.has targetId then
        (games, [toast socket "Invalid target"])
      else
        match endRoundWithGuess state playerId targetId with
        | .error message => (games, [toast socket (strOr (some message) "Guess failed")])
        | .ok r => (games.set teamCode r.1, r.2)

/-- The inner loop of the `disconnect` handler over the players of one state. -/
def disconnectState (socket : SocketId) (state : State) : State × List Msg :=
  state.players.foldl (fun acc e =>
    if e.2.socketId = some socket then
      let p := { e.2 with connected := false }
      let p := { p with socketId := none }
      let state := { acc.1 with players := acc.1.players.set e.1 p }
      (state, acc.2 ++ [broadcastLobby state])
    else acc) (state, [])

/-- Handler of `disconnect`. -/
def disconnect (games : Games) (socket : SocketId) : Games × List Msg :=
  games.foldl (fun acc e =>
    let r := disconnectState socket e.2
    (acc.1.set e.1 r.1, acc.2 ++ r.2)) (games, [])

/-! ## Named parts of `endRoundWithGuess`, for stating properties -/

/-- The loop `for (const [id] of state.players) delta[id] = 0`. -/
def initDelta (players : JsMap PlayerId Player) : JsMap (Option PlayerId) Int :=
  players.foldl (fun d e => d.set (some e.1) 0) []

/-- The loop `for (const c of civilians) delta[c.id] = (delta[c.id] || 0) + (c.pts || 0)`. -/
def addCivilians (civilians : List Civilian) (delta : JsMap (Option PlayerId) Int) :
    JsMap (Option PlayerId) Int :=
  civilians.foldl (fun d c =>
    d.set (some c.id) (numOr (d.get (some c.id)) 0 + numOr (some c.pts) 0)) delta

/-- The block `// Compute deltas` of `endRoundWithGuess`, as a function of the players, the
destructured roles and the target. -/
def roundDelta (players : JsMap PlayerId Player) (roles : Roles) (targetId : PlayerId) :
    JsMap (Option PlayerId) Int :=
  let delta := initDelta players
  let delta :=
    if decide (some targetId = roles.thiefId) then
      (delta.set roles.policeId POLICE_WIN).set roles.thiefId 0
    else (delta.set roles.policeId 0).set roles.thiefId THIEF_WIN
  addCivilians roles.civilians delta

/-- The block `// Apply scores` of `endRoundWithGuess`. -/
def applyScores (players : JsMap PlayerId Player) (delta : JsMap (Option PlayerId) Int) :
    JsMap PlayerId Player :=
  players.map (fun e => (e.1, { e.2 with score := e.2.score + numOr (delta.get (some e.1)) 0 }))

/-- The entry pushed on `state.history` by `endRoundWithGuess`. -/
def roundEntry (state : State) (roles : Roles) (guesserId targetId : PlayerId) : HistoryEntry :=
  { round := state.round
    policeId := roles.policeId
    thiefId := roles.thiefId
    civilians := roles.civilians
    guess := { byId := guesserId, targetId := targetId
               correct := decide (some targetId = roles.thiefId) }
    delta := roundDelta state.players roles targetId
    totals := currentTotals
      { state with players := applyScores state.players (roundDelta state.players roles targetId) } }

/-- The state left by `endRoundWithGuess`. -/
def roundEndState (state : State) (roles : Roles) (guesserId targetId : PlayerId) : State :=
  { state with
    players := applyScores state.players (roundDelta state.players roles targetId)
    history := state.history ++ [roundEntry state roles guesserId targetId]
    status := if (state.round : ℚ) ≥ state.totalRounds then Status.ended else Status.revealing
    roles := none }

/-! ## Sample data -/

/-- Draws that always pick index `0`. -/
def demoDraws : Draws := fun _ => 0

/-- Draws of `makeTeamCode` that always pick the first character. -/
def demoCodeDraws : Nat → Fin 32 := fun _ => 0

/-- A lobby of three players, one round to play. -/
def demoLobby : State :=
  { teamCode := "AAAAAA"
    hostId := 1
    players :=
      [(1, { id := 1, name := "Ann", socketId := some 100, score := 0, connected := true }),
       (2, { id := 2, name := "Bob", socketId := some 101, score := 0, connected := true }),
       (3, { id := 3, name := "Cyd", socketId := some 102, score := 0, connected := true })]
    totalRounds := 1
    round := 0
    order := [1, 2, 3]
    status := Status.lobby
    roles := none
    history := [] }

/-- The sample lobby after `startRound`: police `2`, thief `3`, civilian `1`. -/
def demoGuessing : State := (startRound demoDraws demoLobby).1

/-! ## The server as a transition system -/

/-- A request reaching the server, with the outcome of the random calls its handler makes. -/
inductive Action where
  | create (socket : SocketId) (rnd : Nat → Fin 32) (uuid : PlayerId)
      (hostName : Option String) (totalRounds : Option ℚ)
  | dismantle (socket : SocketId) (teamCode : TeamCode) (playerId : PlayerId)
  | join (socket : SocketId) (teamCode : TeamCode) (uuid : PlayerId)
      (playerName : Option String)
  | reconnect (socket : SocketId) (teamCode : TeamCode) (playerId : PlayerId)
  | start (socket : SocketId) (teamCode : TeamCode) (playerId : PlayerId) (rnd : Draws)
  | guess (socket : SocketId) (teamCode : TeamCode) (playerId targetId : PlayerId)
  | disconnect (socket : SocketId)

/-- The handler run for a request. -/
def handle (games : Games) : Action → Games × List Msg
  | .create socket rnd uuid hostName totalRounds =>
    lobbyCreate games socket rnd uuid hostName totalRounds
  | .dismantle socket teamCode playerId => lobbyDismantle games socket teamCode playerId
  | .join socket teamCode uuid playerName => lobbyJoin games socket teamCode uuid playerName
  | .reconnect socket teamCode playerId => playerReconnect games socket teamCode playerId
  | .start socket teamCode playerId rnd => roundStart games socket teamCode playerId rnd
  | .guess socket teamCode playerId targetId =>
    policeGuess games socket teamCode playerId targetId
  | .disconnect socket => disconnect games socket

/-- No player of any registered session carries the identifier `uuid`. -/
def FreshId (games : Games) (uuid : PlayerId) : Prop :=
  ∀ e ∈ games, uuid ∉ e.2.players.keys

/-- The identifiers drawn by `randomUUID()` for a request are fresh. -/
def FreshAction (games : Games) : Action → Prop
  | .create _ _ uuid _ _ => FreshId games uuid
  | .join _ _ uuid _ => FreshId games uuid
  | _ => True

/-- Registries the server can be in: it starts empty and handles requests one at a time. -/
inductive Reachable : Games → Prop where
  | empty : Reachable []
  | step {games : Games} (a : Action) :
      Reachable games → FreshAction games a → Reachable (handle games a).1

/-- The sum, over the history, of the entry's delta for a player; a missing entry counts 0. -/
def historyScore (history : List HistoryEntry) (id : PlayerId) : Int :=
  (history.map (fun h => (h.delta.get (some id)).getD 0)).sum

/-- The player ids named by a roles object: the police, the thief (when defined) and the
civilians, in this order. -/
def roleIds (roles : Roles) : List PlayerId :=
  roles.policeId.toList ++ roles.thiefId.toList ++ roles.civilians.map (fun c => c.id)

/-- What holds of every session registered under `code` in a reachable registry. -/
structure SessionInv (code : TeamCode) (s : State) : Prop where
  code_eq : s.teamCode = code
  keys_nodup : s.players.keys.Nodup
  players_ne : s.players ≠ []
  key_id : ∀ e ∈ s.players, e.2.id = e.1
  name_ne : ∀ e ∈ s.players, e.2.name ≠ ""
  order_eq : s.order = s.players.keys
  status_ne : s.status ≠ Status.assigning
  roles_iff : s.roles.isSome = true ↔ s.status = Status.guessing
  rounds_pos : 1 ≤ s.totalRounds
  round_pred : (s.round : ℚ) < s.totalRounds + 1
  round_lt : s.status = Status.lobby ∨ s.status = Status.revealing →
    (s.round : ℚ) < s.totalRounds
  roles_sub : ∀ roles, s.roles = some roles → ∀ k,
    roles.policeId = some k ∨ roles.thiefId = some k ∨
      k ∈ roles.civilians.map (fun c => c.id) → k ∈ s.players.keys
  police_some : ∀ roles, s.roles = some roles → roles.policeId.isSome = true
  roles_prefix : ∀ roles, s.roles = some roles → ∃ present later,
    s.players.keys = present ++ later ∧ (roleIds roles).Perm present
  delta_keys : ∀ h ∈ s.history, ∀ k, some k ∈ h.delta.keys → k ∈ s.players.keys
  score_sum : ∀ e ∈ s.players, e.2.score = historyScore s.history e.1

/-- Every registered session satisfies the session invariant. -/
def GamesInv (games : Games) : Prop :=
  ∀ e ∈ games, SessionInv e.1 e.2

/-- Whether the outcome of a handler is a refusal: the registry is the one before the
request and the only message emitted is an `error:toast` on the requesting channel. -/
def rejected (games : Games) (socket : SocketId) (out : Games × List Msg) : Bool :=
  decide (out.1 = games) &&
    match out.2 with
    | [{ dest := .socket dest, payload := .errorToast _ }] => decide (dest = socket)
    | _ => false

/-- The designated starter of the upcoming round, `state.order[state.round % state.order.length]`. -/
def starterOf (state : State) : Option PlayerId :=
  state.order[state.round % state.order.length]?

/-! ## A sample run -/

/-- The registry after the host `1` created a one-round session on channel `100`. -/
def demoGames1 : Games :=
  (handle [] (.create 100 demoCodeDraws 1 (some "Ann") (some 1))).1

/-- Player `2` joined on channel `101`. -/
def demoGames2 : Games := (handle demoGames1 (.join 101 "AAAAAA" 2 (some "Bob"))).1

/-- Player `3` joined on channel `102`. -/
def demoGames3 : Games := (handle demoGames2 (.join 102 "AAAAAA" 3 (some "Cyd"))).1

/-- The host started round 1: police `2`, thief `3`, civilian `1`. -/
def demoGames4 : Games := (handle demoGames3 (.start 100 "AAAAAA" 1 demoDraws)).1

/-- The police named the thief; the game is over. -/
def demoGames5 : Games := (handle demoGames4 (.guess 101 "AAAAAA" 2 3)).1

/-- The winner list computed by `endRoundWithGuess` when the game ends, as a function of the
state after the scores were applied. -/
def winnersOf (state : State) : List PublicPlayer :=
  let maxScore := mathMax (state.players.values.map (fun p => p.score))
  (getPublicPlayers state).filter (fun p => decide (some p.score = maxScore))

/-- The `round:result` message emitted by `endRoundWithGuess`. -/
def roundResultMsg (state : State) (roles : Roles) (guesserId targetId : PlayerId) : Msg :=
  let after := roundEndState state roles guesserId targetId
  { dest := .room state.teamCode
    payload := .roundResult
      { round := state.round
        correct := decide (some targetId = roles.thiefId)
        police := { id := roles.policeId
                    name := (roles.policeId.bind after.players.get).map (fun p => p.name) }
        thief := { id := roles.thiefId
                   name := (roles.thiefId.bind after.players.get).map (fun p => p.name) }
        civilians := roles.civilians.map (fun c =>
          { id := c.id, name := (after.players.get c.id).map (fun p => p.name), pts := c.pts })
        delta := roundDelta state.players roles targetId
        totals := currentTotals after } }

/-- Whether a message is session-wide, that is, addressed to a room. -/
def isRoomMsg (m : Msg) : Bool :=
  match m.dest with
  | .room _ => true
  | .socket _ => false

/-- The session-wide messages among the emitted ones, in emission order. -/
def roomMsgs (msgs : List Msg) : List Msg := msgs.filter isRoomMsg

/-- Draws that leave the last position alone and then pick index `0`: on three players
`1, 2, 3` they give police `2` and thief `1`. -/
def demoDraws2 : Draws := fun i => if i = 1 then 0 else Fin.last i

/-- The channel a request arrives on. -/
def Action.socket : Action → SocketId
  | .create socket _ _ _ _ => socket
  | .dismantle socket _ _ => socket
  | .join socket _ _ _ => socket
  | .reconnect socket _ _ => socket
  | .start socket _ _ _ => socket
  | .guess socket _ _ _ => socket
  | .disconnect socket => socket

/-- The requests that fail: an unknown session code, a dismantle by someone other than the
host, a reconnect of an unknown player, a start by someone other than the designated starter
or while the status is guessing or ended, a guess with no roles object, by someone other than
the police, or at a target that is not a player. -/
def Fails (games : Games) : Action → Prop
  | .create _ _ _ _ _ => False
  | .dismantle _ teamCode playerId =>
    match games.get teamCode with
    | none => True
    | some state => playerId ≠ state.hostId
  | .join _ teamCode _ _ => games.get teamCode = none
  | .reconnect _ teamCode playerId =>
    match games.get teamCode with
    | none => True
    | some state => state.players.get playerId = none
  | .start _ teamCode playerId _ =>
    match games.get teamCode with
    | none => True
    | some state =>
      some playerId ≠ starterOf state ∨ state.status = Status.guessing ∨
        state.status = Status.ended
  | .guess _ teamCode playerId targetId =>
    match games.get teamCode with
    | none => True
    | some state =>
      match state.roles with
      | none => True
      | some roles => some playerId ≠ roles.policeId ∨ targetId ∉ state.players.keys
  | .disconnect _ => False

/-- Draws of `makeTeamCode` that always pick the second character, giving `BBBBBB`. -/
def demoCodeDraws2 : Nat → Fin 32 := fun _ => 1

/-- What the `disconnect` loop does to one entry of `state.players`: a player on the closed
channel is marked disconnected and loses the channel, any other player is left alone. -/
def dropChannel (socket : SocketId) (e : PlayerId × Player) : PlayerId × Player :=
  if e.2.socketId = some socket then (e.1, { e.2 with connected := false, socketId := none })
  else e

/-- The session of the sample run right after its creation: the host alone. -/
def demoSolo : State :=
  { teamCode := "AAAAAA"
    hostId := 1
    players :=
      [(1, { id := 1, name := "Ann", socketId := some 100, score := 0, connected := true })]
    totalRounds := 1
    round := 0
    order := [1]
    status := Status.lobby
    roles := none
    history := [] }

/-- The body of the loop `for (const [id, p] of state.players)` of `startRound` for one
entry of `state.players`: the private `round:role` message, or none (`continue`) when the
player has no channel. -/
def startRoundRole (roles : Roles) (e : PlayerId × Player) : Option Msg :=
  let civMap : JsMap PlayerId Int := roles.civilians.foldl (fun m c => m.set c.id c.pts) []
  match e.2.socketId with
  | none => none
  | some socketId =>
    if some e.1 = roles.policeId then
      some { dest := .socket socketId, payload := .roundRole .POLICE POLICE_WIN }
    else if some e.1 = roles.thiefId then
      some { dest := .socket socketId, payload := .roundRole .THIEF 0 }
    else
      some { dest := .socket socketId
             payload := .roundRole .CIVILIAN (numOr (civMap.get e.1) 0) }

/-- The player object after `p.socketId = socket.id; p.connected = true`. -/
def rebind (socket : SocketId) (p : Player) : Player :=
  { p with socketId := some socket, connected := true }

/-- The thief of the sample round, player `3` on channel `102`. -/
def demoThief : Player :=
  { id := 3, name := "Cyd", socketId := some 102, score := 0, connected := true }

/-- The requests made while a session is played: join, reconnect, start, guess and the
closing of a channel. -/
def Action.isPlay : Action → Bool
  | .create _ _ _ _ _ => false
  | .dismantle _ _ _ => false
  | .join _ _ _ _ => true
  | .reconnect _ _ _ => true
  | .start _ _ _ _ => true
  | .guess _ _ _ _ => true
  | .disconnect _ => true

/-- The registries reached from `games` by any number of play requests, handled one at a
time, with fresh `randomUUID()` tokens. -/
inductive PlaysTo (games : Games) : Games → Prop where
  | refl : PlaysTo games games
  | step {later : Games} (a : Action) :
      PlaysTo games later → a.isPlay = true → FreshAction later a →
      PlaysTo games (handle later a).1

/-- The state `after` continues the game of `s` without any round activity: status, roles,
round, total rounds and history are those of `s`, and every player of `s` is still there
under its key with its id, name and score. -/
def SameGame (s after : State) : Prop :=
  after.status = s.status ∧ after.roles = s.roles ∧ after.round = s.round ∧
  after.totalRounds = s.totalRounds ∧ after.history = s.history ∧
  ∀ e ∈ s.players, ∃ q, after.players.get e.1 = some q ∧ q.id = e.2.id ∧
    q.name = e.2.name ∧ q.score = e.2.score

/-- The session of the sample run once its game has ended. -/
def demoEnded : State := (demoGames5.get "AAAAAA").getD demoGuessing

/-- After the end of the sample game player `4` joins on channel `103`. -/
def demoGames6 : Games := (handle demoGames5 (.join 103 "AAAAAA" 4 (some "Dan"))).1

/-- Player `2`, whose turn it would be, asks for another round. -/
def demoGames7 : Games := (handle demoGames6 (.start 101 "AAAAAA" 2 demoDraws)).1

/-- A lobby of twelve players `1, ..., 12`, enough for ten civilians. -/
def demoCrowd : State :=
  { demoLobby with
    players := (List.range 12).map (fun i =>
      (i + 1, { id := i + 1, name := "P", socketId := none, score := 0, connected := false }))
    order := (List.range 12).map (fun i => i + 1) }

/-- The roles drawn for the twelve players with `demoDraws`. -/
def demoCrowdRoles : Roles :=
  ((assignRoles demoDraws demoCrowd).roles).getD { policeId := none, thiefId := none, civilians := [] }

/-- Player `4` joins on channel `103` while the sample round is in guessing. -/
def demoGames4j : Games := (handle demoGames4 (.join 103 "AAAAAA" 4 (some "Dan"))).1

/-- The number 1.5, as the fraction 3/2 in lowest terms. -/
def oneAndHalf : ℚ := ⟨3, 2, by decide, by decide⟩

/-- A session created on channel `100` by player `1` with a round count of 1.5. -/
def fracGames1 : Games :=
  (handle [] (.create 100 demoCodeDraws 1 (some "Ann") (some oneAndHalf))).1

/-- Player `2` joined on channel `101`. -/
def fracGames2 : Games := (handle fracGames1 (.join 101 "AAAAAA" 2 (some "Bob"))).1

/-- The host started round 1: police `2`, thief `1`. -/
def fracGames3 : Games := (handle fracGames2 (.start 100 "AAAAAA" 1 demoDraws)).1

/-- The police named the thief; round 1 is over and the game goes on. -/
def fracGames4 : Games := (handle fracGames3 (.guess 101 "AAAAAA" 2 1)).1

/-- Player `2`, whose turn it is, started round 2: police `2`, thief `1` again. -/
def fracGames5 : Games := (handle fracGames4 (.start 101 "AAAAAA" 2 demoDraws)).1

/-- The session created for 1.5 rounds while its second round is in guessing. -/
def fracGuessing : State := (fracGames5.get "AAAAAA").getD demoLobby

/-! # Properties -/

/-! ## The shuffle is a permutation -/

theorem swap_perm (ids : List PlayerId) (i j : Nat) : (swap ids i j).Perm ids := by
  unfold swap
  split
  · rename_i a b ha hb
    obtain ⟨hi, rfl⟩ := List.getElem?_eq_some.mp ha
    obtain ⟨hj, rfl⟩ := List.getElem?_eq_some.mp hb
    rw [List.perm_iff_count]
    intro x
    have hj2 : j < (ids.set i ids[j]).length := by simpa using hj
    rw [List.count_set _ _ _ _ hj2, List.count_set _ _ _ _ hi]
    have h1 : (if (ids[i] == x) = true then 1 else 0) ≤ List.count x ids := by
      split
      · rename_i h
        have : ids[i] = x := by simpa using h
        exact List.count_pos_iff.mpr (this ▸ List.getElem_mem hi)
      · omega
    have h2 : (ids.set i ids[j])[j] = ids[j] := by
      rw [List.getElem_set]
      split <;> rfl
    rw [h2]
    omega
  · exact List.Perm.refl _

theorem shuffleLoop_perm (rnd : Draws) (i : Nat) (ids : List PlayerId) :
    (shuffleLoop rnd i ids).Perm ids := by
  induction i generalizing ids with
  | zero => exact List.Perm.refl _
  | succ n ih => exact (ih _).trans (swap_perm _ _ _)

theorem shuffle_perm (rnd : Draws) (ids : List PlayerId) : (shuffle rnd ids).Perm ids :=
  shuffleLoop_perm rnd _ ids

/-! ## Facts about dictionaries -/

namespace JsMap

variable {κ ν : Type} [DecidableEq κ]

theorem get_set_self (m : JsMap κ ν) (k : κ) (v : ν) : (m.set k v).get k = some v := by
  induction m with
  | nil => simp [set, get]
  | cons e rest ih =>
    obtain ⟨k0, v0⟩ := e
    by_cases h : k0 = k <;> simp [set, get, h, ih]

theorem get_set_ne (m : JsMap κ ν) {k k2 : κ} (v : ν) (h : k ≠ k2) :
    (m.set k v).get k2 = m.get k2 := by
  induction m with
  | nil => simp [set, get, h]
  | cons e rest ih =>
    obtain ⟨k0, v0⟩ := e
    by_cases h0 : k0 = k
    · subst h0; simp [set, get, h]
    · by_cases h1 : k0 = k2
      · subst h1; simp [set, get, h0]
      · simp [set, get, h0, h1, ih]

theorem mem_of_get {m : JsMap κ ν} {k : κ} {v : ν} (h : m.get k = some v) : (k, v) ∈ m := by
  induction m with
  | nil => simp [get] at h
  | cons e rest ih =>
    obtain ⟨k0, v0⟩ := e
    by_cases h0 : k0 = k
    · subst h0; simp [get] at h; simp [h]
    · simp [get, h0] at h; exact List.mem_cons_of_mem _ (ih h)

theorem get_isSome_iff (m : JsMap κ ν) (k : κ) : (m.get k).isSome ↔ k ∈ m.keys := by
  induction m with
  | nil => simp [get, keys]
  | cons e rest ih =>
    obtain ⟨k0, v0⟩ := e
    by_cases h0 : k0 = k
    · subst h0; simp [get, keys]
    · have : ¬ k = k0 := fun h => h0 h.symm
      simpa [get, keys, h0, this] using ih

theorem get_eq_none_iff (m : JsMap κ ν) (k : κ) : m.get k = none ↔ k ∉ m.keys := by
  rw [← get_isSome_iff]; cases m.get k <;> simp

theorem has_iff (m : JsMap κ ν) (k : κ) : m.has k = true ↔ k ∈ m.keys :=
  get_isSome_iff m k

theorem get_of_mem_nodup {m : JsMap κ ν} (hn : m.keys.Nodup) {k : κ} {v : ν}
    (h : (k, v) ∈ m) : m.get k = some v := by
  induction m with
  | nil => simp at h
  | cons e rest ih =>
    obtain ⟨k0, v0⟩ := e
    simp only [keys, List.map_cons, List.nodup_cons] at hn
    rcases List.mem_cons.mp h with h1 | h1
    · cases h1; simp [get]
    · have : k0 ≠ k := by
        rintro rfl
        exact hn.1 (List.mem_map.mpr ⟨_, h1, rfl⟩)
      simp [get, this]; exact ih hn.2 h1

theorem mem_set {m : JsMap κ ν} {k : κ} {v : ν} {e : κ × ν} (h : e ∈ m.set k v) :
    e = (k, v) ∨ e ∈ m := by
  induction m with
  | nil => simpa [set] using h
  | cons e0 rest ih =>
    obtain ⟨k0, v0⟩ := e0
    by_cases h0 : k0 = k
    · simp [set, h0] at h
      rcases h with h | h
      · exact Or.inl h
      · exact Or.inr (List.mem_cons_of_mem _ h)
    · simp [set, h0] at h
      rcases h with h | h
      · exact Or.inr (h ▸ List.mem_cons_self _ _)
      · rcases ih h with h | h
        · exact Or.inl h
        · exact Or.inr (List.mem_cons_of_mem _ h)

theorem forall_set {m : JsMap κ ν} {k : κ} {v : ν} {P : κ × ν → Prop}
    (hm : ∀ e ∈ m, P e) (hv : P (k, v)) : ∀ e ∈ m.set k v, P e := by
  intro e he
  rcases mem_set he with h | h
  · exact h ▸ hv
  · exact hm e h

theorem set_of_not_mem {m : JsMap κ ν} {k : κ} (v : ν) (h : k ∉ m.keys) :
    m.set k v = m ++ [(k, v)] := by
  induction m with
  | nil => rfl
  | cons e rest ih =>
    obtain ⟨k0, v0⟩ := e
    simp only [keys, List.map_cons, List.mem_cons, not_or] at h
    have h0 : ¬ k0 = k := fun h1 => h.1 h1.symm
    simp only [set, h0, if_false, List.cons_append]
    rw [ih h.2]

theorem keys_set_of_mem {m : JsMap κ ν} {k : κ} (v : ν) (h : k ∈ m.keys) :
    (m.set k v).keys = m.keys := by
  induction m with
  | nil => simp [keys] at h
  | cons e rest ih =>
    obtain ⟨k0, v0⟩ := e
    by_cases h0 : k0 = k
    · subst h0; simp [set, keys]
    · have h1 : k ∈ keys rest := by
        simp only [keys, List.map_cons, List.mem_cons] at h
        rcases h with h | h
        · exact absurd h.symm h0
        · exact h
      simp only [set, h0, if_false, keys, List.map_cons]
      exact congrArg _ (ih h1)

theorem mem_keys_set (m : JsMap κ ν) (k : κ) (v : ν) (k2 : κ) :
    k2 ∈ (m.set k v).keys ↔ k2 = k ∨ k2 ∈ m.keys := by
  by_cases h : k ∈ m.keys
  · rw [keys_set_of_mem v h]
    constructor
    · exact Or.inr
    · rintro (rfl | h2)
      · exact h
      · exact h2
  · rw [set_of_not_mem v h]
    simp [keys, or_comm]

theorem mem_delete {m : JsMap κ ν} {k : κ} {e : κ × ν} (h : e ∈ m.delete k) :
    e ∈ m ∧ e.1 ≠ k := by
  simpa [delete] using h

theorem get_delete_self (m : JsMap κ ν) (k : κ) : (m.delete k).get k = none := by
  rw [get_eq_none_iff]
  intro h
  obtain ⟨e, he, rfl⟩ := List.mem_map.mp h
  exact (mem_delete he).2 rfl

end JsMap

/-! ## Role assignment -/

theorem civilians_ids (f : Nat → Int) (civIds : List PlayerId) :
    (civIds.mapIdx (fun idx id => ({ id := id, pts := f idx } : Civilian))).map (fun c => c.id)
      = civIds := by
  induction civIds generalizing f with
  | nil => rfl
  | cons a l ih =>
    rw [List.mapIdx_cons, List.map_cons]
    simp only []
    rw [ih (fun i => f (i + 1))]

/-- The roles object stored by `assignRoles`, read off the shuffled id list. -/
theorem assignRoles_roles (rnd : Draws) (state : State) :
    ∃ civilians, (assignRoles rnd state).roles =
        some { policeId := (shuffle rnd state.players.keys)[0]?
               thiefId := (shuffle rnd state.players.keys)[1]?
               civilians := civilians } ∧
      civilians.map (fun c => c.id) = (shuffle rnd state.players.keys).drop 2 :=
  ⟨_, rfl, civilians_ids (fun idx => numOr CIVILIAN_POINTS[idx]? 100) _⟩

/-- With two or more players under distinct keys, the roles are a police and a thief that
differ, followed by civilians, and together they are a rearrangement of the keys. -/
theorem assignRoles_shape (rnd : Draws) (state : State)
    (h2 : 2 ≤ state.players.length) (hk : state.players.keys.Nodup) :
    ∃ policeId thiefId civilians,
      (assignRoles rnd state).roles =
        some { policeId := some policeId, thiefId := some thiefId, civilians := civilians } ∧
      policeId ≠ thiefId ∧
      policeId ∈ state.players.keys ∧ thiefId ∈ state.players.keys ∧
      (policeId :: thiefId :: civilians.map (fun c => c.id)).Perm state.players.keys ∧
      (policeId :: thiefId :: civilians.map (fun c => c.id)).Nodup := by
  obtain ⟨civs, hr, hc⟩ := assignRoles_roles rnd state
  have hp := shuffle_perm rnd state.players.keys
  generalize shuffle rnd state.players.keys = ids at hr hc hp
  have hl := hp.length_eq
  match ids, hl, hr, hc, hp with
  | p :: t :: rest, _, hr, hc, hp =>
    simp only [List.drop_succ_cons, List.drop_zero] at hc
    have hnd : (p :: t :: rest).Nodup := hp.nodup_iff.mpr hk
    refine ⟨p, t, civs, by simpa using hr, ?_, ?_, ?_, ?_, ?_⟩
    · intro h; subst h; simp at hnd
    · exact hp.subset (by simp)
    · exact hp.subset (by simp)
    · rw [hc]; exact hp
    · rw [hc]; exact hnd
  | [], hl, _, _, _ => simp [JsMap.keys] at hl; omega
  | [_], hl, _, _, _ => simp [JsMap.keys] at hl; omega

/-! ## `endRoundWithGuess` in named parts -/

theorem endRoundWithGuess_state (state : State) (roles : Roles) (guesserId targetId : PlayerId)
    (h : state.roles = some roles) :
    ∃ msgs, endRoundWithGuess state guesserId targetId =
      .ok (roundEndState state roles guesserId targetId, msgs) := by
  unfold endRoundWithGuess
  rw [h]
  by_cases hr : (state.round : ℚ) ≥ state.totalRounds
  · simp [hr, roundEndState, roundEntry, roundDelta, initDelta, addCivilians, applyScores,
      currentTotals]
  · simp [hr, roundEndState, roundEntry, roundDelta, initDelta, addCivilians, applyScores,
      currentTotals]

/-! ## The delta map -/

theorem numOr_zero (x : Option Int) : numOr x 0 = x.getD 0 := by
  cases x with
  | none => rfl
  | some v => by_cases h : v = 0 <;> simp [numOr, h]

theorem initDelta_get (players : JsMap PlayerId Player) (d0 : JsMap (Option PlayerId) Int)
    (key : Option PlayerId) :
    (players.foldl (fun d e => d.set (some e.1) 0) d0).get key =
      if key ∈ players.keys.map some then some 0 else d0.get key := by
  induction players generalizing d0 with
  | nil => simp [JsMap.keys]
  | cons e rest ih =>
    rw [List.foldl_cons, ih]
    by_cases h1 : key ∈ List.map some (JsMap.keys rest)
    · have : key ∈ List.map some (JsMap.keys (e :: rest)) := by
        simp only [JsMap.keys, List.map_cons, List.mem_cons]; exact Or.inr h1
      rw [if_pos h1, if_pos this]
    · rw [if_neg h1]
      by_cases h2 : some e.1 = key
      · subst h2
        rw [JsMap.get_set_self, if_pos (by simp [JsMap.keys])]
      · rw [JsMap.get_set_ne _ _ h2]
        have : key ∉ List.map some (JsMap.keys (e :: rest)) := by
          simp only [JsMap.keys, List.map_cons, List.mem_cons, not_or]
          exact ⟨fun h => h2 h.symm, h1⟩
        rw [if_neg this]

theorem initDelta_keys (players : JsMap PlayerId Player) (d0 : JsMap (Option PlayerId) Int)
    (hn : players.keys.Nodup) (hd : ∀ k ∈ players.keys, some k ∉ d0.keys) :
    (players.foldl (fun d e => d.set (some e.1) 0) d0).keys =
      d0.keys ++ players.keys.map some := by
  induction players generalizing d0 with
  | nil => simp [JsMap.keys]
  | cons e rest ih =>
    simp only [JsMap.keys, List.map_cons, List.nodup_cons] at hn
    have h0 : some e.1 ∉ d0.keys := hd e.1 (by simp [JsMap.keys])
    rw [List.foldl_cons, JsMap.set_of_not_mem _ h0, ih _ hn.2]
    · simp [JsMap.keys]
    · intro k hk
      simp only [JsMap.keys, List.map_append, List.map_cons, List.map_nil, List.mem_append,
        List.mem_singleton, not_or]
      refine ⟨hd k (by simp only [JsMap.keys, List.map_cons]; exact List.mem_cons_of_mem _ hk), ?_⟩
      intro h
      have : k = e.1 := by simpa using h
      exact hn.1 (this ▸ hk)

theorem civFold_get_other (civilians : List Civilian) (d : JsMap (Option PlayerId) Int)
    (key : Option PlayerId) (h : ∀ c ∈ civilians, some c.id ≠ key) :
    (addCivilians civilians d).get key = d.get key := by
  unfold addCivilians
  induction civilians generalizing d with
  | nil => rfl
  | cons c rest ih =>
    rw [List.foldl_cons, ih _ (fun c2 h2 => h c2 (List.mem_cons_of_mem _ h2)),
      JsMap.get_set_ne _ _ (h c (List.mem_cons_self _ _))]

theorem civFold_get_mem (civilians : List Civilian) (d : JsMap (Option PlayerId) Int)
    (hn : (civilians.map (fun c => c.id)).Nodup) (c : Civilian) (hc : c ∈ civilians) :
    (addCivilians civilians d).get (some c.id)
      = some (numOr (d.get (some c.id)) 0 + numOr (some c.pts) 0) := by
  induction civilians generalizing d with
  | nil => simp at hc
  | cons c0 rest ih =>
    simp only [List.map_cons, List.nodup_cons] at hn
    have hstep : ∀ d0, addCivilians (c0 :: rest) d0 = addCivilians rest
        (d0.set (some c0.id) (numOr (d0.get (some c0.id)) 0 + numOr (some c0.pts) 0)) :=
      fun _ => rfl
    rw [hstep]
    rcases List.mem_cons.mp hc with h | h
    · subst h
      rw [civFold_get_other, JsMap.get_set_self]
      intro c2 h2 heq
      exact hn.1 (List.mem_map.mpr ⟨c2, h2, by simpa using heq⟩)
    · have hne : some c0.id ≠ some c.id := by
        intro heq
        exact hn.1 (List.mem_map.mpr ⟨c, h, by simpa using heq.symm⟩)
      rw [ih _ hn.2 h, JsMap.get_set_ne _ _ hne]

theorem civFold_keys (civilians : List Civilian) (d : JsMap (Option PlayerId) Int)
    (h : ∀ c ∈ civilians, some c.id ∈ d.keys) :
    (addCivilians civilians d).keys = d.keys := by
  unfold addCivilians
  induction civilians generalizing d with
  | nil => rfl
  | cons c rest ih =>
    have h0 := h c (List.mem_cons_self _ _)
    rw [List.foldl_cons, ih, JsMap.keys_set_of_mem _ h0]
    intro c2 h2
    rw [JsMap.keys_set_of_mem _ h0]
    exact h c2 (List.mem_cons_of_mem _ h2)

theorem civilianPoints_ge (idx : Nat) : 100 ≤ numOr CIVILIAN_POINTS[idx]? 100 := by
  rcases Nat.lt_or_ge idx 8 with h | h
  · interval_cases idx <;> decide
  · have : CIVILIAN_POINTS[idx]? = none := by
      rw [List.getElem?_eq_none_iff]; simpa [CIVILIAN_POINTS] using h
    rw [this]; decide

theorem assignRoles_pts (rnd : Draws) (state : State) (roles : Roles)
    (h : (assignRoles rnd state).roles = some roles) : ∀ c ∈ roles.civilians, 100 ≤ c.pts := by
  intro c hc
  simp only [assignRoles, Option.some.injEq] at h
  subst h
  simp only at hc
  obtain ⟨i, hi, rfl⟩ := List.mem_iff_getElem.mp hc
  rw [List.getElem_mapIdx]
  exact civilianPoints_ge i

/-- The delta map of a round whose roles are a police, a thief and civilians, all distinct
and all players of the state. -/
theorem roundDelta_spec (players : JsMap PlayerId Player) (policeId thiefId : PlayerId)
    (civilians : List Civilian) (targetId : PlayerId)
    (hk : players.keys.Nodup)
    (hnd : (policeId :: thiefId :: civilians.map (fun c => c.id)).Nodup)
    (hsub : ∀ k ∈ policeId :: thiefId :: civilians.map (fun c => c.id), k ∈ players.keys) :
    let delta := roundDelta players
      { policeId := some policeId, thiefId := some thiefId, civilians := civilians } targetId
    delta.keys = players.keys.map some ∧
    delta.get (some policeId) = some (if targetId = thiefId then 1000 else 0) ∧
    delta.get (some thiefId) = some (if targetId = thiefId then 0 else 1000) ∧
    (∀ c ∈ civilians, delta.get (some c.id) = some c.pts) ∧
    (∀ k ∈ players.keys, k ≠ policeId → k ≠ thiefId → (∀ c ∈ civilians, c.id ≠ k) →
      delta.get (some k) = some 0) ∧
    (∀ key, key ∉ players.keys.map some → delta.get key = none) := by
  have hpt : policeId ≠ thiefId := by
    intro h; subst h; simp at hnd
  have hpc : ∀ c ∈ civilians, some c.id ≠ some policeId := by
    intro c hc h
    have : c.id = policeId := by simpa using h
    have hm : policeId ∈ civilians.map (fun c => c.id) := List.mem_map.mpr ⟨c, hc, this⟩
    simp only [List.nodup_cons, List.mem_cons, not_or] at hnd
    exact hnd.1.2 hm
  have htc : ∀ c ∈ civilians, some c.id ≠ some thiefId := by
    intro c hc h
    have : c.id = thiefId := by simpa using h
    have hm : thiefId ∈ civilians.map (fun c => c.id) := List.mem_map.mpr ⟨c, hc, this⟩
    simp only [List.nodup_cons, List.mem_cons, not_or] at hnd
    exact hnd.2.1 hm
  have hcn : (civilians.map (fun c => c.id)).Nodup := by
    simp only [List.nodup_cons] at hnd; exact hnd.2.2
  have hpk : policeId ∈ players.keys := hsub _ (by simp)
  have htk : thiefId ∈ players.keys := hsub _ (by simp)
  have hck : ∀ c ∈ civilians, c.id ∈ players.keys := fun c hc =>
    hsub _ (List.mem_cons_of_mem _ (List.mem_cons_of_mem _ (List.mem_map.mpr ⟨c, hc, rfl⟩)))
  have hinit : ∀ k ∈ players.keys, (initDelta players).get (some k) = some 0 := by
    intro k hkm
    unfold initDelta
    rw [initDelta_get, if_pos (List.mem_map.mpr ⟨k, hkm, rfl⟩)]
  have hkeys0 : (initDelta players).keys = players.keys.map some := by
    unfold initDelta
    rw [initDelta_keys _ _ hk (by simp [JsMap.keys])]; simp [JsMap.keys]
  intro delta
  -- the map before the civilians are added
  obtain ⟨x, y, hx, hy, hd⟩ : ∃ x y : Int,
      x = (if targetId = thiefId then 1000 else 0) ∧ y = (if targetId = thiefId then 0 else 1000) ∧
      delta = addCivilians civilians
        (((initDelta players).set (some policeId) x).set (some thiefId) y) := by
    by_cases hc : targetId = thiefId
    · exact ⟨1000, 0, by simp [hc], by simp [hc], by simp [delta, roundDelta, hc, POLICE_WIN]⟩
    · exact ⟨0, 1000, by simp [hc], by simp [hc], by simp [delta, roundDelta, hc, THIEF_WIN]⟩
  rw [← hx, ← hy]
  clear_value delta
  subst hd
  have hk1 : (((initDelta players).set (some policeId) x).set (some thiefId) y).keys
      = players.keys.map some := by
    rw [JsMap.keys_set_of_mem, JsMap.keys_set_of_mem, hkeys0]
    · rw [hkeys0]; exact List.mem_map.mpr ⟨_, hpk, rfl⟩
    · rw [JsMap.keys_set_of_mem, hkeys0]
      · exact List.mem_map.mpr ⟨_, htk, rfl⟩
      · rw [hkeys0]; exact List.mem_map.mpr ⟨_, hpk, rfl⟩
  refine ⟨?_, ?_, ?_, ?_, ?_, ?_⟩
  · rw [civFold_keys, hk1]
    intro c hc
    rw [hk1]; exact List.mem_map.mpr ⟨_, hck c hc, rfl⟩
  · rw [civFold_get_other _ _ _ hpc, JsMap.get_set_ne _ _ (by simpa using hpt.symm),
      JsMap.get_set_self]
  · rw [civFold_get_other _ _ _ htc, JsMap.get_set_self]
  · intro c hc
    rw [civFold_get_mem _ _ hcn c hc, JsMap.get_set_ne _ _ (htc c hc).symm,
      JsMap.get_set_ne _ _ (hpc c hc).symm, hinit _ (hck c hc), numOr_zero, numOr_zero]
    simp
  · intro k hkm hkp hkt hkc
    rw [civFold_get_other _ _ _ (fun c hc h => hkc c hc (by simpa using h)),
      JsMap.get_set_ne _ _ (by simpa using fun h : thiefId = k => hkt h.symm),
      JsMap.get_set_ne _ _ (by simpa using fun h : policeId = k => hkp h.symm), hinit _ hkm]
  · intro key hkey
    rw [JsMap.get_eq_none_iff, civFold_keys, hk1]
    · exact hkey
    · intro c hc
      rw [hk1]; exact List.mem_map.mpr ⟨_, hck c hc, rfl⟩

/-! ## Claims on scoring and role assignment -/

/-- C1: when the active roles were produced by `assignRoles` for at least two players (all of
them still players of the session), `endRoundWithGuess` returns and records a delta map whose
keys are the current players; the guess is correct exactly when the target is the thief; the
police gets 1000 and the thief 0 on a correct guess, 0 and 1000 otherwise; every civilian
gets its assigned points whatever the target; every other player gets 0; no delta is
negative. -/
theorem endRoundWithGuess_awards (rnd : Draws) (assigned state : State)
    (guesserId targetId : PlayerId)
    (h2 : 2 ≤ assigned.players.length) (hk0 : assigned.players.keys.Nodup)
    (hroles : state.roles = (assignRoles rnd assigned).roles)
    (hsub : ∀ k ∈ assigned.players.keys, k ∈ state.players.keys)
    (hk : state.players.keys.Nodup) :
    ∃ policeId thiefId civilians after msgs entry,
      state.roles =
        some { policeId := some policeId, thiefId := some thiefId, civilians := civilians } ∧
      policeId ≠ thiefId ∧
      endRoundWithGuess state guesserId targetId = .ok (after, msgs) ∧
      after.history = state.history ++ [entry] ∧
      entry.delta.keys = state.players.keys.map some ∧
      (entry.guess.correct = true ↔ targetId = thiefId) ∧
      entry.delta.get (some policeId) = some (if targetId = thiefId then 1000 else 0) ∧
      entry.delta.get (some thiefId) = some (if targetId = thiefId then 0 else 1000) ∧
      (∀ c ∈ civilians, entry.delta.get (some c.id) = some c.pts) ∧
      (∀ k ∈ state.players.keys, k ≠ policeId → k ≠ thiefId → (∀ c ∈ civilians, c.id ≠ k) →
        entry.delta.get (some k) = some 0) ∧
      (∀ key v, entry.delta.get key = some v → 0 ≤ v) := by
  obtain ⟨p, t, civs, hr, hpt, _, _, hperm, hnd⟩ := assignRoles_shape rnd assigned h2 hk0
  have hpts := assignRoles_pts rnd assigned _ hr
  rw [← hroles] at hr
  obtain ⟨msgs, hend⟩ := endRoundWithGuess_state state _ guesserId targetId hr
  have hsub2 : ∀ k ∈ p :: t :: civs.map (fun c => c.id), k ∈ state.players.keys :=
    fun k hkm => hsub k (hperm.subset hkm)
  obtain ⟨d1, d2, d3, d4, d5, d6⟩ := roundDelta_spec state.players p t civs targetId hk hnd hsub2
  refine ⟨p, t, civs, _, msgs, roundEntry state _ guesserId targetId, hr, hpt, hend, rfl,
    d1, ?_, d2, d3, d4, d5, ?_⟩
  · simp [roundEntry]
  · intro key v hv
    change (roundDelta state.players _ targetId).get key = some v at hv
    by_cases hkey : key ∈ state.players.keys.map some
    · obtain ⟨k, hkm, rfl⟩ := List.mem_map.mp hkey
      by_cases hkp : k = p
      · subst hkp; rw [d2] at hv; cases hv; split <;> decide
      · by_cases hkt : k = t
        · subst hkt; rw [d3] at hv; cases hv; split <;> decide
        · by_cases hkc : ∃ c ∈ civs, c.id = k
          · obtain ⟨c, hc, rfl⟩ := hkc
            rw [d4 c hc] at hv; cases hv
            have := hpts c hc
            omega
          · rw [d5 k hkm hkp hkt (fun c hc h => hkc ⟨c, hc, h⟩)] at hv
            cases hv; decide
    · rw [d6 key hkey] at hv; cases hv

/-- The awards of the sample round when the police `2` names the thief `3`. -/
theorem endRoundWithGuess_awards_witness :
    2 ≤ demoLobby.players.length ∧ demoLobby.players.keys.Nodup ∧
    demoGuessing.roles = (assignRoles demoDraws demoLobby).roles ∧
    (∀ k ∈ demoLobby.players.keys, k ∈ demoGuessing.players.keys) ∧
    demoGuessing.players.keys.Nodup ∧
    ∃ policeId thiefId civilians after msgs entry,
      demoGuessing.roles =
        some { policeId := some policeId, thiefId := some thiefId, civilians := civilians } ∧
      policeId ≠ thiefId ∧
      endRoundWithGuess demoGuessing 2 3 = .ok (after, msgs) ∧
      after.history = demoGuessing.history ++ [entry] ∧
      entry.delta.keys = demoGuessing.players.keys.map some ∧
      (entry.guess.correct = true ↔ 3 = thiefId) ∧
      entry.delta.get (some policeId) = some (if 3 = thiefId then 1000 else 0) ∧
      entry.delta.get (some thiefId) = some (if 3 = thiefId then 0 else 1000) ∧
      (∀ c ∈ civilians, entry.delta.get (some c.id) = some c.pts) ∧
      (∀ k ∈ demoGuessing.players.keys, k ≠ policeId → k ≠ thiefId →
        (∀ c ∈ civilians, c.id ≠ k) → entry.delta.get (some k) = some 0) ∧
      (∀ key v, entry.delta.get key = some v → 0 ≤ v) :=
  ⟨by decide, by decide, by decide, by decide, by decide,
    endRoundWithGuess_awards demoDraws demoLobby demoGuessing 2 3 (by decide) (by decide)
      (by decide) (by decide) (by decide)⟩

/-- C2: for a session with at least two players (under distinct keys) and any draws of the
shuffle, `assignRoles` stores a police and a thief that are distinct current players, and
police, thief and civilians in this order are a rearrangement of the player ids in which no
id occurs twice. -/
theorem assignRoles_partition (rnd : Draws) (state : State)
    (h2 : 2 ≤ state.players.length) (hk : state.players.keys.Nodup) :
    ∃ policeId thiefId civilians,
      (assignRoles rnd state).roles =
        some { policeId := some policeId, thiefId := some thiefId, civilians := civilians } ∧
      policeId ≠ thiefId ∧
      policeId ∈ state.players.keys ∧ thiefId ∈ state.players.keys ∧
      (policeId :: thiefId :: civilians.map (fun c => c.id)).Perm state.players.keys ∧
      (policeId :: thiefId :: civilians.map (fun c => c.id)).Nodup ∧
      (assignRoles rnd state).players = state.players :=
  let ⟨p, t, civs, h⟩ := assignRoles_shape rnd state h2 hk
  ⟨p, t, civs, h.1, h.2.1, h.2.2.1, h.2.2.2.1, h.2.2.2.2.1, h.2.2.2.2.2, rfl⟩

/-- Role assignment on the sample lobby. -/
theorem assignRoles_partition_witness :
    2 ≤ demoLobby.players.length ∧ demoLobby.players.keys.Nodup ∧
    ∃ policeId thiefId civilians,
      (assignRoles demoDraws demoLobby).roles =
        some { policeId := some policeId, thiefId := some thiefId, civilians := civilians } ∧
      policeId ≠ thiefId ∧
      policeId ∈ demoLobby.players.keys ∧ thiefId ∈ demoLobby.players.keys ∧
      (policeId :: thiefId :: civilians.map (fun c => c.id)).Perm demoLobby.players.keys ∧
      (policeId :: thiefId :: civilians.map (fun c => c.id)).Nodup ∧
      (assignRoles demoDraws demoLobby).players = demoLobby.players :=
  ⟨by decide, by decide, assignRoles_partition demoDraws demoLobby (by decide) (by decide)⟩

/-! ## Keys of the delta map -/

theorem initDelta_mem_keys (players : JsMap PlayerId Player) (key : Option PlayerId) :
    key ∈ (initDelta players).keys ↔ key ∈ players.keys.map some := by
  rw [← JsMap.get_isSome_iff]
  unfold initDelta
  rw [initDelta_get]
  by_cases h : key ∈ players.keys.map some <;> simp [h, JsMap.get]

theorem addCivilians_mem_keys (civilians : List Civilian) (d : JsMap (Option PlayerId) Int)
    (key : Option PlayerId) (h : key ∈ (addCivilians civilians d).keys) :
    key ∈ d.keys ∨ ∃ c ∈ civilians, key = some c.id := by
  unfold addCivilians at h
  induction civilians generalizing d with
  | nil => exact Or.inl h
  | cons c rest ih =>
    rw [List.foldl_cons] at h
    rcases ih _ h with h1 | ⟨c2, hc2, h1⟩
    · rcases (JsMap.mem_keys_set _ _ _ _).mp h1 with h2 | h2
      · exact Or.inr ⟨c, List.mem_cons_self _ _, h2⟩
      · exact Or.inl h2
    · exact Or.inr ⟨c2, List.mem_cons_of_mem _ hc2, h1⟩

theorem roundDelta_mem_keys (players : JsMap PlayerId Player) (roles : Roles)
    (targetId k : PlayerId) (h : some k ∈ (roundDelta players roles targetId).keys) :
    k ∈ players.keys ∨ roles.policeId = some k ∨ roles.thiefId = some k ∨
      k ∈ roles.civilians.map (fun c => c.id) := by
  unfold roundDelta at h
  rcases addCivilians_mem_keys _ _ _ h with h1 | ⟨c, hc, h1⟩
  · have h2 : some k = roles.thiefId ∨ some k = roles.policeId ∨
        some k ∈ (initDelta players).keys := by
      by_cases hc : some targetId = roles.thiefId
      · simp only [hc, decide_True, if_true] at h1
        rcases (JsMap.mem_keys_set _ _ _ _).mp h1 with h2 | h2
        · exact Or.inl h2
        · exact Or.inr ((JsMap.mem_keys_set _ _ _ _).mp h2)
      · simp only [hc, decide_False] at h1
        rcases (JsMap.mem_keys_set _ _ _ _).mp h1 with h2 | h2
        · exact Or.inl h2
        · exact Or.inr ((JsMap.mem_keys_set _ _ _ _).mp h2)
    rcases h2 with h2 | h2 | h2
    · exact Or.inr (Or.inr (Or.inl h2.symm))
    · exact Or.inr (Or.inl h2.symm)
    · rw [initDelta_mem_keys] at h2
      obtain ⟨k2, hk2, heq⟩ := List.mem_map.mp h2
      cases heq
      exact Or.inl hk2
  · cases h1
    exact Or.inr (Or.inr (Or.inr (List.mem_map.mpr ⟨c, hc, rfl⟩)))

theorem applyScores_keys (players : JsMap PlayerId Player) (delta : JsMap (Option PlayerId) Int) :
    (applyScores players delta).keys = players.keys := by
  simp [applyScores, JsMap.keys, Function.comp_def]

theorem historyScore_append (history : List HistoryEntry) (entry : HistoryEntry)
    (id : PlayerId) :
    historyScore (history ++ [entry]) id =
      historyScore history id + (entry.delta.get (some id)).getD 0 := by
  simp [historyScore]

theorem historyScore_of_absent (history : List HistoryEntry) (id : PlayerId)
    (h : ∀ e ∈ history, some id ∉ e.delta.keys) : historyScore history id = 0 := by
  unfold historyScore
  apply List.sum_eq_zero
  intro x hx
  obtain ⟨e, he, rfl⟩ := List.mem_map.mp hx
  rw [(JsMap.get_eq_none_iff _ _).mpr (h e he)]
  rfl

/-! ## The session invariant is kept by every operation -/

theorem startRound_state (rnd : Draws) (state : State) :
    (startRound rnd state).1 =
      { state with round := state.round + 1, status := Status.guessing
                   roles := (assignRoles rnd state).roles } := by
  simp [startRound, assignRoles]

theorem strOr_ne (x : Option String) {d : String} (hd : d ≠ "") : strOr x d ≠ "" := by
  unfold strOr
  split
  · split
    · exact hd
    · assumption
  · exact hd

theorem SessionInv.created (socket : SocketId) (code : TeamCode) (uuid : PlayerId)
    (hostName : Option String) (totalRounds : Option ℚ) :
    SessionInv code
      { teamCode := code, hostId := uuid
        players := JsMap.set [] uuid
          { id := uuid, name := strOr hostName "Host", socketId := some socket, score := 0
            connected := true }
        totalRounds := max 1 (min 50 (ratOr totalRounds 10))
        round := 0
        order := (JsMap.set ([] : JsMap PlayerId Player) uuid
          { id := uuid, name := strOr hostName "Host", socketId := some socket, score := 0
            connected := true }).keys
        status := Status.lobby, roles := none, history := [] } where
  code_eq := rfl
  keys_nodup := by simp [JsMap.set, JsMap.keys]
  players_ne := by simp [JsMap.set]
  key_id := by simp [JsMap.set]
  name_ne := by
    intro e he
    simp only [JsMap.set, List.mem_singleton] at he
    subst he
    exact strOr_ne hostName (by decide)
  order_eq := rfl
  status_ne := by simp
  roles_iff := by simp
  rounds_pos := le_max_left _ _
  round_pred := by
    have : (1 : ℚ) ≤ max 1 (min 50 (ratOr totalRounds 10)) := le_max_left _ _
    simp only [Nat.cast_zero]; linarith
  round_lt := by
    intro _
    have : (1 : ℚ) ≤ max 1 (min 50 (ratOr totalRounds 10)) := le_max_left _ _
    simp only [Nat.cast_zero]; linarith
  roles_sub := by simp
  police_some := by simp
  roles_prefix := by simp
  delta_keys := by simp
  score_sum := by simp [JsMap.set, historyScore]

theorem SessionInv.joined {code : TeamCode} {s : State} (h : SessionInv code s)
    (uuid : PlayerId) (p : Player) (hid : p.id = uuid) (hname : p.name ≠ "")
    (hscore : p.score = 0) (hfresh : uuid ∉ s.players.keys) :
    SessionInv code
      { s with players := s.players.set uuid p, order := (s.players.set uuid p).keys } := by
  have hset : s.players.set uuid p = s.players ++ [(uuid, p)] := JsMap.set_of_not_mem p hfresh
  have hkeys : (s.players.set uuid p).keys = s.players.keys ++ [uuid] := by
    rw [hset]; simp [JsMap.keys]
  refine
    { code_eq := h.code_eq
      keys_nodup := ?_
      players_ne := ?_
      key_id := ?_
      name_ne := ?_
      order_eq := rfl
      status_ne := h.status_ne
      roles_iff := h.roles_iff
      rounds_pos := h.rounds_pos
      round_pred := h.round_pred
      round_lt := h.round_lt
      roles_sub := ?_
      police_some := h.police_some
      roles_prefix := fun roles hr => by
        obtain ⟨pr, la, h1, h2⟩ := h.roles_prefix roles hr
        exact ⟨pr, la ++ [uuid], by
          show (s.players.set uuid p).keys = _
          rw [hkeys, h1, List.append_assoc], h2⟩
      delta_keys := ?_
      score_sum := ?_ }
  · show (s.players.set uuid p).keys.Nodup
    rw [hkeys]
    exact List.Nodup.append h.keys_nodup (List.nodup_singleton _)
      (by simpa using hfresh)
  · show s.players.set uuid p ≠ []
    rw [hset]; simp
  · intro e he
    change e ∈ s.players.set uuid p at he
    rcases JsMap.mem_set he with h1 | h1
    · subst h1; exact hid
    · exact h.key_id e h1
  · intro e he
    change e ∈ s.players.set uuid p at he
    rcases JsMap.mem_set he with h1 | h1
    · subst h1; exact hname
    · exact h.name_ne e h1
  · intro roles hr k hk
    show k ∈ (s.players.set uuid p).keys
    rw [hkeys]
    exact List.mem_append_left _ (h.roles_sub roles hr k hk)
  · intro e he k hk
    show k ∈ (s.players.set uuid p).keys
    rw [hkeys]
    exact List.mem_append_left _ (h.delta_keys e he k hk)
  · intro e he
    change e ∈ s.players.set uuid p at he
    rcases JsMap.mem_set he with h1 | h1
    · subst h1
      show p.score = historyScore s.history uuid
      rw [hscore, historyScore_of_absent]
      intro e2 he2 hk
      exact hfresh (h.delta_keys e2 he2 uuid hk)
    · exact h.score_sum e h1

theorem SessionInv.liveness {code : TeamCode} {s : State} (h : SessionInv code s)
    (players : JsMap PlayerId Player) (hk : players.keys = s.players.keys)
    (hp : ∀ e ∈ players, ∃ e0 ∈ s.players, e.1 = e0.1 ∧ e.2.id = e0.2.id ∧
      e.2.name = e0.2.name ∧ e.2.score = e0.2.score) :
    SessionInv code { s with players := players } := by
  refine
    { code_eq := h.code_eq
      keys_nodup := by show players.keys.Nodup; rw [hk]; exact h.keys_nodup
      players_ne := ?_
      key_id := ?_
      name_ne := ?_
      order_eq := by show s.order = players.keys; rw [hk]; exact h.order_eq
      status_ne := h.status_ne
      roles_iff := h.roles_iff
      rounds_pos := h.rounds_pos
      round_pred := h.round_pred
      round_lt := h.round_lt
      roles_sub := ?_
      police_some := h.police_some
      roles_prefix := fun roles hr => by
        obtain ⟨pr, la, h1, h2⟩ := h.roles_prefix roles hr
        exact ⟨pr, la, by show players.keys = _; rw [hk, h1], h2⟩
      delta_keys := ?_
      score_sum := ?_ }
  · show players ≠ []
    intro h0
    rw [h0] at hk
    have := h.players_ne
    cases hs : s.players with
    | nil => exact this hs
    | cons a l => rw [hs] at hk; simp [JsMap.keys] at hk
  · intro e he
    obtain ⟨e0, he0, h1, h2, _⟩ := hp e he
    rw [h2, h1]; exact h.key_id e0 he0
  · intro e he
    obtain ⟨e0, he0, _, _, h3, _⟩ := hp e he
    rw [h3]; exact h.name_ne e0 he0
  · intro roles hr k hkm
    show k ∈ players.keys
    rw [hk]; exact h.roles_sub roles hr k hkm
  · intro e he k hkm
    show k ∈ players.keys
    rw [hk]; exact h.delta_keys e he k hkm
  · intro e he
    obtain ⟨e0, he0, h1, _, _, h3⟩ := hp e he
    show e.2.score = historyScore s.history e.1
    rw [h3, h1]; exact h.score_sum e0 he0

theorem assignRoles_sub (rnd : Draws) (state : State) (roles : Roles)
    (h : (assignRoles rnd state).roles = some roles) (k : PlayerId)
    (hk : roles.policeId = some k ∨ roles.thiefId = some k ∨
      k ∈ roles.civilians.map (fun c => c.id)) : k ∈ state.players.keys := by
  obtain ⟨civs, hr, hc⟩ := assignRoles_roles rnd state
  rw [hr] at h
  cases h
  apply (shuffle_perm rnd state.players.keys).subset
  rcases hk with h1 | h1 | h1
  · obtain ⟨hi, h2⟩ := List.getElem?_eq_some.mp h1
    exact h2 ▸ List.getElem_mem hi
  · obtain ⟨hi, h2⟩ := List.getElem?_eq_some.mp h1
    exact h2 ▸ List.getElem_mem hi
  · simp only at h1
    rw [hc] at h1
    exact List.mem_of_mem_drop h1

theorem assignRoles_police (rnd : Draws) (state : State) (roles : Roles)
    (hne : state.players ≠ []) (h : (assignRoles rnd state).roles = some roles) :
    roles.policeId.isSome = true := by
  obtain ⟨civs, hr, _⟩ := assignRoles_roles rnd state
  rw [hr] at h
  cases h
  have hl := (shuffle_perm rnd state.players.keys).length_eq
  have : 0 < (shuffle rnd state.players.keys).length := by
    rw [hl]
    cases hs : state.players with
    | nil => exact absurd hs hne
    | cons a l => simp [JsMap.keys]
  simp only
  rw [List.getElem?_eq_getElem this]
  rfl

theorem toList_getElem_drop (l : List PlayerId) :
    l[0]?.toList ++ l[1]?.toList ++ l.drop 2 = l := by
  match l with
  | [] => rfl
  | [_] => rfl
  | _ :: _ :: _ => simp

theorem assignRoles_roleIds (rnd : Draws) (state : State) (roles : Roles)
    (h : (assignRoles rnd state).roles = some roles) :
    (roleIds roles).Perm state.players.keys := by
  obtain ⟨civs, hr, hc⟩ := assignRoles_roles rnd state
  rw [hr] at h
  cases h
  unfold roleIds
  simp only
  rw [hc, toList_getElem_drop]
  exact shuffle_perm rnd state.players.keys

theorem SessionInv.started {code : TeamCode} {s : State} (h : SessionInv code s)
    (rnd : Draws) (h1 : s.status ≠ Status.ended) (h2 : s.status ≠ Status.guessing) :
    SessionInv code (startRound rnd s).1 := by
  rw [startRound_state]
  have hst : s.status = Status.lobby ∨ s.status = Status.revealing := by
    have := h.status_ne
    cases hs : s.status <;> simp_all
  have hlt := h.round_lt hst
  refine
    { code_eq := h.code_eq
      keys_nodup := h.keys_nodup
      players_ne := h.players_ne
      key_id := h.key_id
      name_ne := h.name_ne
      order_eq := h.order_eq
      status_ne := by simp
      roles_iff := by simp [assignRoles]
      rounds_pos := h.rounds_pos
      round_pred := by simp only [Nat.cast_add, Nat.cast_one]; linarith
      round_lt := by simp
      roles_sub := fun roles hr k hk => assignRoles_sub rnd s roles hr k hk
      police_some := fun roles hr => assignRoles_police rnd s roles h.players_ne hr
      roles_prefix := fun roles hr =>
        ⟨s.players.keys, [], (List.append_nil _).symm, assignRoles_roleIds rnd s roles hr⟩
      delta_keys := h.delta_keys
      score_sum := h.score_sum }

theorem SessionInv.guessed {code : TeamCode} {s : State} (h : SessionInv code s)
    (roles : Roles) (hr : s.roles = some roles) (guesserId targetId : PlayerId) :
    SessionInv code (roundEndState s roles guesserId targetId) := by
  have hkeys := applyScores_keys s.players (roundDelta s.players roles targetId)
  refine
    { code_eq := h.code_eq
      keys_nodup := by
        show (applyScores _ _).keys.Nodup
        rw [hkeys]; exact h.keys_nodup
      players_ne := ?_
      key_id := ?_
      name_ne := ?_
      order_eq := by
        show s.order = (applyScores _ _).keys
        rw [hkeys]; exact h.order_eq
      status_ne := ?_
      roles_iff := ?_
      rounds_pos := h.rounds_pos
      round_pred := h.round_pred
      round_lt := ?_
      roles_sub := by simp [roundEndState]
      police_some := by simp [roundEndState]
      roles_prefix := by simp [roundEndState]
      delta_keys := ?_
      score_sum := ?_ }
  · show applyScores _ _ ≠ []
    have := h.players_ne
    simpa [applyScores] using this
  · intro e he
    change e ∈ applyScores _ _ at he
    obtain ⟨e0, he0, rfl⟩ := List.mem_map.mp he
    exact h.key_id e0 he0
  · intro e he
    change e ∈ applyScores _ _ at he
    obtain ⟨e0, he0, rfl⟩ := List.mem_map.mp he
    exact h.name_ne e0 he0
  · show (if (s.round : ℚ) ≥ s.totalRounds then Status.ended else Status.revealing)
      ≠ Status.assigning
    split <;> simp
  · show (none : Option Roles).isSome = true ↔
      (if (s.round : ℚ) ≥ s.totalRounds then Status.ended else Status.revealing)
        = Status.guessing
    split <;> simp
  · show (if (s.round : ℚ) ≥ s.totalRounds then Status.ended else Status.revealing)
        = Status.lobby ∨
      (if (s.round : ℚ) ≥ s.totalRounds then Status.ended else Status.revealing)
        = Status.revealing → (s.round : ℚ) < s.totalRounds
    split
    · simp
    · rename_i hlt
      intro _; exact lt_of_not_ge hlt
  · intro e he k hk
    show k ∈ (applyScores _ _).keys
    rw [hkeys]
    change e ∈ s.history ++ [roundEntry s roles guesserId targetId] at he
    rcases List.mem_append.mp he with h1 | h1
    · exact h.delta_keys e h1 k hk
    · have : e = roundEntry s roles guesserId targetId := by simpa using h1
      subst this
      rcases roundDelta_mem_keys _ _ _ _ hk with h2 | h2
      · exact h2
      · exact h.roles_sub roles hr k h2
  · intro e he
    change e ∈ applyScores _ _ at he
    obtain ⟨e0, he0, rfl⟩ := List.mem_map.mp he
    show e0.2.score + numOr ((roundDelta s.players roles targetId).get (some e0.1)) 0 =
      historyScore (s.history ++ [roundEntry s roles guesserId targetId]) e0.1
    rw [historyScore_append, numOr_zero, h.score_sum e0 he0]
    rfl

theorem findGame_cases (games : Games) (teamCode : TeamCode) :
    (games.get teamCode = none ∧ findGame games teamCode = .error "Game not found") ∨
    ∃ state, games.get teamCode = some state ∧ findGame games teamCode = .ok state ∧
      (teamCode, state) ∈ games := by
  unfold findGame
  cases h : games.get teamCode with
  | none => exact Or.inl ⟨rfl, rfl⟩
  | some state => exact Or.inr ⟨state, rfl, rfl, JsMap.mem_of_get h⟩

theorem SessionInv.reconnected {code : TeamCode} {s : State} (h : SessionInv code s)
    (playerId : PlayerId) (p : Player) (hp : s.players.get playerId = some p)
    (sid : Option SocketId) (conn : Bool) :
    SessionInv code
      { s with players := s.players.set playerId { p with socketId := sid, connected := conn } } := by
  apply h.liveness
  · exact JsMap.keys_set_of_mem _ ((JsMap.get_isSome_iff _ _).mp (by rw [hp]; rfl))
  · intro e he
    rcases JsMap.mem_set he with h1 | h1
    · subst h1
      exact ⟨(playerId, p), JsMap.mem_of_get hp, rfl, rfl, rfl, rfl⟩
    · exact ⟨e, h1, rfl, rfl, rfl, rfl⟩

/-- The state left by the `disconnect` loop differs from the state before in its players
only, and the players keep their keys, ids and scores. -/
theorem disconnectState_players (socket : SocketId) (s : State) :
    ∃ players, (disconnectState socket s).1 = { s with players := players } ∧
      players.keys = s.players.keys ∧
      ∀ e ∈ players, ∃ e0 ∈ s.players, e.1 = e0.1 ∧ e.2.id = e0.2.id ∧
        e.2.name = e0.2.name ∧ e.2.score = e0.2.score := by
  unfold disconnectState
  suffices hgen : ∀ (l : List (PlayerId × Player)), (∀ e ∈ l, e ∈ s.players) →
      ∀ acc : State × List Msg,
      (∃ players, acc.1 = { s with players := players } ∧ players.keys = s.players.keys ∧
        ∀ e ∈ players, ∃ e0 ∈ s.players, e.1 = e0.1 ∧ e.2.id = e0.2.id ∧
          e.2.name = e0.2.name ∧ e.2.score = e0.2.score) →
      ∃ players, (l.foldl (fun acc e =>
        if e.2.socketId = some socket then
          let p := { e.2 with connected := false }
          let p := { p with socketId := none }
          let state := { acc.1 with players := acc.1.players.set e.1 p }
          (state, acc.2 ++ [broadcastLobby state])
        else acc) acc).1 = { s with players := players } ∧ players.keys = s.players.keys ∧
        ∀ e ∈ players, ∃ e0 ∈ s.players, e.1 = e0.1 ∧ e.2.id = e0.2.id ∧
          e.2.name = e0.2.name ∧ e.2.score = e0.2.score by
    exact hgen s.players (fun _ he => he) (s, [])
      ⟨s.players, rfl, rfl, fun e he => ⟨e, he, rfl, rfl, rfl, rfl⟩⟩
  intro l
  induction l with
  | nil => intro _ acc hacc; exact hacc
  | cons e rest ih =>
    intro hl acc hacc
    rw [List.foldl_cons]
    apply ih (fun e2 he2 => hl e2 (List.mem_cons_of_mem _ he2))
    by_cases hs : e.2.socketId = some socket
    · rw [if_pos hs]
      obtain ⟨players, h1, h2, h3⟩ := hacc
      have hmem : e.1 ∈ players.keys := by
        rw [h2]; exact List.mem_map.mpr ⟨e, hl e (List.mem_cons_self _ _), rfl⟩
      refine ⟨players.set e.1 { e.2 with connected := false, socketId := none }, ?_, ?_, ?_⟩
      · simp only [h1]
      · rw [JsMap.keys_set_of_mem _ hmem]; exact h2
      · intro e2 he2
        rcases JsMap.mem_set he2 with h4 | h4
        · subst h4
          exact ⟨e, hl e (List.mem_cons_self _ _), rfl, rfl, rfl, rfl⟩
        · exact h3 e2 h4
    · rw [if_neg hs]; exact hacc

theorem SessionInv.disconnected {code : TeamCode} {s : State} (h : SessionInv code s)
    (socket : SocketId) : SessionInv code (disconnectState socket s).1 := by
  obtain ⟨players, h1, h2, h3⟩ := disconnectState_players socket s
  rw [h1]
  exact h.liveness players h2 h3

/-! ## The invariant holds in every reachable registry -/

theorem GamesInv.set {games : Games} (h : GamesInv games) (code : TeamCode) (s : State)
    (hs : SessionInv code s) : GamesInv (JsMap.set games code s) :=
  JsMap.forall_set h hs

theorem GamesInv.create {games : Games} (h : GamesInv games) (socket : SocketId)
    (rnd : Nat → Fin 32) (uuid : PlayerId) (hostName : Option String)
    (totalRounds : Option ℚ) :
    GamesInv (lobbyCreate games socket rnd uuid hostName totalRounds).1 :=
  h.set _ _ (SessionInv.created socket (makeTeamCode rnd) uuid hostName totalRounds)

theorem GamesInv.dismantle {games : Games} (h : GamesInv games) (socket : SocketId)
    (teamCode : TeamCode) (playerId : PlayerId) :
    GamesInv (lobbyDismantle games socket teamCode playerId).1 := by
  unfold lobbyDismantle
  rcases findGame_cases games teamCode with ⟨_, hf⟩ | ⟨s, _, hf, _⟩
  · rw [hf]; exact h
  · rw [hf]
    simp only
    split
    · exact h
    · intro e he
      exact h e (JsMap.mem_delete he).1

theorem GamesInv.join {games : Games} (h : GamesInv games) (socket : SocketId)
    (teamCode : TeamCode) (uuid : PlayerId) (playerName : Option String)
    (hfresh : FreshId games uuid) :
    GamesInv (lobbyJoin games socket teamCode uuid playerName).1 := by
  unfold lobbyJoin
  rcases findGame_cases games teamCode with ⟨_, hf⟩ | ⟨s, _, hf, hm⟩
  · rw [hf]; exact h
  · rw [hf]
    exact h.set _ _ ((h _ hm).joined uuid _ rfl (strOr_ne playerName (by decide)) rfl (hfresh _ hm))

theorem GamesInv.reconnect {games : Games} (h : GamesInv games) (socket : SocketId)
    (teamCode : TeamCode) (playerId : PlayerId) :
    GamesInv (playerReconnect games socket teamCode playerId).1 := by
  unfold playerReconnect
  rcases findGame_cases games teamCode with ⟨_, hf⟩ | ⟨s, _, hf, hm⟩
  · rw [hf]; exact h
  · rw [hf]
    simp only
    cases hp : s.players.get playerId with
    | none => exact h
    | some p => exact h.set _ _ ((h _ hm).reconnected playerId p hp (some socket) true)

theorem GamesInv.start {games : Games} (h : GamesInv games) (socket : SocketId)
    (teamCode : TeamCode) (playerId : PlayerId) (rnd : Draws) :
    GamesInv (roundStart games socket teamCode playerId rnd).1 := by
  unfold roundStart
  rcases findGame_cases games teamCode with ⟨_, hf⟩ | ⟨s, _, hf, hm⟩
  · rw [hf]; exact h
  · rw [hf]
    simp only
    split
    · exact h
    · split
      · exact h
      · split
        · exact h
        · rename_i h1 h2
          exact h.set _ _ ((h _ hm).started rnd h1 h2)

theorem GamesInv.guess {games : Games} (h : GamesInv games) (socket : SocketId)
    (teamCode : TeamCode) (playerId targetId : PlayerId) :
    GamesInv (policeGuess games socket teamCode playerId targetId).1 := by
  unfold policeGuess
  rcases findGame_cases games teamCode with ⟨_, hf⟩ | ⟨s, _, hf, hm⟩
  · rw [hf]; exact h
  · rw [hf]
    simp only
    cases hr : s.roles with
    | none => exact h
    | some roles =>
      simp only
      split
      · exact h
      · split
        · exact h
        · obtain ⟨msgs, hend⟩ := endRoundWithGuess_state s roles playerId targetId hr
          rw [hend]
          exact h.set _ _ ((h _ hm).guessed roles hr playerId targetId)

theorem GamesInv.disconnect {games : Games} (h : GamesInv games) (socket : SocketId) :
    GamesInv (disconnect games socket).1 := by
  unfold PoliceVsThief.disconnect
  suffices hgen : ∀ (l : List (TeamCode × State)), (∀ e ∈ l, SessionInv e.1 e.2) →
      ∀ acc : Games × List Msg, GamesInv acc.1 →
      GamesInv (l.foldl (fun acc e =>
        let r := disconnectState socket e.2
        (acc.1.set e.1 r.1, acc.2 ++ r.2)) acc).1 from hgen games h (games, []) h
  intro l
  induction l with
  | nil => intro _ acc hacc; exact hacc
  | cons e rest ih =>
    intro hl acc hacc
    rw [List.foldl_cons]
    apply ih (fun e2 he2 => hl e2 (List.mem_cons_of_mem _ he2))
    exact GamesInv.set hacc _ _ ((hl e (List.mem_cons_self _ _)).disconnected socket)

theorem GamesInv.handle {games : Games} (h : GamesInv games) (a : Action)
    (hf : FreshAction games a) : GamesInv (handle games a).1 := by
  cases a with
  | create socket rnd uuid hostName totalRounds => exact h.create _ _ _ _ _
  | dismantle socket teamCode playerId => exact h.dismantle _ _ _
  | join socket teamCode uuid playerName => exact h.join _ _ _ _ hf
  | reconnect socket teamCode playerId => exact h.reconnect _ _ _
  | start socket teamCode playerId rnd => exact h.start _ _ _ _
  | guess socket teamCode playerId targetId => exact h.guess _ _ _ _
  | disconnect socket => exact h.disconnect _

theorem Reachable.inv {games : Games} (h : Reachable games) : GamesInv games := by
  induction h with
  | empty => intro e he; simp at he
  | step a _ hf ih => exact ih.handle a hf

/-! ## The sample run is reachable -/

theorem demoGames1_reachable : Reachable demoGames1 :=
  Reachable.step _ Reachable.empty (by intro e he; simp at he)

theorem demoGames2_reachable : Reachable demoGames2 :=
  Reachable.step _ demoGames1_reachable (by show ∀ e ∈ demoGames1, 2 ∉ e.2.players.keys; decide)

theorem demoGames3_reachable : Reachable demoGames3 :=
  Reachable.step _ demoGames2_reachable (by show ∀ e ∈ demoGames2, 3 ∉ e.2.players.keys; decide)

theorem demoGames4_reachable : Reachable demoGames4 :=
  Reachable.step _ demoGames3_reachable trivial

theorem demoGames5_reachable : Reachable demoGames5 :=
  Reachable.step _ demoGames4_reachable trivial

theorem demoGames3_get : demoGames3.get "AAAAAA" = some demoLobby := by decide

theorem demoGames4_get : demoGames4.get "AAAAAA" = some demoGuessing := by decide

theorem rejected_iff (games : Games) (socket : SocketId) (out : Games × List Msg) :
    rejected games socket out = true ↔ ∃ message, out = (games, [toast socket message]) := by
  obtain ⟨g, msgs⟩ := out
  unfold rejected toast
  constructor
  · intro h
    simp only [Bool.and_eq_true, decide_eq_true_eq] at h
    obtain ⟨h1, h2⟩ := h
    split at h2
    · rename_i dest message
      simp only [decide_eq_true_eq] at h2
      exact ⟨message, by subst h2; subst h1; rfl⟩
    · cases h2
  · rintro ⟨message, h⟩
    cases h
    simp

/-! ## The handlers of `round:start` and `police:guess`, case by case -/

theorem endRoundWithGuess_eq (state : State) (roles : Roles) (guesserId targetId : PlayerId)
    (h : state.roles = some roles) :
    endRoundWithGuess state guesserId targetId =
      .ok (roundEndState state roles guesserId targetId,
        if (state.round : ℚ) ≥ state.totalRounds then
          [roundResultMsg state roles guesserId targetId,
           { dest := .room state.teamCode
             payload := .gameEnded (winnersOf (roundEndState state roles guesserId targetId))
               (currentTotals (roundEndState state roles guesserId targetId)) },
           broadcastLobby (roundEndState state roles guesserId targetId)]
        else [roundResultMsg state roles guesserId targetId,
          broadcastLobby (roundEndState state roles guesserId targetId)]) := by
  unfold endRoundWithGuess
  rw [h]
  by_cases hr : (state.round : ℚ) ≥ state.totalRounds
  · simp [hr, roundEndState, roundEntry, roundDelta, initDelta, addCivilians, applyScores,
      currentTotals, winnersOf, getPublicPlayers, broadcastLobby, roundResultMsg]
  · simp [hr, roundEndState, roundEntry, roundDelta, initDelta, addCivilians, applyScores,
      currentTotals, winnersOf, getPublicPlayers, broadcastLobby, roundResultMsg]

theorem findGame_of_get {games : Games} {teamCode : TeamCode} {s : State}
    (h : games.get teamCode = some s) : findGame games teamCode = .ok s := by
  unfold findGame; rw [h]

theorem findGame_of_none {games : Games} {teamCode : TeamCode}
    (h : games.get teamCode = none) : findGame games teamCode = .error "Game not found" := by
  unfold findGame; rw [h]

theorem roundStart_eq (games : Games) (socket : SocketId) (teamCode : TeamCode)
    (playerId : PlayerId) (rnd : Draws) (s : State) (hs : games.get teamCode = some s) :
    roundStart games socket teamCode playerId rnd =
      if some playerId ≠ starterOf s then
        (games, [toast socket ("It\x27s " ++
          strOr (((starterOf s).bind s.players.get).map (fun p => p.name)) "the next player"
          ++ "\x27s turn to start the round.")])
      else if s.status = Status.ended then (games, [toast socket "Game already ended"])
      else if s.status = Status.guessing then (games, [toast socket "Round in progress"])
      else (games.set teamCode (startRound rnd s).1, (startRound rnd s).2) := by
  unfold roundStart
  rw [findGame_of_get hs]
  rfl

theorem policeGuess_eq (games : Games) (socket : SocketId) (teamCode : TeamCode)
    (playerId targetId : PlayerId) (s : State) (hs : games.get teamCode = some s) :
    policeGuess games socket teamCode playerId targetId =
      match s.roles with
      | none => (games, [toast socket "No active round"])
      | some roles =>
        if some playerId ≠ roles.policeId then (games, [toast socket "Only police can guess"])
        else if targetId ∉ s.players.keys then (games, [toast socket "Invalid target"])
        else (games.set teamCode (roundEndState s roles playerId targetId),
          if (s.round : ℚ) ≥ s.totalRounds then
            [roundResultMsg s roles playerId targetId,
             { dest := .room s.teamCode
               payload := .gameEnded (winnersOf (roundEndState s roles playerId targetId))
                 (currentTotals (roundEndState s roles playerId targetId)) },
             broadcastLobby (roundEndState s roles playerId targetId)]
          else [roundResultMsg s roles playerId targetId,
            broadcastLobby (roundEndState s roles playerId targetId)]) := by
  unfold policeGuess
  rw [findGame_of_get hs]
  simp only
  cases hr : s.roles with
  | none => rfl
  | some roles =>
    simp only
    by_cases h1 : some playerId ≠ roles.policeId
    · rw [if_pos h1, if_pos h1]
    · rw [if_neg h1, if_neg h1]
      by_cases h2 : targetId ∈ s.players.keys
      · have h3 : ¬ ¬ s.players.has targetId = true := by
          rw [JsMap.has_iff]; exact fun h => h h2
        rw [if_neg h3, if_neg (fun h => h h2), endRoundWithGuess_eq s roles _ _ hr]
      · have h3 : ¬ s.players.has targetId = true := by
          rw [JsMap.has_iff]; exact h2
        rw [if_pos h3, if_pos h2]

theorem startRound_msgs (rnd : Draws) (s : State) :
    ∃ secret revealed, (startRound rnd s).2 =
      secret ++ [revealed, broadcastLobby (startRound rnd s).1] := by
  simp only [startRound, assignRoles]
  exact ⟨_, _, rfl⟩

theorem rejected_of_toast (games : Games) (socket : SocketId) (message : String) :
    rejected games socket (games, [toast socket message]) = true :=
  (rejected_iff _ _ _).mpr ⟨message, rfl⟩

theorem not_rejected_of_length (games : Games) (socket : SocketId) (out : Games × List Msg)
    (h : 2 ≤ out.2.length) : rejected games socket out = false := by
  cases hr : rejected games socket out with
  | false => rfl
  | true =>
    obtain ⟨message, hm⟩ := (rejected_iff _ _ _).mp hr
    rw [hm] at h
    simp at h

theorem startRound_not_rejected (games games2 : Games) (socket : SocketId) (rnd : Draws)
    (s : State) : rejected games socket (games2, (startRound rnd s).2) = false := by
  apply not_rejected_of_length
  obtain ⟨secret, revealed, h⟩ := startRound_msgs rnd s
  simp only [h, List.length_append, List.length_cons, List.length_nil]
  omega

theorem Reachable.session {games : Games} (h : Reachable games) {teamCode : TeamCode}
    {s : State} (hs : games.get teamCode = some s) : SessionInv teamCode s :=
  h.inv _ (JsMap.mem_of_get hs)

theorem SessionInv.starter {code : TeamCode} {s : State} (h : SessionInv code s) :
    ∃ starterId starter, starterOf s = some starterId ∧
      s.players.get starterId = some starter ∧ starter.name ≠ "" := by
  have hlen : 0 < s.order.length := by
    rw [h.order_eq]
    cases hp : s.players with
    | nil => exact absurd hp h.players_ne
    | cons a l => simp [JsMap.keys]
  have hidx : s.round % s.order.length < s.order.length := Nat.mod_lt _ hlen
  have hmem : s.order[s.round % s.order.length] ∈ s.players.keys := by
    rw [← h.order_eq]; exact List.getElem_mem hidx
  have hsome := (JsMap.get_isSome_iff _ _).mpr hmem
  obtain ⟨p, hp⟩ := Option.isSome_iff_exists.mp hsome
  exact ⟨_, p, by unfold starterOf; exact List.getElem?_eq_getElem hidx, hp,
    h.name_ne _ (JsMap.mem_of_get hp)⟩

theorem SessionInv.status_cases {code : TeamCode} {s : State} (h : SessionInv code s) :
    s.status = Status.lobby ∨ s.status = Status.revealing ∨ s.status = Status.guessing ∨
      s.status = Status.ended := by
  have := h.status_ne
  cases hs : s.status <;> simp_all

/-! ## Claims on the reachable states -/

/-- C3: in every registry reachable from the empty one by create, dismantle, join, reconnect,
start, guess and disconnect requests (with fresh `randomUUID()` tokens), the score of every
player of every session is the sum over the history of the entry's delta for that player,
counting 0 where the delta map has no entry for the player. -/
theorem score_eq_history_sum {games : Games} (h : Reachable games) :
    ∀ e ∈ games, ∀ q ∈ e.2.players, q.2.score = historyScore e.2.history q.1 :=
  fun e he => (h.inv e he).score_sum

/-- The scores of the sample run after its single round. -/
theorem score_eq_history_sum_witness :
    Reachable demoGames5 ∧
    (demoGames5.get "AAAAAA").map (fun s => s.players.values.map (fun p => p.score))
      = some [900, 1000, 0] ∧
    ∀ e ∈ demoGames5, ∀ q ∈ e.2.players, q.2.score = historyScore e.2.history q.1 :=
  ⟨demoGames5_reachable, by decide, score_eq_history_sum demoGames5_reachable⟩

/-- C4: in a reachable registry the designated starter `order[round mod |order|]` of a
session exists; a `round:start` request by `playerId` is not refused exactly when the status
is lobby or revealing and `playerId` is that starter; it then runs `startRound`, which
increases `round` by one and leaves the status guessing with a roles object; a request by
anyone else is refused with the message naming the starter, the registry unchanged. -/
theorem roundStart_spec {games : Games} (h : Reachable games) (socket : SocketId)
    (teamCode : TeamCode) (playerId : PlayerId) (rnd : Draws) (s : State)
    (hs : games.get teamCode = some s) :
    ∃ starterId starter, starterOf s = some starterId ∧
      s.players.get starterId = some starter ∧
      (rejected games socket (roundStart games socket teamCode playerId rnd) = false ↔
        (s.status = Status.lobby ∨ s.status = Status.revealing) ∧ playerId = starterId) ∧
      ((s.status = Status.lobby ∨ s.status = Status.revealing) ∧ playerId = starterId →
        ∃ after, roundStart games socket teamCode playerId rnd =
            (games.set teamCode after, (startRound rnd s).2) ∧
          after = (startRound rnd s).1 ∧
          (games.set teamCode after).get teamCode = some after ∧
          after.round = s.round + 1 ∧ after.status = Status.guessing ∧
          after.roles.isSome = true) ∧
      (playerId ≠ starterId →
        roundStart games socket teamCode playerId rnd =
          (games, [toast socket
            ("It\x27s " ++ starter.name ++ "\x27s turn to start the round.")])) := by
  have hinv := h.session hs
  obtain ⟨starterId, starter, h1, h2, h3⟩ := hinv.starter
  have heq := roundStart_eq games socket teamCode playerId rnd s hs
  rw [h1] at heq
  have hname : strOr (((some starterId).bind s.players.get).map (fun p => p.name))
      "the next player" = starter.name := by
    simp [h2, strOr, h3]
  rw [hname] at heq
  refine ⟨starterId, starter, h1, h2, ?_, ?_, ?_⟩
  · rw [heq]
    by_cases hp : playerId = starterId
    · subst hp
      simp only [ne_eq, not_true_eq_false, if_false, and_true]
      rcases hinv.status_cases with hst | hst | hst | hst
      · simp [hst, startRound_not_rejected]
      · simp [hst, startRound_not_rejected]
      · simp [hst, rejected_of_toast]
      · simp [hst, rejected_of_toast]
    · have : some playerId ≠ some starterId := by simpa using hp
      rw [if_pos this, rejected_of_toast]
      simp [hp]
  · rintro ⟨hst, hp⟩
    subst hp
    have e1 : s.status ≠ Status.ended := by rcases hst with h | h <;> simp [h]
    have e2 : s.status ≠ Status.guessing := by rcases hst with h | h <;> simp [h]
    refine ⟨(startRound rnd s).1, ?_, rfl, JsMap.get_set_self _ _ _, ?_, ?_, ?_⟩
    · rw [heq]; simp [e1, e2]
    · rw [startRound_state]
    · rw [startRound_state]
    · rw [startRound_state]; simp [assignRoles]
  · intro hp
    have : some playerId ≠ some starterId := by simpa using hp
    rw [heq, if_pos this]

/-- The host of the sample lobby, who is the designated starter, starts round 1. -/
theorem roundStart_spec_witness :
    Reachable demoGames3 ∧ demoGames3.get "AAAAAA" = some demoLobby ∧
    ∃ starterId starter, starterOf demoLobby = some starterId ∧
      demoLobby.players.get starterId = some starter ∧
      (rejected demoGames3 100 (roundStart demoGames3 100 "AAAAAA" 1 demoDraws) = false ↔
        (demoLobby.status = Status.lobby ∨ demoLobby.status = Status.revealing) ∧
          1 = starterId) ∧
      ((demoLobby.status = Status.lobby ∨ demoLobby.status = Status.revealing) ∧
          1 = starterId →
        ∃ after, roundStart demoGames3 100 "AAAAAA" 1 demoDraws =
            (demoGames3.set "AAAAAA" after, (startRound demoDraws demoLobby).2) ∧
          after = (startRound demoDraws demoLobby).1 ∧
          (demoGames3.set "AAAAAA" after).get "AAAAAA" = some after ∧
          after.round = demoLobby.round + 1 ∧ after.status = Status.guessing ∧
          after.roles.isSome = true) ∧
      (1 ≠ starterId →
        roundStart demoGames3 100 "AAAAAA" 1 demoDraws =
          (demoGames3, [toast 100
            ("It\x27s " ++ starter.name ++ "\x27s turn to start the round.")])) :=
  ⟨demoGames3_reachable, demoGames3_get,
    roundStart_spec demoGames3_reachable 100 "AAAAAA" 1 demoDraws demoLobby demoGames3_get⟩

/-- C5: in a reachable registry a roles object is present exactly when the status is
guessing, and a `police:guess` request is refused with `No active round` when the status is
not guessing, else with `Only police can guess` when the requester is not the police, else
with `Invalid target` when the target is not a player; otherwise `endRoundWithGuess` runs and
its result is stored. So the request is not refused exactly when the status is guessing, the
requester is the police and the target is a player. -/
theorem policeGuess_spec {games : Games} (h : Reachable games) (socket : SocketId)
    (teamCode : TeamCode) (playerId targetId : PlayerId) (s : State)
    (hs : games.get teamCode = some s) :
    (s.roles.isSome = true ↔ s.status = Status.guessing) ∧
    (s.status ≠ Status.guessing →
      policeGuess games socket teamCode playerId targetId =
        (games, [toast socket "No active round"])) ∧
    (s.status = Status.guessing →
      ∃ roles policeId, s.roles = some roles ∧ roles.policeId = some policeId ∧
        (playerId ≠ policeId →
          policeGuess games socket teamCode playerId targetId =
            (games, [toast socket "Only police can guess"])) ∧
        (playerId = policeId → targetId ∉ s.players.keys →
          policeGuess games socket teamCode playerId targetId =
            (games, [toast socket "Invalid target"])) ∧
        (playerId = policeId → targetId ∈ s.players.keys →
          ∃ after msgs, endRoundWithGuess s playerId targetId = .ok (after, msgs) ∧
            policeGuess games socket teamCode playerId targetId =
              (games.set teamCode after, msgs))) ∧
    (rejected games socket (policeGuess games socket teamCode playerId targetId) = false ↔
      s.status = Status.guessing ∧
        (∃ roles, s.roles = some roles ∧ roles.policeId = some playerId) ∧
        targetId ∈ s.players.keys) := by
  have hinv := h.session hs
  have heq := policeGuess_eq games socket teamCode playerId targetId s hs
  refine ⟨hinv.roles_iff, ?_, ?_, ?_⟩
  · intro hst
    have : s.roles = none := by
      cases hr : s.roles with
      | none => rfl
      | some r => exact absurd (hinv.roles_iff.mp (by rw [hr]; rfl)) hst
    rw [heq, this]
  · intro hst
    obtain ⟨roles, hr⟩ := Option.isSome_iff_exists.mp (hinv.roles_iff.mpr hst)
    obtain ⟨policeId, hp⟩ := Option.isSome_iff_exists.mp (hinv.police_some roles hr)
    rw [hr] at heq
    simp only [hp] at heq
    refine ⟨roles, policeId, hr, hp, ?_, ?_, ?_⟩
    · intro hne
      have : some playerId ≠ some policeId := by simpa using hne
      rw [heq, if_pos this]
    · intro he ht
      subst he
      rw [heq]; simp [ht]
    · intro he ht
      subst he
      refine ⟨_, _, endRoundWithGuess_eq s roles playerId targetId hr, ?_⟩
      rw [heq]; simp [ht]
  · rw [heq]
    cases hr : s.roles with
    | none =>
      have hst : s.status ≠ Status.guessing := fun hst => by
        have := hinv.roles_iff.mpr hst
        rw [hr] at this; cases this
      simp [rejected_of_toast, hst]
    | some roles =>
      have hst : s.status = Status.guessing := hinv.roles_iff.mp (by rw [hr]; rfl)
      simp only [hst, true_and, Option.some.injEq, exists_eq_left']
      by_cases h1 : some playerId ≠ roles.policeId
      · rw [if_pos h1, rejected_of_toast]
        simp only [Bool.true_eq_false, false_iff, not_and]
        intro h2; exact absurd h2.symm h1
      · rw [if_neg h1]
        have h1b : roles.policeId = some playerId := by
          by_contra hc; exact h1 (fun h => hc h.symm)
        by_cases h2 : targetId ∈ s.players.keys
        · rw [if_neg (fun hn => hn h2), not_rejected_of_length]
          · simp [h1b, h2]
          · simp only; split <;> simp
        · rw [if_pos h2, rejected_of_toast]
          simp [h2]

/-- The police `2` of the sample round names player `3`. -/
theorem policeGuess_spec_witness :
    Reachable demoGames4 ∧ demoGames4.get "AAAAAA" = some demoGuessing ∧
    (demoGuessing.roles.isSome = true ↔ demoGuessing.status = Status.guessing) ∧
    (demoGuessing.status ≠ Status.guessing →
      policeGuess demoGames4 101 "AAAAAA" 2 3 = (demoGames4, [toast 101 "No active round"])) ∧
    (demoGuessing.status = Status.guessing →
      ∃ roles policeId, demoGuessing.roles = some roles ∧ roles.policeId = some policeId ∧
        (2 ≠ policeId →
          policeGuess demoGames4 101 "AAAAAA" 2 3 =
            (demoGames4, [toast 101 "Only police can guess"])) ∧
        (2 = policeId → 3 ∉ demoGuessing.players.keys →
          policeGuess demoGames4 101 "AAAAAA" 2 3 =
            (demoGames4, [toast 101 "Invalid target"])) ∧
        (2 = policeId → 3 ∈ demoGuessing.players.keys →
          ∃ after msgs, endRoundWithGuess demoGuessing 2 3 = .ok (after, msgs) ∧
            policeGuess demoGames4 101 "AAAAAA" 2 3 =
              (demoGames4.set "AAAAAA" after, msgs))) ∧
    (rejected demoGames4 101 (policeGuess demoGames4 101 "AAAAAA" 2 3) = false ↔
      demoGuessing.status = Status.guessing ∧
        (∃ roles, demoGuessing.roles = some roles ∧ roles.policeId = some 2) ∧
        3 ∈ demoGuessing.players.keys) :=
  ⟨demoGames4_reachable, demoGames4_get,
    policeGuess_spec demoGames4_reachable 101 "AAAAAA" 2 3 demoGuessing demoGames4_get⟩

/-! ## Secrecy of the thief at round start -/

/-- The messages of `startRound`: one private role message per player with a channel, then
the police reveal and the snapshot for the room. -/
theorem startRound_msgs_eq (rnd : Draws) (s : State) (roles : Roles)
    (hr : (assignRoles rnd s).roles = some roles) :
    (startRound rnd s).2 =
      s.players.filterMap (fun e =>
        match e.2.socketId with
        | none => none
        | some socketId =>
          if some e.1 = roles.policeId then
            some { dest := .socket socketId, payload := .roundRole .POLICE POLICE_WIN }
          else if some e.1 = roles.thiefId then
            some { dest := .socket socketId, payload := .roundRole .THIEF 0 }
          else
            some { dest := .socket socketId
                   payload := .roundRole .CIVILIAN
                     (numOr (JsMap.get (roles.civilians.foldl
                       (fun (m : JsMap PlayerId Int) c => m.set c.id c.pts) []) e.1) 0) })
      ++ [{ dest := .room s.teamCode
            payload := .policeRevealed (s.round + 1) roles.policeId
              ((roles.policeId.bind s.players.get).map (fun p => p.name)) },
          broadcastLobby (startRound rnd s).1] := by
  simp only [assignRoles, Option.some.injEq] at hr
  subst hr
  simp [startRound, assignRoles]

theorem roomMsgs_startRound (rnd : Draws) (s : State) (roles : Roles)
    (hr : (assignRoles rnd s).roles = some roles) :
    roomMsgs (startRound rnd s).2 =
      [{ dest := .room s.teamCode
         payload := .policeRevealed (s.round + 1) roles.policeId
           ((roles.policeId.bind s.players.get).map (fun p => p.name)) },
       broadcastLobby (startRound rnd s).1] := by
  rw [startRound_msgs_eq rnd s roles hr]
  unfold roomMsgs
  rw [List.filter_append]
  have h1 : ∀ (l : List Msg), (∀ m ∈ l, isRoomMsg m = false) → l.filter isRoomMsg = [] := by
    intro l hl
    exact List.filter_eq_nil_iff.mpr (fun m hm => by rw [hl m hm]; simp)
  rw [h1]
  · simp [isRoomMsg, broadcastLobby]
  · intro m hm
    obtain ⟨e, _, he⟩ := List.mem_filterMap.mp hm
    split at he
    · cases he
    · split at he
      · cases he; rfl
      · split at he
        · cases he; rfl
        · cases he; rfl

theorem broadcastLobby_startRound (rnd rnd2 : Draws) (s : State) :
    broadcastLobby (startRound rnd s).1 = broadcastLobby (startRound rnd2 s).1 := by
  simp [startRound_state, broadcastLobby, getPublicPlayers]

/-- C6: in the messages of `startRound`, every message carrying the THIEF role is addressed
to the channel of a player whose key is the thief of the stored roles; the session-wide
messages are the police reveal (round, police id, police name) followed by the snapshot; and
for two outcomes of the draws that agree on the police, the session-wide messages are the
same, whoever the thief is. -/
theorem startRound_secrecy (rnd rnd2 : Draws) (s : State)
    (hpolice : (assignRoles rnd s).roles.map (fun r => r.policeId) =
      (assignRoles rnd2 s).roles.map (fun r => r.policeId)) :
    (∀ m ∈ (startRound rnd s).2, ∀ pts, m.payload = .roundRole .THIEF pts →
      ∃ e ∈ s.players, ∃ socketId roles, (startRound rnd s).1.roles = some roles ∧
        roles.thiefId = some e.1 ∧ e.2.socketId = some socketId ∧
        m.dest = .socket socketId) ∧
    (∃ roles, (startRound rnd s).1.roles = some roles ∧
      roomMsgs (startRound rnd s).2 =
        [{ dest := .room s.teamCode
           payload := .policeRevealed (s.round + 1) roles.policeId
             ((roles.policeId.bind s.players.get).map (fun p => p.name)) },
         broadcastLobby (startRound rnd s).1]) ∧
    roomMsgs (startRound rnd s).2 = roomMsgs (startRound rnd2 s).2 := by
  obtain ⟨civs, hr, _⟩ := assignRoles_roles rnd s
  obtain ⟨civs2, hr2, _⟩ := assignRoles_roles rnd2 s
  have hst : (startRound rnd s).1.roles = (assignRoles rnd s).roles := by
    rw [startRound_state]
  refine ⟨?_, ⟨_, hst.trans hr, roomMsgs_startRound rnd s _ hr⟩, ?_⟩
  · intro m hm pts hpay
    rw [startRound_msgs_eq rnd s _ hr] at hm
    rcases List.mem_append.mp hm with h1 | h1
    · obtain ⟨e, he, hmk⟩ := List.mem_filterMap.mp h1
      split at hmk
      · cases hmk
      · rename_i socketId hsock
        split at hmk
        · cases hmk; cases hpay
        · split at hmk
          · rename_i _ hth
            cases hmk
            exact ⟨e, he, socketId, _, hst.trans hr, hth.symm, hsock, rfl⟩
          · cases hmk; cases hpay
    · simp only [List.mem_cons, List.mem_singleton, List.not_mem_nil, or_false] at h1
      rcases h1 with h1 | h1
      · subst h1; cases hpay
      · subst h1; simp [broadcastLobby] at hpay
  · rw [roomMsgs_startRound rnd s _ hr, roomMsgs_startRound rnd2 s _ hr2,
      broadcastLobby_startRound rnd rnd2 s]
    rw [hr, hr2] at hpolice
    simp only [Option.map_some', Option.some.injEq] at hpolice
    simp only [hpolice]

/-- On the sample lobby two outcomes of the draws make player `2` the police, with thief `3`
and thief `1`; the room hears the same. -/
theorem startRound_secrecy_witness :
    (assignRoles demoDraws demoLobby).roles.map (fun r => r.policeId) =
      (assignRoles demoDraws2 demoLobby).roles.map (fun r => r.policeId) ∧
    (assignRoles demoDraws demoLobby).roles.map (fun r => r.thiefId) ≠
      (assignRoles demoDraws2 demoLobby).roles.map (fun r => r.thiefId) ∧
    (∀ m ∈ (startRound demoDraws demoLobby).2, ∀ pts, m.payload = .roundRole .THIEF pts →
      ∃ e ∈ demoLobby.players, ∃ socketId roles,
        (startRound demoDraws demoLobby).1.roles = some roles ∧
        roles.thiefId = some e.1 ∧ e.2.socketId = some socketId ∧
        m.dest = .socket socketId) ∧
    (∃ roles, (startRound demoDraws demoLobby).1.roles = some roles ∧
      roomMsgs (startRound demoDraws demoLobby).2 =
        [{ dest := .room demoLobby.teamCode
           payload := .policeRevealed (demoLobby.round + 1) roles.policeId
             ((roles.policeId.bind demoLobby.players.get).map (fun p => p.name)) },
         broadcastLobby (startRound demoDraws demoLobby).1]) ∧
    roomMsgs (startRound demoDraws demoLobby).2 = roomMsgs (startRound demoDraws2 demoLobby).2 :=
  ⟨by decide, by decide, startRound_secrecy demoDraws demoDraws2 demoLobby (by decide)⟩

/-! ## Failed requests -/

/-- C7: for every registry and every dismantle, join, reconnect, start or guess request that
fails, the registry returned by the handler is the registry before the request (so every
session keeps its status, round, scores, roles, players, order and history), and the only
message emitted is an `error:toast` on the requesting channel. -/
theorem failed_request_unchanged (games : Games) (a : Action) (hfail : Fails games a) :
    ∃ message, handle games a = (games, [toast a.socket message]) := by
  cases a with
  | create socket rnd uuid hostName totalRounds => exact absurd hfail id
  | disconnect socket => exact absurd hfail id
  | dismantle socket teamCode playerId =>
    simp only [Fails] at hfail
    simp only [handle, Action.socket, lobbyDismantle]
    cases hg : games.get teamCode with
    | none => rw [findGame_of_none hg]; exact ⟨_, rfl⟩
    | some s =>
      rw [hg] at hfail
      rw [findGame_of_get hg]
      simp only at hfail ⊢
      rw [if_pos hfail]; exact ⟨_, rfl⟩
  | join socket teamCode uuid playerName =>
    simp only [Fails] at hfail
    simp only [handle, Action.socket, lobbyJoin]
    rw [findGame_of_none hfail]; exact ⟨_, rfl⟩
  | reconnect socket teamCode playerId =>
    simp only [Fails] at hfail
    simp only [handle, Action.socket, playerReconnect]
    cases hg : games.get teamCode with
    | none => rw [findGame_of_none hg]; exact ⟨_, rfl⟩
    | some s =>
      rw [hg] at hfail
      rw [findGame_of_get hg]
      simp only at hfail ⊢
      rw [hfail]; exact ⟨_, rfl⟩
  | start socket teamCode playerId rnd =>
    simp only [Fails] at hfail
    simp only [handle, Action.socket]
    cases hg : games.get teamCode with
    | none =>
      simp only [roundStart]
      rw [findGame_of_none hg]; exact ⟨_, rfl⟩
    | some s =>
      rw [hg] at hfail
      simp only at hfail
      rw [roundStart_eq games socket teamCode playerId rnd s hg]
      by_cases h1 : some playerId ≠ starterOf s
      · rw [if_pos h1]; exact ⟨_, rfl⟩
      · rw [if_neg h1]
        by_cases h2 : s.status = Status.ended
        · rw [if_pos h2]; exact ⟨_, rfl⟩
        · rw [if_neg h2]
          rcases hfail with h3 | h3 | h3
          · exact absurd h3 h1
          · rw [if_pos h3]; exact ⟨_, rfl⟩
          · exact absurd h3 h2
  | guess socket teamCode playerId targetId =>
    simp only [Fails] at hfail
    simp only [handle, Action.socket]
    cases hg : games.get teamCode with
    | none =>
      simp only [policeGuess]
      rw [findGame_of_none hg]; exact ⟨_, rfl⟩
    | some s =>
      rw [hg] at hfail
      simp only at hfail
      rw [policeGuess_eq games socket teamCode playerId targetId s hg]
      cases hr : s.roles with
      | none => exact ⟨_, rfl⟩
      | some roles =>
        rw [hr] at hfail
        simp only at hfail ⊢
        by_cases h1 : some playerId ≠ roles.policeId
        · rw [if_pos h1]; exact ⟨_, rfl⟩
        · rw [if_neg h1]
          rcases hfail with h3 | h3
          · exact absurd h3 h1
          · rw [if_pos h3]; exact ⟨_, rfl⟩

/-- In the sample lobby player `2` asks to start the round that the host `1` must start. -/
theorem failed_request_unchanged_witness :
    Fails demoGames3 (.start 101 "AAAAAA" 2 demoDraws) ∧
    handle demoGames3 (.start 101 "AAAAAA" 2 demoDraws) =
      (demoGames3, [toast 101 "It\x27s Ann\x27s turn to start the round."]) ∧
    ∃ message, handle demoGames3 (.start 101 "AAAAAA" 2 demoDraws) =
      (demoGames3, [toast (Action.start 101 "AAAAAA" 2 demoDraws).socket message]) :=
  ⟨by simp only [Fails, demoGames3_get]; decide, by decide,
    failed_request_unchanged demoGames3 (.start 101 "AAAAAA" 2 demoDraws)
      (by simp only [Fails, demoGames3_get]; decide)⟩

/-! ## The winners -/

theorem mathMax_spec (xs : List Int) (hne : xs ≠ []) :
    ∃ m, mathMax xs = some m ∧ m ∈ xs ∧ ∀ x ∈ xs, x ≤ m := by
  induction xs with
  | nil => exact absurd rfl hne
  | cons a rest ih =>
    by_cases hr : rest = []
    · subst hr
      exact ⟨a, rfl, by simp, by simp⟩
    · obtain ⟨m, h1, h2, h3⟩ := ih hr
      refine ⟨max a m, by simp [mathMax, h1], ?_, ?_⟩
      · rcases le_total a m with h | h
        · rw [max_eq_right h]; exact List.mem_cons_of_mem _ h2
        · rw [max_eq_left h]; exact List.mem_cons_self _ _
      · intro x hx
        rcases List.mem_cons.mp hx with h | h
        · subst h; exact le_max_left _ _
        · exact le_trans (h3 x h) (le_max_right _ _)

/-- The winner list is the public view of exactly the players with the highest score. -/
theorem winnersOf_spec (state : State) (hne : state.players ≠ []) :
    ∃ maxScore, (∀ e ∈ state.players, e.2.score ≤ maxScore) ∧
      (∃ e ∈ state.players, e.2.score = maxScore) ∧
      winnersOf state ≠ [] ∧
      ∀ p, p ∈ winnersOf state ↔ ∃ e ∈ state.players, e.2.score = maxScore ∧
        p = { id := e.2.id, name := e.2.name, score := e.2.score, connected := e.2.connected } := by
  have hne2 : state.players.values.map (fun p => p.score) ≠ [] := by
    cases hp : state.players with
    | nil => exact absurd hp hne
    | cons a l => simp [JsMap.values]
  obtain ⟨m, h1, h2, h3⟩ := mathMax_spec _ hne2
  have hmem : ∀ p, p ∈ winnersOf state ↔ ∃ e ∈ state.players, e.2.score = m ∧
      p = { id := e.2.id, name := e.2.name, score := e.2.score, connected := e.2.connected } := by
    intro p
    have h1b : mathMax (List.map (fun p => p.score) (List.map Prod.snd state.players))
        = some m := h1
    simp only [winnersOf, getPublicPlayers, JsMap.values, h1b, List.mem_filter, List.mem_map,
      decide_eq_true_eq, Option.some.injEq]
    constructor
    · rintro ⟨⟨q, ⟨e, he, rfl⟩, rfl⟩, hs⟩
      exact ⟨e, he, hs, rfl⟩
    · rintro ⟨e, he, hs, rfl⟩
      exact ⟨⟨e.2, ⟨e, he, rfl⟩, rfl⟩, hs⟩
  have hex : ∃ e ∈ state.players, e.2.score = m := by
    simp only [JsMap.values, List.mem_map] at h2
    obtain ⟨q, ⟨e, he, rfl⟩, hq⟩ := h2
    exact ⟨e, he, hq⟩
  refine ⟨m, ?_, hex, ?_, hmem⟩
  · intro e he
    apply h3
    simp only [JsMap.values, List.mem_map]
    exact ⟨e.2, ⟨e, he, rfl⟩, rfl⟩
  · obtain ⟨e, he, hs⟩ := hex
    intro hnil
    have := (hmem _).mpr ⟨e, he, hs, rfl⟩
    rw [hnil] at this
    cases this

/-- C9: in a reachable registry, when an accepted guess ends the game (`round` has reached
`totalRounds`), the handler emits the round result, one `game:ended` notice and the snapshot;
the scores after the round are the old ones with the deltas applied, and the winner list of
the notice is not empty and holds exactly the players whose score then equals the maximum
score of the session. -/
theorem gameEnded_winners {games : Games} (h : Reachable games) (socket : SocketId)
    (teamCode : TeamCode) (playerId targetId : PlayerId) (s : State)
    (hs : games.get teamCode = some s)
    (hok : rejected games socket (policeGuess games socket teamCode playerId targetId) = false)
    (hend : (s.round : ℚ) ≥ s.totalRounds) :
    ∃ roles after result winners totals maxScore,
      s.roles = some roles ∧
      policeGuess games socket teamCode playerId targetId =
        (games.set teamCode after,
          [result, { dest := .room s.teamCode, payload := .gameEnded winners totals },
           broadcastLobby after]) ∧
      after.status = Status.ended ∧
      after.players = applyScores s.players (roundDelta s.players roles targetId) ∧
      winners ≠ [] ∧
      (∀ e ∈ after.players, e.2.score ≤ maxScore) ∧
      (∃ e ∈ after.players, e.2.score = maxScore) ∧
      (∀ p, p ∈ winners ↔ ∃ e ∈ after.players, e.2.score = maxScore ∧
        p = { id := e.2.id, name := e.2.name, score := e.2.score
              connected := e.2.connected }) := by
  have hinv := h.session hs
  rw [policeGuess_eq games socket teamCode playerId targetId s hs] at hok ⊢
  cases hr : s.roles with
  | none => rw [hr] at hok; simp [rejected_of_toast] at hok
  | some roles =>
    rw [hr] at hok
    simp only at hok ⊢
    by_cases h1 : some playerId ≠ roles.policeId
    · rw [if_pos h1, rejected_of_toast] at hok; cases hok
    · by_cases h2 : targetId ∉ s.players.keys
      · rw [if_neg h1, if_pos h2, rejected_of_toast] at hok; cases hok
      · rw [if_neg h1, if_neg h2, if_pos hend]
        have hafter := hinv.guessed roles hr playerId targetId
        obtain ⟨m, w1, w2, w3, w4⟩ := winnersOf_spec _ hafter.players_ne
        refine ⟨roles, roundEndState s roles playerId targetId, _, _, _, m, rfl, rfl, ?_, rfl,
          w3, w1, w2, w4⟩
        show (if (s.round : ℚ) ≥ s.totalRounds then Status.ended else Status.revealing)
          = Status.ended
        rw [if_pos hend]

/-- The sample game ends when the police `2` names the thief `3`. -/
theorem gameEnded_winners_witness :
    Reachable demoGames4 ∧ demoGames4.get "AAAAAA" = some demoGuessing ∧
    rejected demoGames4 101 (policeGuess demoGames4 101 "AAAAAA" 2 3) = false ∧
    (demoGuessing.round : ℚ) ≥ demoGuessing.totalRounds ∧
    ∃ roles after result winners totals maxScore,
      demoGuessing.roles = some roles ∧
      policeGuess demoGames4 101 "AAAAAA" 2 3 =
        (demoGames4.set "AAAAAA" after,
          [result, { dest := .room demoGuessing.teamCode, payload := .gameEnded winners totals },
           broadcastLobby after]) ∧
      after.status = Status.ended ∧
      after.players = applyScores demoGuessing.players
        (roundDelta demoGuessing.players roles 3) ∧
      winners ≠ [] ∧
      (∀ e ∈ after.players, e.2.score ≤ maxScore) ∧
      (∃ e ∈ after.players, e.2.score = maxScore) ∧
      (∀ p, p ∈ winners ↔ ∃ e ∈ after.players, e.2.score = maxScore ∧
        p = { id := e.2.id, name := e.2.name, score := e.2.score
              connected := e.2.connected }) :=
  ⟨demoGames4_reachable, demoGames4_get, by decide, by decide,
    gameEnded_winners demoGames4_reachable 101 "AAAAAA" 2 3 demoGuessing demoGames4_get
      (by decide) (by decide)⟩

/-! ## Creating a session -/

theorem JsMap.nodup_keys_set {κ ν : Type} [DecidableEq κ] (m : JsMap κ ν) (k : κ) (v : ν)
    (h : m.keys.Nodup) : (m.set k v).keys.Nodup := by
  by_cases hk : k ∈ m.keys
  · rw [JsMap.keys_set_of_mem v hk]; exact h
  · rw [JsMap.set_of_not_mem v hk]
    simp only [JsMap.keys, List.map_append, List.map_cons, List.map_nil]
    exact List.Nodup.append h (List.nodup_singleton _) (by simpa [JsMap.keys] using hk)

/-- The generator can return the code of an active session; `lobby:create` then stores the
new session over the old one, which is lost: after the host `1` created `AAAAAA`, a second
create that draws the same code leaves one session, hosted by `7`. -/
theorem lobbyCreate_collision :
    Reachable demoGames1 ∧ FreshId demoGames1 7 ∧
    makeTeamCode demoCodeDraws ∈ demoGames1.keys ∧
    (demoGames1.get "AAAAAA").map (fun s => s.hostId) = some 1 ∧
    ((lobbyCreate demoGames1 200 demoCodeDraws 7 (some "Zed") none).1.get "AAAAAA").map
      (fun s => s.hostId) = some 7 ∧
    (lobbyCreate demoGames1 200 demoCodeDraws 7 (some "Zed") none).1.get "AAAAAA"
      ≠ demoGames1.get "AAAAAA" ∧
    (lobbyCreate demoGames1 200 demoCodeDraws 7 (some "Zed") none).1.keys = ["AAAAAA"] :=
  ⟨demoGames1_reachable, by unfold FreshId; decide, by decide, by decide, by decide, by decide,
    by decide⟩

/-- C10, amended: `lobby:create` registers the new session (status lobby, round 0, the host
its only player) under the generated code; every session registered under another code is
still there with its state unchanged; a registry with one session per code stays so; and when
the generated code is not in use, no session is lost. -/
theorem lobbyCreate_registry (games : Games) (socket : SocketId) (rnd : Nat → Fin 32)
    (uuid : PlayerId) (hostName : Option String) (totalRounds : Option ℚ)
    (hn : games.keys.Nodup) :
    (∃ state,
      (lobbyCreate games socket rnd uuid hostName totalRounds).1.get (makeTeamCode rnd)
        = some state ∧
      state.teamCode = makeTeamCode rnd ∧ state.hostId = uuid ∧ state.status = Status.lobby ∧
      state.round = 0 ∧ state.players.keys = [uuid] ∧ state.order = [uuid]) ∧
    (∀ code, code ≠ makeTeamCode rnd →
      (lobbyCreate games socket rnd uuid hostName totalRounds).1.get code = games.get code) ∧
    (lobbyCreate games socket rnd uuid hostName totalRounds).1.keys.Nodup ∧
    (games.get (makeTeamCode rnd) = none → ∀ code s, games.get code = some s →
      (lobbyCreate games socket rnd uuid hostName totalRounds).1.get code = some s) := by
  have hget : ∀ code, code ≠ makeTeamCode rnd →
      (lobbyCreate games socket rnd uuid hostName totalRounds).1.get code = games.get code := by
    intro code hc
    simp only [lobbyCreate]
    exact JsMap.get_set_ne _ _ (fun h => hc h.symm)
  refine ⟨⟨_, JsMap.get_set_self _ _ _, rfl, rfl, rfl, rfl, ?_, ?_⟩, hget, ?_, ?_⟩
  · simp [JsMap.set, JsMap.keys]
  · simp [JsMap.set, JsMap.keys]
  · simp only [lobbyCreate]
    exact JsMap.nodup_keys_set _ _ _ hn
  · intro hfree code s hs
    have hc : code ≠ makeTeamCode rnd := by
      intro h; rw [h, hfree] at hs; cases hs
    rw [hget code hc, hs]

/-- A second session created under the unused code `BBBBBB` next to the sample session. -/
theorem lobbyCreate_registry_witness :
    demoGames1.keys.Nodup ∧
    (lobbyCreate demoGames1 200 demoCodeDraws2 7 (some "Zed") none).1.keys
      = ["AAAAAA", "BBBBBB"] ∧
    (∃ state,
      (lobbyCreate demoGames1 200 demoCodeDraws2 7 (some "Zed") none).1.get
        (makeTeamCode demoCodeDraws2) = some state ∧
      state.teamCode = makeTeamCode demoCodeDraws2 ∧ state.hostId = 7 ∧
      state.status = Status.lobby ∧
      state.round = 0 ∧ state.players.keys = [7] ∧ state.order = [7]) ∧
    (∀ code, code ≠ makeTeamCode demoCodeDraws2 →
      (lobbyCreate demoGames1 200 demoCodeDraws2 7 (some "Zed") none).1.get code
        = demoGames1.get code) ∧
    (lobbyCreate demoGames1 200 demoCodeDraws2 7 (some "Zed") none).1.keys.Nodup ∧
    (demoGames1.get (makeTeamCode demoCodeDraws2) = none → ∀ code s,
      demoGames1.get code = some s →
      (lobbyCreate demoGames1 200 demoCodeDraws2 7 (some "Zed") none).1.get code = some s) :=
  ⟨by decide, by decide,
    lobbyCreate_registry demoGames1 200 demoCodeDraws2 7 (some "Zed") none (by decide)⟩

/-! ## One session per code, and the exact effect of `disconnect` -/

theorem JsMap.set_append_of_not_mem {κ ν : Type} [DecidableEq κ] (pre rest : JsMap κ ν)
    (k : κ) (v0 v : ν) (h : k ∉ JsMap.keys pre) :
    JsMap.set (pre ++ (k, v0) :: rest) k v = pre ++ (k, v) :: rest := by
  induction pre with
  | nil => simp [JsMap.set]
  | cons e pre ih =>
    obtain ⟨k0, w0⟩ := e
    simp only [JsMap.keys, List.map_cons, List.mem_cons, not_or] at h
    have h0 : ¬ k0 = k := fun h1 => h.1 h1.symm
    simp only [List.cons_append, JsMap.set, h0, if_false]
    exact congrArg _ (ih h.2)

theorem JsMap.get_delete_ne {κ ν : Type} [DecidableEq κ] (m : JsMap κ ν) {k k2 : κ}
    (h : k ≠ k2) : (JsMap.delete m k).get k2 = m.get k2 := by
  induction m with
  | nil => rfl
  | cons e rest ih =>
    obtain ⟨k0, v0⟩ := e
    have hcons : JsMap.delete ((k0, v0) :: rest) k =
        if k0 = k then JsMap.delete rest k else (k0, v0) :: JsMap.delete rest k := by
      by_cases h0 : k0 = k <;> simp [JsMap.delete, List.filter_cons, h0]
    rw [hcons]
    by_cases h0 : k0 = k
    · subst h0
      rw [if_pos rfl, ih]
      simp [JsMap.get, h]
    · rw [if_neg h0]
      by_cases h1 : k0 = k2
      · simp [JsMap.get, h1]
      · simp [JsMap.get, h1, ih]

theorem JsMap.nodup_keys_delete {κ ν : Type} [DecidableEq κ] (m : JsMap κ ν) (k : κ)
    (h : m.keys.Nodup) : (JsMap.delete m k).keys.Nodup := by
  unfold JsMap.delete JsMap.keys
  exact (List.Nodup.sublist (List.Sublist.map _ (List.filter_sublist _)) h)

theorem disconnectState_eq (socket : SocketId) (s : State) (hn : s.players.keys.Nodup) :
    (disconnectState socket s).1 = { s with players := s.players.map (dropChannel socket) } := by
  obtain ⟨players, h1, _, _⟩ := disconnectState_players socket s
  have hp : (disconnectState socket s).1.players = s.players.map (dropChannel socket) := by
    unfold disconnectState
    suffices hgen : ∀ (rest pre : JsMap PlayerId Player) (acc : State × List Msg),
        acc.1.players = pre ++ rest → (JsMap.keys (pre ++ rest)).Nodup →
        (rest.foldl (fun acc e =>
          if e.2.socketId = some socket then
            let p := { e.2 with connected := false }
            let p := { p with socketId := none }
            let state := { acc.1 with players := acc.1.players.set e.1 p }
            (state, acc.2 ++ [broadcastLobby state])
          else acc) acc).1.players = pre ++ rest.map (dropChannel socket) by
      simpa using hgen s.players [] (s, []) rfl hn
    intro rest
    induction rest with
    | nil => intro pre acc hacc _; simpa using hacc
    | cons e rest ih =>
      intro pre acc hacc hnd
      rw [List.foldl_cons]
      have hsplit : pre ++ e :: rest = (pre ++ [e]) ++ rest := by simp
      have hpre : e.1 ∉ JsMap.keys pre := by
        intro hmem
        simp only [JsMap.keys, List.map_append, List.map_cons] at hnd
        have := (List.nodup_append.mp hnd).2.2
        exact this hmem (List.mem_cons_self _ _) 
      rw [show pre ++ List.map (dropChannel socket) (e :: rest) =
        (pre ++ [dropChannel socket e]) ++ rest.map (dropChannel socket) by simp]
      by_cases hs : e.2.socketId = some socket
      · rw [if_pos hs]
        apply ih
        · simp only [hacc, dropChannel, hs, if_true]
          rw [show pre ++ e :: rest = pre ++ (e.1, e.2) :: rest from rfl,
            JsMap.set_append_of_not_mem _ _ _ _ _ hpre]
          simp
        · simp only [dropChannel, hs, if_true]
          simpa [JsMap.keys] using hnd
      · rw [if_neg hs]
        apply ih
        · simp only [dropChannel, hs, if_false]; rw [hacc]; simp
        · simp only [dropChannel, hs, if_false]; simpa using hnd
  rw [h1] at hp ⊢
  simp only at hp
  rw [hp]

theorem disconnect_eq (games : Games) (socket : SocketId) (hn : games.keys.Nodup) :
    (disconnect games socket).1 =
      games.map (fun e => (e.1, (disconnectState socket e.2).1)) := by
  unfold disconnect
  suffices hgen : ∀ (rest pre : Games) (acc : Games × List Msg),
      acc.1 = pre ++ rest → (JsMap.keys (pre ++ rest)).Nodup →
      (rest.foldl (fun acc e =>
        let r := disconnectState socket e.2
        (acc.1.set e.1 r.1, acc.2 ++ r.2)) acc).1 =
        pre ++ rest.map (fun e => (e.1, (disconnectState socket e.2).1)) by
    simpa using hgen games [] (games, []) rfl hn
  intro rest
  induction rest with
  | nil => intro pre acc hacc _; simpa using hacc
  | cons e rest ih =>
    intro pre acc hacc hnd
    rw [List.foldl_cons]
    have hpre : e.1 ∉ JsMap.keys pre := by
      intro hmem
      simp only [JsMap.keys, List.map_append, List.map_cons] at hnd
      exact (List.nodup_append.mp hnd).2.2 hmem (List.mem_cons_self _ _)
    rw [show pre ++ List.map (fun e => (e.1, (disconnectState socket e.2).1)) (e :: rest) =
      (pre ++ [(e.1, (disconnectState socket e.2).1)]) ++
        rest.map (fun e => (e.1, (disconnectState socket e.2).1)) by simp]
    apply ih
    · simp only [hacc]
      rw [show pre ++ e :: rest = pre ++ (e.1, e.2) :: rest from rfl,
        JsMap.set_append_of_not_mem _ _ _ _ _ hpre]
      simp
    · simpa [JsMap.keys] using hnd

theorem disconnect_keys (games : Games) (socket : SocketId) (hn : games.keys.Nodup) :
    (disconnect games socket).1.keys = games.keys := by
  rw [disconnect_eq games socket hn]
  simp [JsMap.keys, Function.comp_def]

theorem handle_keys_nodup (games : Games) (a : Action) (hn : games.keys.Nodup) :
    (handle games a).1.keys.Nodup := by
  cases a with
  | create socket rnd uuid hostName totalRounds =>
    simp only [handle, lobbyCreate]
    exact JsMap.nodup_keys_set _ _ _ hn
  | dismantle socket teamCode playerId =>
    simp only [handle, lobbyDismantle]
    rcases findGame_cases games teamCode with ⟨_, hf⟩ | ⟨s, _, hf, _⟩
    · rw [hf]; exact hn
    · rw [hf]
      simp only
      split
      · exact hn
      · exact JsMap.nodup_keys_delete _ _ hn
  | join socket teamCode uuid playerName =>
    simp only [handle, lobbyJoin]
    rcases findGame_cases games teamCode with ⟨_, hf⟩ | ⟨s, _, hf, _⟩
    · rw [hf]; exact hn
    · rw [hf]; exact JsMap.nodup_keys_set _ _ _ hn
  | reconnect socket teamCode playerId =>
    simp only [handle, playerReconnect]
    rcases findGame_cases games teamCode with ⟨_, hf⟩ | ⟨s, _, hf, _⟩
    · rw [hf]; exact hn
    · rw [hf]
      simp only
      cases hp : s.players.get playerId with
      | none => exact hn
      | some p => exact JsMap.nodup_keys_set _ _ _ hn
  | start socket teamCode playerId rnd =>
    simp only [handle, roundStart]
    rcases findGame_cases games teamCode with ⟨_, hf⟩ | ⟨s, _, hf, _⟩
    · rw [hf]; exact hn
    · rw [hf]
      simp only
      split
      · exact hn
      · split
        · exact hn
        · split
          · exact hn
          · exact JsMap.nodup_keys_set _ _ _ hn
  | guess socket teamCode playerId targetId =>
    simp only [handle]
    rcases findGame_cases games teamCode with ⟨hg, hf⟩ | ⟨s, hg, _, _⟩
    · simp only [policeGuess]; rw [hf]; exact hn
    · rw [policeGuess_eq games socket teamCode playerId targetId s hg]
      cases hr : s.roles with
      | none => exact hn
      | some roles =>
        simp only
        split
        · exact hn
        · split
          · exact hn
          · exact JsMap.nodup_keys_set _ _ _ hn
  | disconnect socket =>
    simp only [handle]
    rw [disconnect_keys games socket hn]; exact hn

theorem Reachable.keys_nodup {games : Games} (h : Reachable games) : games.keys.Nodup := by
  induction h with
  | empty => simp [JsMap.keys]
  | step a _ _ ih => exact handle_keys_nodup _ a ih

/-! ## Starting a round with a single player -/

/-- The host alone in a session starts a round: the request is accepted and the roles object
stored has no thief. -/
theorem roundStart_single_player :
    Reachable demoGames1 ∧
    (demoGames1.get "AAAAAA").map (fun s => (s.players.keys, starterOf s, s.status))
      = some ([1], some 1, Status.lobby) ∧
    rejected demoGames1 100 (roundStart demoGames1 100 "AAAAAA" 1 demoDraws) = false ∧
    ((roundStart demoGames1 100 "AAAAAA" 1 demoDraws).1.get "AAAAAA").map
      (fun s => (s.round, s.status, s.roles))
      = some (1, Status.guessing,
          some { policeId := some 1, thiefId := none, civilians := [] }) :=
  ⟨demoGames1_reachable, by decide, by decide, by decide⟩

/-- C11, amended: in a reachable registry a session with fewer than two players has exactly
one, its designated starter; a `round:start` request by that player while the status is
lobby or revealing is accepted like any other: `round` increases by one, the status becomes
guessing, and the roles object stored names that player as police, has no thief and no
civilians. -/
theorem roundStart_single_player_spec {games : Games} (h : Reachable games) (socket : SocketId)
    (teamCode : TeamCode) (playerId : PlayerId) (rnd : Draws) (s : State)
    (hs : games.get teamCode = some s) (hlt : s.players.length < 2)
    (hst : s.status = Status.lobby ∨ s.status = Status.revealing)
    (hp : some playerId = starterOf s) :
    ∃ after, roundStart games socket teamCode playerId rnd =
        (games.set teamCode after, (startRound rnd s).2) ∧
      rejected games socket (roundStart games socket teamCode playerId rnd) = false ∧
      s.players.keys = [playerId] ∧
      after.round = s.round + 1 ∧ after.status = Status.guessing ∧
      after.roles = some { policeId := some playerId, thiefId := none, civilians := [] } := by
  have hinv := h.session hs
  have heq := roundStart_eq games socket teamCode playerId rnd s hs
  have e1 : s.status ≠ Status.ended := by rcases hst with h | h <;> simp [h]
  have e2 : s.status ≠ Status.guessing := by rcases hst with h | h <;> simp [h]
  rw [if_neg (fun hne => hne hp), if_neg e1, if_neg e2] at heq
  have hkeys : s.players.keys = [playerId] := by
    have hne := hinv.players_ne
    have hord := hinv.order_eq
    match hpl : s.players, hlt, hne with
    | [e], _, _ =>
      unfold starterOf at hp
      rw [hord, hpl] at hp
      simp [JsMap.keys, Nat.mod_one] at hp
      simp [JsMap.keys, hp]
    | [], _, hne => exact absurd rfl hne
    | _ :: _ :: _, hlt, _ => simp at hlt; omega
  refine ⟨(startRound rnd s).1, heq, ?_, hkeys, ?_, ?_, ?_⟩
  · rw [heq]; exact startRound_not_rejected _ _ _ _ _
  · rw [startRound_state]
  · rw [startRound_state]
  · rw [startRound_state]
    simp [assignRoles, hkeys, shuffle, shuffleLoop]

theorem demoGames1_get : demoGames1.get "AAAAAA" = some demoSolo := by decide

/-- The sample host, alone in the session, starts round 1. -/
theorem roundStart_single_player_spec_witness :
    Reachable demoGames1 ∧ demoGames1.get "AAAAAA" = some demoSolo ∧
    demoSolo.players.length < 2 ∧
    (demoSolo.status = Status.lobby ∨ demoSolo.status = Status.revealing) ∧
    some 1 = starterOf demoSolo ∧
    ∃ after, roundStart demoGames1 100 "AAAAAA" 1 demoDraws =
        (demoGames1.set "AAAAAA" after, (startRound demoDraws demoSolo).2) ∧
      rejected demoGames1 100 (roundStart demoGames1 100 "AAAAAA" 1 demoDraws) = false ∧
      demoSolo.players.keys = [1] ∧
      after.round = demoSolo.round + 1 ∧ after.status = Status.guessing ∧
      after.roles = some { policeId := some 1, thiefId := none, civilians := [] } :=
  ⟨demoGames1_reachable, demoGames1_get, by decide, by decide, by decide,
    roundStart_single_player_spec demoGames1_reachable 100 "AAAAAA" 1 demoDraws demoSolo
      demoGames1_get (by decide) (by decide) (by decide)⟩

/-! ## Reconnection replays the role message of the round start -/

theorem startRound_secret_eq (rnd : Draws) (s : State) (roles : Roles)
    (hr : (assignRoles rnd s).roles = some roles) :
    (startRound rnd s).2 =
      s.players.filterMap (startRoundRole roles)
      ++ [{ dest := .room s.teamCode
            payload := .policeRevealed (s.round + 1) roles.policeId
              ((roles.policeId.bind s.players.get).map (fun p => p.name)) },
          broadcastLobby (startRound rnd s).1] :=
  startRound_msgs_eq rnd s roles hr

theorem civMap_get_other (civilians : List Civilian) (m : JsMap PlayerId Int) (k : PlayerId)
    (h : ∀ c ∈ civilians, c.id ≠ k) :
    JsMap.get (civilians.foldl (fun (m : JsMap PlayerId Int) c => m.set c.id c.pts) m) k
      = m.get k := by
  induction civilians generalizing m with
  | nil => rfl
  | cons c rest ih =>
    rw [List.foldl_cons, ih _ (fun c2 h2 => h c2 (List.mem_cons_of_mem _ h2)),
      JsMap.get_set_ne _ _ (h c (List.mem_cons_self _ _))]

theorem civMap_get_mem (civilians : List Civilian) (m : JsMap PlayerId Int)
    (hn : (civilians.map (fun c => c.id)).Nodup) (c : Civilian) (hc : c ∈ civilians) :
    JsMap.get (civilians.foldl (fun (m : JsMap PlayerId Int) c => m.set c.id c.pts) m) c.id
      = some c.pts := by
  induction civilians generalizing m with
  | nil => simp at hc
  | cons c0 rest ih =>
    simp only [List.map_cons, List.nodup_cons] at hn
    rw [List.foldl_cons]
    rcases List.mem_cons.mp hc with h | h
    · subst h
      rw [civMap_get_other, JsMap.get_set_self]
      intro c2 h2 heq
      exact hn.1 (List.mem_map.mpr ⟨c2, h2, heq⟩)
    · exact ih _ hn.2 h

/-- In a session of a reachable registry the ids named by the roles are pairwise distinct. -/
theorem SessionInv.roleIds_nodup {code : TeamCode} {s : State} (h : SessionInv code s)
    (roles : Roles) (hr : s.roles = some roles) : (roleIds roles).Nodup := by
  obtain ⟨present, later, h1, h2⟩ := h.roles_prefix roles hr
  have hk := h.keys_nodup
  rw [h1] at hk
  exact h2.nodup_iff.mpr (List.Nodup.of_append_left hk)

/-- The outcome of `player:reconnect` for a known player, with the replayed messages. -/
theorem playerReconnect_eq (games : Games) (socket : SocketId) (teamCode : TeamCode)
    (playerId : PlayerId) (s : State) (p : Player) (hs : games.get teamCode = some s)
    (hp : s.players.get playerId = some p) :
    playerReconnect games socket teamCode playerId =
      (games.set teamCode { s with players := s.players.set playerId (rebind socket p) },
        (match decide (s.status = Status.guessing), s.roles with
          | true, some roles =>
            [(if some playerId = roles.policeId then
                { dest := .socket socket, payload := .roundRole .POLICE POLICE_WIN }
              else if some playerId = roles.thiefId then
                { dest := .socket socket, payload := .roundRole .THIEF 0 }
              else
                { dest := .socket socket
                  payload := .roundRole .CIVILIAN
                    (numOr (JsMap.get (roles.civilians.foldl
                      (fun (m : JsMap PlayerId Int) c => m.set c.id c.pts) []) playerId) 0) }
              : Msg),
             { dest := .socket socket
               payload := .policeRevealed s.round roles.policeId
                 ((roles.policeId.bind
                   (s.players.set playerId (rebind socket p)).get).map (fun q => q.name)) }]
          | _, _ => [])
        ++ [broadcastLobby { s with players := s.players.set playerId (rebind socket p) }]) := by
  unfold playerReconnect
  rw [findGame_of_get hs]
  simp only [hp]
  rfl

theorem rebind_name_get (players : JsMap PlayerId Player) (socket : SocketId)
    (playerId : PlayerId) (p : Player) (hp : players.get playerId = some p)
    (k : Option PlayerId) :
    (k.bind (players.set playerId (rebind socket p)).get).map (fun q => q.name) =
      (k.bind players.get).map (fun q => q.name) := by
  cases k with
  | none => rfl
  | some k =>
    simp only [Option.some_bind]
    by_cases hk : playerId = k
    · subst hk
      rw [JsMap.get_set_self, hp]; rfl
    · rw [JsMap.get_set_ne _ _ hk]

/-- C12: in a reachable registry, a reconnect of a known player in a session whose status is
guessing emits, on the new channel only, the role message that the loop of `startRound`
computes for that player (rebound to the new channel) under the same roles (POLICE with
1000, THIEF with 0, CIVILIAN with the assigned points), then the police reveal (round, police
id, police name), and then the snapshot for the room; in any other status it emits the
snapshot alone. -/
theorem playerReconnect_replay {games : Games} (h : Reachable games) (socket : SocketId)
    (teamCode : TeamCode) (playerId : PlayerId) (s : State) (p : Player)
    (hs : games.get teamCode = some s) (hp : s.players.get playerId = some p) :
    (s.status = Status.guessing →
      ∃ roles role, s.roles = some roles ∧
        startRoundRole roles (playerId, rebind socket p) = some role ∧
        role.dest = .socket socket ∧
        (some playerId = roles.policeId → role.payload = .roundRole .POLICE 1000) ∧
        (some playerId = roles.thiefId → role.payload = .roundRole .THIEF 0) ∧
        (∀ c ∈ roles.civilians, c.id = playerId → role.payload = .roundRole .CIVILIAN c.pts) ∧
        playerReconnect games socket teamCode playerId =
          (games.set teamCode { s with players := s.players.set playerId (rebind socket p) },
            [role,
             { dest := .socket socket
               payload := .policeRevealed s.round roles.policeId
                 ((roles.policeId.bind s.players.get).map (fun q => q.name)) },
             broadcastLobby { s with players := s.players.set playerId (rebind socket p) }])) ∧
    (s.status ≠ Status.guessing →
      playerReconnect games socket teamCode playerId =
        (games.set teamCode { s with players := s.players.set playerId (rebind socket p) },
          [broadcastLobby { s with players := s.players.set playerId (rebind socket p) }])) := by
  have hinv := h.session hs
  have heq := playerReconnect_eq games socket teamCode playerId s p hs hp
  constructor
  · intro hst
    obtain ⟨roles, hr⟩ := Option.isSome_iff_exists.mp (hinv.roles_iff.mpr hst)
    have hnd := hinv.roleIds_nodup roles hr
    obtain ⟨policeId, hpol⟩ := Option.isSome_iff_exists.mp (hinv.police_some roles hr)
    unfold roleIds at hnd
    have hth : some playerId = roles.thiefId → some playerId ≠ roles.policeId := by
      intro h1 h2
      rw [← h1, ← h2] at hnd
      simp at hnd
    have hciv : ∀ c ∈ roles.civilians, c.id = playerId →
        some playerId ≠ roles.policeId ∧ some playerId ≠ roles.thiefId := by
      intro c hc hid
      have hm : playerId ∈ roles.civilians.map (fun c => c.id) :=
        List.mem_map.mpr ⟨c, hc, hid⟩
      constructor
      · intro h2
        rw [← h2] at hnd
        simp only [Option.toList_some, List.singleton_append, List.cons_append,
          List.nodup_cons, List.mem_append, not_or] at hnd
        exact hnd.1.2 hm
      · intro h2
        have hnd2 : (roles.thiefId.toList ++ roles.civilians.map (fun c => c.id)).Nodup := by
          rw [List.append_assoc] at hnd
          exact List.Nodup.of_append_right hnd
        rw [← h2] at hnd2
        simp only [Option.toList_some, List.singleton_append, List.nodup_cons] at hnd2
        exact hnd2.1 hm
    have hcn : (roles.civilians.map (fun c => c.id)).Nodup :=
      List.Nodup.of_append_right hnd
    refine ⟨roles,
      (if some playerId = roles.policeId then
          { dest := .socket socket, payload := .roundRole .POLICE POLICE_WIN }
        else if some playerId = roles.thiefId then
          { dest := .socket socket, payload := .roundRole .THIEF 0 }
        else
          { dest := .socket socket
            payload := .roundRole .CIVILIAN
              (numOr (JsMap.get (roles.civilians.foldl
                (fun (m : JsMap PlayerId Int) c => m.set c.id c.pts) []) playerId) 0) } : Msg),
      hr, ?_, ?_, ?_, ?_, ?_, ?_⟩
    · simp only [startRoundRole, rebind]
      split_ifs <;> rfl
    · split
      · rfl
      · split <;> rfl
    · intro h1
      rw [if_pos h1]; rfl
    · intro h1
      rw [if_neg (hth h1), if_pos h1]
    · intro c hc hid
      obtain ⟨n1, n2⟩ := hciv c hc hid
      rw [if_neg n1, if_neg n2]
      subst hid
      rw [civMap_get_mem _ _ hcn c hc, numOr_zero]
      rfl
    · rw [heq]
      simp only [hr, hst, decide_True, rebind_name_get s.players socket playerId p hp]
      rfl
  · intro hst
    rw [heq]
    have : decide (s.status = Status.guessing) = false := by simpa using hst
    rw [this]
    rfl

/-- The thief of the sample round reconnects on channel `200`. -/
theorem playerReconnect_replay_witness :
    Reachable demoGames4 ∧ demoGames4.get "AAAAAA" = some demoGuessing ∧
    demoGuessing.players.get 3 = some demoThief ∧
    (playerReconnect demoGames4 200 "AAAAAA" 3).2.take 2 =
      [{ dest := .socket 200, payload := .roundRole .THIEF 0 },
       { dest := .socket 200, payload := .policeRevealed 1 (some 2) (some "Bob") }] ∧
    (demoGuessing.status = Status.guessing →
      ∃ roles role, demoGuessing.roles = some roles ∧
        startRoundRole roles (3, rebind 200 demoThief) = some role ∧
        role.dest = .socket 200 ∧
        (some 3 = roles.policeId → role.payload = .roundRole .POLICE 1000) ∧
        (some 3 = roles.thiefId → role.payload = .roundRole .THIEF 0) ∧
        (∀ c ∈ roles.civilians, c.id = 3 → role.payload = .roundRole .CIVILIAN c.pts) ∧
        playerReconnect demoGames4 200 "AAAAAA" 3 =
          (demoGames4.set "AAAAAA"
              { demoGuessing with players := demoGuessing.players.set 3 (rebind 200 demoThief) },
            [role,
             { dest := .socket 200
               payload := .policeRevealed demoGuessing.round roles.policeId
                 ((roles.policeId.bind demoGuessing.players.get).map (fun q => q.name)) },
             broadcastLobby
               { demoGuessing with
                 players := demoGuessing.players.set 3 (rebind 200 demoThief) }])) ∧
    (demoGuessing.status ≠ Status.guessing →
      playerReconnect demoGames4 200 "AAAAAA" 3 =
        (demoGames4.set "AAAAAA"
            { demoGuessing with players := demoGuessing.players.set 3 (rebind 200 demoThief) },
          [broadcastLobby
            { demoGuessing with
              players := demoGuessing.players.set 3 (rebind 200 demoThief) }])) :=
  ⟨demoGames4_reachable, demoGames4_get, by decide, by decide,
    playerReconnect_replay demoGames4_reachable 200 "AAAAAA" 3 demoGuessing demoThief
      demoGames4_get (by decide)⟩

/-! ## The effect of an accepted guess -/

theorem currentTotals_eq (state : State) (hn : state.players.keys.Nodup) :
    currentTotals state = state.players.map (fun e => (e.1, e.2.score)) := by
  unfold currentTotals
  suffices hgen : ∀ (rest : JsMap PlayerId Player) (pre : JsMap PlayerId Int),
      (pre.keys ++ rest.keys).Nodup →
      rest.foldl (fun (totals : JsMap PlayerId Int) e => totals.set e.1 e.2.score) pre =
        pre ++ rest.map (fun e => (e.1, e.2.score)) by
    simpa using hgen state.players [] (by simpa [JsMap.keys] using hn)
  intro rest
  induction rest with
  | nil => intro pre _; simp
  | cons e rest ih =>
    intro pre hnd
    have hpre : e.1 ∉ pre.keys := by
      intro hmem
      exact (List.nodup_append.mp hnd).2.2 hmem (by simp [JsMap.keys])
    rw [List.foldl_cons, JsMap.set_of_not_mem _ hpre, ih]
    · simp
    · simpa [JsMap.keys] using hnd

theorem addCivilians_keys_mono (civilians : List Civilian) (d : JsMap (Option PlayerId) Int)
    (key : Option PlayerId) (h : key ∈ d.keys) : key ∈ (addCivilians civilians d).keys := by
  unfold addCivilians
  induction civilians generalizing d with
  | nil => exact h
  | cons c rest ih =>
    rw [List.foldl_cons]
    exact ih _ ((JsMap.mem_keys_set _ _ _ _).mpr (Or.inr h))

theorem roundDelta_has_player (players : JsMap PlayerId Player) (roles : Roles)
    (targetId k : PlayerId) (hk : k ∈ players.keys) :
    ∃ d, (roundDelta players roles targetId).get (some k) = some d := by
  apply Option.isSome_iff_exists.mp
  rw [JsMap.get_isSome_iff]
  unfold roundDelta
  apply addCivilians_keys_mono
  have h0 : some k ∈ (initDelta players).keys :=
    (initDelta_mem_keys players (some k)).mpr (List.mem_map.mpr ⟨k, hk, rfl⟩)
  split
  · exact (JsMap.mem_keys_set _ _ _ _).mpr (Or.inr ((JsMap.mem_keys_set _ _ _ _).mpr (Or.inr h0)))
  · exact (JsMap.mem_keys_set _ _ _ _).mpr (Or.inr ((JsMap.mem_keys_set _ _ _ _).mpr (Or.inr h0)))

/-- An accepted guess stores the state computed by `endRoundWithGuess`. -/
theorem policeGuess_accepted {games : Games} (socket : SocketId) (teamCode : TeamCode)
    (playerId targetId : PlayerId) (s : State) (hs : games.get teamCode = some s)
    (hok : rejected games socket (policeGuess games socket teamCode playerId targetId) = false) :
    ∃ roles, s.roles = some roles ∧ some playerId = roles.policeId ∧
      targetId ∈ s.players.keys ∧
      (policeGuess games socket teamCode playerId targetId).1 =
        games.set teamCode (roundEndState s roles playerId targetId) := by
  rw [policeGuess_eq games socket teamCode playerId targetId s hs] at hok ⊢
  cases hr : s.roles with
  | none => rw [hr] at hok; simp [rejected_of_toast] at hok
  | some roles =>
    rw [hr] at hok
    simp only at hok ⊢
    by_cases h1 : some playerId ≠ roles.policeId
    · rw [if_pos h1, rejected_of_toast] at hok; cases hok
    · by_cases h2 : targetId ∉ s.players.keys
      · rw [if_neg h1, if_pos h2, rejected_of_toast] at hok; cases hok
      · rw [if_neg h1, if_neg h2]
        exact ⟨roles, rfl, not_not.mp h1, not_not.mp h2, rfl⟩

theorem oneAndHalf_eq : oneAndHalf = 3 / 2 := by
  unfold oneAndHalf
  norm_num [Rat.mk_eq_divInt, Rat.divInt_eq_div]

theorem fracGames5_reachable : Reachable fracGames5 :=
  Reachable.step _
    (Reachable.step _
      (Reachable.step _
        (Reachable.step _
          (Reachable.step _ Reachable.empty (by intro e he; simp at he))
          (by show ∀ e ∈ fracGames1, 2 ∉ e.2.players.keys; decide))
        trivial)
      trivial)
    trivial

theorem fracGames5_get : fracGames5.get "AAAAAA" = some fracGuessing := by decide

/-- A session is created with a round count of 1.5, which is stored as it is; a second player
joins and round 1 is played, after which the status is revealing. In round 2 the guess of the
police is accepted and the game ends, although the round number 2 is not equal to the stored
`totalRounds`. -/
theorem policeGuess_fractional_count :
    Reachable fracGames5 ∧ fracGames5.get "AAAAAA" = some fracGuessing ∧
    (fracGames1.get "AAAAAA").map (fun s => (s.totalRounds.num, s.totalRounds.den))
      = some (3, 2) ∧
    (fracGames4.get "AAAAAA").map (fun s => (s.round, s.status))
      = some (1, Status.revealing) ∧
    (fracGuessing.round, fracGuessing.status, fracGuessing.totalRounds.num,
      fracGuessing.totalRounds.den) = (2, Status.guessing, 3, 2) ∧
    rejected fracGames5 101 (policeGuess fracGames5 101 "AAAAAA" 2 1) = false ∧
    ((policeGuess fracGames5 101 "AAAAAA" 2 1).1.get "AAAAAA").map (fun s => s.status)
      = some Status.ended ∧
    fracGuessing.totalRounds = 3 / 2 ∧
    (fracGuessing.round : ℚ) ≠ fracGuessing.totalRounds ∧
    ((policeGuess fracGames5 101 "AAAAAA" 2 1).1.get "AAAAAA").map (fun s => s.status) ≠
      some (if (fracGuessing.round : ℚ) = fracGuessing.totalRounds then Status.ended
        else Status.revealing) :=
  ⟨fracGames5_reachable, fracGames5_get, by decide, by decide, by decide, by decide, by decide,
    (show fracGuessing.totalRounds = oneAndHalf by decide).trans oneAndHalf_eq,
    by decide, by decide⟩

/-- C13, amended: in a reachable registry, an accepted guess in a session at round `r` leaves
a state whose history is the old history with one entry appended; the entry records round
`r`, the police, thief and civilians of the round, the guess (by, target, correct), the delta
map and the totals, which are the scores after the round; every player keeps its key and
gains exactly its delta; the roles are cleared; and the status is ended when `r` is at least
`totalRounds` and revealing otherwise. The game so ends exactly in the round whose number is
`totalRounds` rounded up to an integer; for an integer `totalRounds` the status is ended when
`r` equals `totalRounds` and revealing otherwise. -/
theorem policeGuess_effect {games : Games} (h : Reachable games) (socket : SocketId)
    (teamCode : TeamCode) (playerId targetId : PlayerId) (s : State)
    (hs : games.get teamCode = some s)
    (hok : rejected games socket (policeGuess games socket teamCode playerId targetId) = false) :
    ∃ roles after entry,
      s.roles = some roles ∧
      (policeGuess games socket teamCode playerId targetId).1.get teamCode = some after ∧
      after.history = s.history ++ [entry] ∧
      entry.round = s.round ∧ entry.policeId = roles.policeId ∧
      entry.thiefId = roles.thiefId ∧ entry.civilians = roles.civilians ∧
      entry.guess = { byId := playerId, targetId := targetId
                      correct := decide (some targetId = roles.thiefId) } ∧
      entry.delta = roundDelta s.players roles targetId ∧
      entry.totals = after.players.map (fun e => (e.1, e.2.score)) ∧
      after.players.keys = s.players.keys ∧
      (∀ e ∈ s.players, ∃ d, entry.delta.get (some e.1) = some d ∧
        after.players.get e.1 = some { e.2 with score := e.2.score + d }) ∧
      after.roles = none ∧
      after.status =
        (if (s.round : ℚ) ≥ s.totalRounds then Status.ended else Status.revealing) ∧
      (after.status = Status.ended ↔ (s.round : ℤ) = ⌈s.totalRounds⌉) ∧
      (∀ n : ℤ, s.totalRounds = (n : ℚ) →
        after.status = (if (s.round : ℤ) = n then Status.ended else Status.revealing)) ∧
      after.round = s.round ∧ after.totalRounds = s.totalRounds ∧ after.order = s.order := by
  have hinv := h.session hs
  obtain ⟨roles, hr, _, _, hout⟩ := policeGuess_accepted socket teamCode playerId targetId s hs hok
  have hafter := hinv.guessed roles hr playerId targetId
  have hst : (roundEndState s roles playerId targetId).status =
      (if (s.round : ℚ) ≥ s.totalRounds then Status.ended else Status.revealing) := rfl
  have hpred := hinv.round_pred
  refine ⟨roles, roundEndState s roles playerId targetId,
    roundEntry s roles playerId targetId, hr, ?_, rfl, rfl, rfl, rfl, rfl, rfl, rfl, ?_,
    applyScores_keys _ _, ?_, rfl, hst, ?_, ?_, rfl, rfl, rfl⟩
  · rw [hout]; exact JsMap.get_set_self _ _ _
  · show currentTotals _ = _
    rw [currentTotals_eq]
    · rfl
    · show (applyScores _ _).keys.Nodup
      rw [applyScores_keys]; exact hinv.keys_nodup
  · intro e he
    obtain ⟨d, hd⟩ := roundDelta_has_player s.players roles targetId e.1
      (List.mem_map.mpr ⟨e, he, rfl⟩)
    refine ⟨d, hd, ?_⟩
    apply JsMap.get_of_mem_nodup hafter.keys_nodup
    show (e.1, _) ∈ applyScores s.players (roundDelta s.players roles targetId)
    unfold applyScores
    refine List.mem_map.mpr ⟨e, he, ?_⟩
    rw [hd]
    simp [numOr_zero]
  · have hceil : ⌈s.totalRounds⌉ = (s.round : ℤ) ↔
        (((s.round : ℤ) : ℚ) - 1 < s.totalRounds ∧ s.totalRounds ≤ ((s.round : ℤ) : ℚ)) :=
      Int.ceil_eq_iff
    rw [hst]
    by_cases hge : (s.round : ℚ) ≥ s.totalRounds
    · rw [if_pos hge]
      refine ⟨fun _ => (hceil.mpr ⟨?_, ?_⟩).symm, fun _ => rfl⟩
      · push_cast; linarith
      · push_cast; exact hge
    · rw [if_neg hge]
      refine ⟨fun hc => (by cases hc), fun hc => ?_⟩
      have h2 := (hceil.mp hc.symm).2
      push_cast at h2
      exact absurd h2 hge
  · intro n hn
    rw [hst, hn]
    rw [hn] at hpred
    have hpred2 : (s.round : ℤ) < n + 1 := by exact_mod_cast hpred
    by_cases heq : (s.round : ℤ) = n
    · rw [if_pos heq, if_pos (by rw [ge_iff_le]; exact_mod_cast heq.ge)]
    · rw [if_neg heq, if_neg]
      intro hge
      have hge2 : n ≤ (s.round : ℤ) := by exact_mod_cast hge
      omega

/-- The single round of the sample run. -/
theorem policeGuess_effect_witness :
    Reachable demoGames4 ∧ demoGames4.get "AAAAAA" = some demoGuessing ∧
    rejected demoGames4 101 (policeGuess demoGames4 101 "AAAAAA" 2 3) = false ∧
    ∃ roles after entry,
      demoGuessing.roles = some roles ∧
      (policeGuess demoGames4 101 "AAAAAA" 2 3).1.get "AAAAAA" = some after ∧
      after.history = demoGuessing.history ++ [entry] ∧
      entry.round = demoGuessing.round ∧ entry.policeId = roles.policeId ∧
      entry.thiefId = roles.thiefId ∧ entry.civilians = roles.civilians ∧
      entry.guess = { byId := 2, targetId := 3
                      correct := decide (some 3 = roles.thiefId) } ∧
      entry.delta = roundDelta demoGuessing.players roles 3 ∧
      entry.totals = after.players.map (fun e => (e.1, e.2.score)) ∧
      after.players.keys = demoGuessing.players.keys ∧
      (∀ e ∈ demoGuessing.players, ∃ d, entry.delta.get (some e.1) = some d ∧
        after.players.get e.1 = some { e.2 with score := e.2.score + d }) ∧
      after.roles = none ∧
      after.status =
        (if (demoGuessing.round : ℚ) ≥ demoGuessing.totalRounds then Status.ended
          else Status.revealing) ∧
      (after.status = Status.ended ↔ (demoGuessing.round : ℤ) = ⌈demoGuessing.totalRounds⌉) ∧
      (∀ n : ℤ, demoGuessing.totalRounds = (n : ℚ) →
        after.status =
          (if (demoGuessing.round : ℤ) = n then Status.ended else Status.revealing)) ∧
      after.round = demoGuessing.round ∧ after.totalRounds = demoGuessing.totalRounds ∧
      after.order = demoGuessing.order :=
  ⟨demoGames4_reachable, demoGames4_get, by decide,
    policeGuess_effect demoGames4_reachable 101 "AAAAAA" 2 3 demoGuessing demoGames4_get
      (by decide)⟩

/-! ## An ended game stays ended -/

theorem JsMap.get_map_snd {κ ν μ : Type} [DecidableEq κ] (m : JsMap κ ν) (g : κ × ν → κ × μ)
    (hg : ∀ e, (g e).1 = e.1) (k : κ) :
    JsMap.get (m.map g) k = (m.get k).map (fun v => (g (k, v)).2) := by
  induction m with
  | nil => rfl
  | cons e rest ih =>
    obtain ⟨k0, v0⟩ := e
    have h1 : g (k0, v0) = (k0, (g (k0, v0)).2) :=
      Prod.ext (hg (k0, v0)) rfl
    rw [List.map_cons, h1]
    by_cases h0 : k0 = k
    · subst h0; simp [JsMap.get]
    · simp only [JsMap.get, h0, if_false]
      exact ih

theorem SameGame.refl_of_nodup {s : State} (hn : s.players.keys.Nodup) : SameGame s s :=
  ⟨rfl, rfl, rfl, rfl, rfl, fun e he =>
    ⟨e.2, JsMap.get_of_mem_nodup hn he, rfl, rfl, rfl⟩⟩

theorem SameGame.trans {s1 s2 s3 : State} (h12 : SameGame s1 s2) (h23 : SameGame s2 s3) :
    SameGame s1 s3 := by
  obtain ⟨a1, a2, a3, a4, a5, a6⟩ := h12
  obtain ⟨b1, b2, b3, b4, b5, b6⟩ := h23
  refine ⟨b1.trans a1, b2.trans a2, b3.trans a3, b4.trans a4, b5.trans a5, ?_⟩
  intro e he
  obtain ⟨q, hq, q1, q2, q3⟩ := a6 e he
  obtain ⟨q', hq', r1, r2, r3⟩ := b6 (e.1, q) (JsMap.mem_of_get hq)
  exact ⟨q', hq', r1.trans q1, r2.trans q2, r3.trans q3⟩

/-- Replacing the players by players with the same keys, ids, names and scores. -/
theorem SameGame.of_players {s : State} (players : JsMap PlayerId Player)
    (hp : ∀ e ∈ s.players, ∃ q, players.get e.1 = some q ∧ q.id = e.2.id ∧
      q.name = e.2.name ∧ q.score = e.2.score) :
    SameGame s { s with players := players } :=
  ⟨rfl, rfl, rfl, rfl, rfl, hp⟩

theorem SameGame.after_join {s : State} (hn : s.players.keys.Nodup) (uuid : PlayerId)
    (p : Player) (hfresh : uuid ∉ s.players.keys) :
    SameGame s { s with players := s.players.set uuid p
                        order := (s.players.set uuid p).keys } := by
  refine ⟨rfl, rfl, rfl, rfl, rfl, ?_⟩
  intro e he
  have hne : uuid ≠ e.1 := fun h => hfresh (h ▸ List.mem_map.mpr ⟨e, he, rfl⟩)
  exact ⟨e.2, by
    show (s.players.set uuid p).get e.1 = some e.2
    rw [JsMap.get_set_ne _ _ hne]; exact JsMap.get_of_mem_nodup hn he, rfl, rfl, rfl⟩

theorem SameGame.after_reconnect {s : State} (hn : s.players.keys.Nodup) (socket : SocketId)
    (playerId : PlayerId) (p : Player) (hp : s.players.get playerId = some p) :
    SameGame s { s with players := s.players.set playerId (rebind socket p) } := by
  apply SameGame.of_players
  intro e he
  have hget := JsMap.get_of_mem_nodup hn he
  by_cases hk : playerId = e.1
  · subst hk
    rw [hp] at hget
    cases hget
    exact ⟨_, JsMap.get_set_self _ _ _, rfl, rfl, rfl⟩
  · exact ⟨e.2, by rw [JsMap.get_set_ne _ _ hk]; exact hget, rfl, rfl, rfl⟩

theorem SameGame.after_disconnect {s : State} (hn : s.players.keys.Nodup) (socket : SocketId) :
    SameGame s (disconnectState socket s).1 := by
  rw [disconnectState_eq socket s hn]
  apply SameGame.of_players
  intro e he
  have hget := JsMap.get_of_mem_nodup hn he
  refine ⟨(dropChannel socket e).2, ?_, ?_, ?_, ?_⟩
  · rw [JsMap.get_map_snd _ _ (fun e => by unfold dropChannel; split <;> rfl), hget]
    rfl
  · unfold dropChannel; split <;> rfl
  · unfold dropChannel; split <;> rfl
  · unfold dropChannel; split <;> rfl

/-! ## A request on one code leaves the sessions under other codes alone -/

theorem lobbyJoin_get_other (games : Games) (socket : SocketId) (teamCode code : TeamCode)
    (uuid : PlayerId) (playerName : Option String) (hc : teamCode ≠ code) :
    (lobbyJoin games socket teamCode uuid playerName).1.get code = games.get code := by
  unfold lobbyJoin
  rcases findGame_cases games teamCode with ⟨_, hf⟩ | ⟨s, _, hf, _⟩
  · rw [hf]
  · rw [hf]; exact JsMap.get_set_ne _ _ hc

theorem playerReconnect_get_other (games : Games) (socket : SocketId)
    (teamCode code : TeamCode) (playerId : PlayerId) (hc : teamCode ≠ code) :
    (playerReconnect games socket teamCode playerId).1.get code = games.get code := by
  unfold playerReconnect
  rcases findGame_cases games teamCode with ⟨_, hf⟩ | ⟨s, _, hf, _⟩
  · rw [hf]
  · rw [hf]
    simp only
    cases hp : s.players.get playerId with
    | none => rfl
    | some p => exact JsMap.get_set_ne _ _ hc

theorem roundStart_get_other (games : Games) (socket : SocketId) (teamCode code : TeamCode)
    (playerId : PlayerId) (rnd : Draws) (hc : teamCode ≠ code) :
    (roundStart games socket teamCode playerId rnd).1.get code = games.get code := by
  unfold roundStart
  rcases findGame_cases games teamCode with ⟨_, hf⟩ | ⟨s, _, hf, _⟩
  · rw [hf]
  · rw [hf]
    simp only
    split
    · rfl
    · split
      · rfl
      · split
        · rfl
        · exact JsMap.get_set_ne _ _ hc

theorem policeGuess_get_other (games : Games) (socket : SocketId) (teamCode code : TeamCode)
    (playerId targetId : PlayerId) (hc : teamCode ≠ code) :
    (policeGuess games socket teamCode playerId targetId).1.get code = games.get code := by
  rcases findGame_cases games teamCode with ⟨_, hf⟩ | ⟨s, hg, _, _⟩
  · unfold policeGuess; rw [hf]
  · rw [policeGuess_eq games socket teamCode playerId targetId s hg]
    cases hr : s.roles with
    | none => rfl
    | some roles =>
      simp only
      split
      · rfl
      · split
        · rfl
        · exact JsMap.get_set_ne _ _ hc

theorem lobbyDismantle_get_other (games : Games) (socket : SocketId)
    (teamCode code : TeamCode) (playerId : PlayerId) (hc : teamCode ≠ code) :
    (lobbyDismantle games socket teamCode playerId).1.get code = games.get code := by
  unfold lobbyDismantle
  rcases findGame_cases games teamCode with ⟨_, hf⟩ | ⟨s, _, hf, _⟩
  · rw [hf]
  · rw [hf]
    simp only
    split
    · rfl
    · exact JsMap.get_delete_ne _ hc

theorem disconnect_get (games : Games) (socket : SocketId) (hn : games.keys.Nodup)
    (code : TeamCode) :
    (disconnect games socket).1.get code =
      (games.get code).map (fun s => (disconnectState socket s).1) := by
  rw [disconnect_eq games socket hn]
  exact JsMap.get_map_snd games (fun e => (e.1, (disconnectState socket e.2).1))
    (fun _ => rfl) code

theorem Reachable.of_plays {games later : Games} (h : Reachable games)
    (hp : PlaysTo games later) : Reachable later := by
  induction hp with
  | refl => exact h
  | step a _ _ hf ih => exact Reachable.step a ih hf

/-- One play request on a registry in which the session under `code` has ended. -/
theorem ended_step {games : Games} (h : Reachable games) (code : TeamCode) (s : State)
    (hs : games.get code = some s) (hend : s.status = Status.ended) (a : Action)
    (hplay : a.isPlay = true) (hf : FreshAction games a) :
    ∃ after, (handle games a).1.get code = some after ∧ SameGame s after := by
  have hinv := h.session hs
  have hn := hinv.keys_nodup
  have hsame : SameGame s s := SameGame.refl_of_nodup hn
  cases a with
  | create socket rnd uuid hostName totalRounds => cases hplay
  | dismantle socket teamCode playerId => cases hplay
  | join socket teamCode uuid playerName =>
    simp only [handle]
    by_cases hc : teamCode = code
    · subst hc
      unfold lobbyJoin
      rw [findGame_of_get hs]
      exact ⟨_, JsMap.get_set_self _ _ _,
        SameGame.after_join hn uuid _ (hf _ (JsMap.mem_of_get hs))⟩
    · rw [lobbyJoin_get_other _ _ _ _ _ _ hc]; exact ⟨s, hs, hsame⟩
  | reconnect socket teamCode playerId =>
    simp only [handle]
    by_cases hc : teamCode = code
    · subst hc
      cases hp : s.players.get playerId with
      | none =>
        unfold playerReconnect
        rw [findGame_of_get hs]
        simp only [hp]
        exact ⟨s, hs, hsame⟩
      | some p =>
        rw [playerReconnect_eq games socket teamCode playerId s p hs hp]
        exact ⟨_, JsMap.get_set_self _ _ _, SameGame.after_reconnect hn socket playerId p hp⟩
    · rw [playerReconnect_get_other _ _ _ _ _ hc]; exact ⟨s, hs, hsame⟩
  | start socket teamCode playerId rnd =>
    simp only [handle]
    by_cases hc : teamCode = code
    · subst hc
      rw [roundStart_eq games socket teamCode playerId rnd s hs]
      refine ⟨s, ?_, hsame⟩
      by_cases h1 : some playerId ≠ starterOf s
      · rw [if_pos h1]; exact hs
      · rw [if_neg h1, if_pos hend]; exact hs
    · rw [roundStart_get_other _ _ _ _ _ _ hc]; exact ⟨s, hs, hsame⟩
  | guess socket teamCode playerId targetId =>
    simp only [handle]
    by_cases hc : teamCode = code
    · subst hc
      have hr : s.roles = none := by
        cases hr : s.roles with
        | none => rfl
        | some r =>
          have := hinv.roles_iff.mp (by rw [hr]; rfl)
          rw [hend] at this; cases this
      rw [policeGuess_eq games socket teamCode playerId targetId s hs, hr]
      exact ⟨s, hs, hsame⟩
    · rw [policeGuess_get_other _ _ _ _ _ _ hc]; exact ⟨s, hs, hsame⟩
  | disconnect socket =>
    simp only [handle]
    rw [disconnect_get games socket h.keys_nodup code, hs]
    exact ⟨_, rfl, SameGame.after_disconnect hn socket⟩

/-- C14: when a session of a reachable registry has ended, then after any number of later
join, reconnect, start, guess and disconnect requests (on any code, with fresh player ids)
the session is still registered with status ended, without a roles object, with the same
round, total rounds and history, and every player it had keeps its id, name and score. -/
theorem ended_is_terminal {games later : Games} (h : Reachable games)
    (hp : PlaysTo games later) (code : TeamCode) (s : State)
    (hs : games.get code = some s) (hend : s.status = Status.ended) :
    ∃ after, later.get code = some after ∧
      after.status = Status.ended ∧ after.roles = none ∧ after.round = s.round ∧
      after.totalRounds = s.totalRounds ∧ after.history = s.history ∧
      ∀ e ∈ s.players, ∃ q, after.players.get e.1 = some q ∧ q.id = e.2.id ∧
        q.name = e.2.name ∧ q.score = e.2.score := by
  have hroles : s.roles = none := by
    cases hr : s.roles with
    | none => rfl
    | some r =>
      have := (h.session hs).roles_iff.mp (by rw [hr]; rfl)
      rw [hend] at this; cases this
  suffices hgen : ∃ after, later.get code = some after ∧ SameGame s after by
    obtain ⟨after, h1, g1, g2, g3, g4, g5, g6⟩ := hgen
    exact ⟨after, h1, g1.trans hend, g2.trans hroles, g3, g4, g5, g6⟩
  induction hp with
  | refl => exact ⟨s, hs, SameGame.refl_of_nodup (h.session hs).keys_nodup⟩
  | step a hprev hplay hf ih =>
    obtain ⟨mid, hm, hsame⟩ := ih
    obtain ⟨after, ha, hsame2⟩ :=
      ended_step (h.of_plays hprev) code mid hm (hsame.1.trans hend) a hplay hf
    exact ⟨after, ha, hsame.trans hsame2⟩

theorem demoGames5_get : demoGames5.get "AAAAAA" = some demoEnded := by decide

theorem demoGames7_plays : PlaysTo demoGames5 demoGames7 :=
  PlaysTo.step _
    (PlaysTo.step _ PlaysTo.refl rfl
      (by show ∀ e ∈ demoGames5, 4 ∉ e.2.players.keys; decide))
    rfl trivial

/-- After the sample game ended, a player joins and the next starter asks for a round. -/
theorem ended_is_terminal_witness :
    Reachable demoGames5 ∧ PlaysTo demoGames5 demoGames7 ∧
    demoGames5.get "AAAAAA" = some demoEnded ∧ demoEnded.status = Status.ended ∧
    (demoGames7.get "AAAAAA").map (fun s => (s.players.keys, s.status, s.round))
      = some ([1, 2, 3, 4], Status.ended, 1) ∧
    ∃ after, demoGames7.get "AAAAAA" = some after ∧
      after.status = Status.ended ∧ after.roles = none ∧ after.round = demoEnded.round ∧
      after.totalRounds = demoEnded.totalRounds ∧ after.history = demoEnded.history ∧
      ∀ e ∈ demoEnded.players, ∃ q, after.players.get e.1 = some q ∧ q.id = e.2.id ∧
        q.name = e.2.name ∧ q.score = e.2.score :=
  ⟨demoGames5_reachable, demoGames7_plays, demoGames5_get, by decide, by decide,
    ended_is_terminal demoGames5_reachable demoGames7_plays "AAAAAA" demoEnded
      demoGames5_get (by decide)⟩

/-! ## Civilian points -/

theorem civilianPoints_eq (k : Nat) :
    numOr CIVILIAN_POINTS[k]? 100 = CIVILIAN_POINTS.getD k 100 ∧
    (k < 8 → numOr CIVILIAN_POINTS[k]? 100 = 900 - 100 * (k : Int)) ∧
    (8 ≤ k → numOr CIVILIAN_POINTS[k]? 100 = 100) := by
  rcases Nat.lt_or_ge k 8 with h | h
  · interval_cases k <;> decide
  · have hn : CIVILIAN_POINTS[k]? = none := by
      rw [List.getElem?_eq_none_iff]; simpa [CIVILIAN_POINTS] using h
    have hd : CIVILIAN_POINTS.getD k 100 = 100 := by
      rw [List.getD_eq_getElem?_getD, hn]; rfl
    rw [hn, hd]
    exact ⟨rfl, fun h2 => by omega, fun _ => rfl⟩

/-- C15: in the roles stored by `assignRoles`, the civilian at position `k` (from 0) has the
`k`-th value of `[900, 800, 700, 600, 500, 400, 300, 200]`, that is `900 - 100 k`, when
`k < 8`, and 100 when `k ≥ 8`; so the points do not increase with the position and every
civilian has at least 100. -/
theorem assignRoles_points (rnd : Draws) (state : State) (roles : Roles)
    (h : (assignRoles rnd state).roles = some roles) :
    (∀ k c, roles.civilians[k]? = some c →
      c.pts = CIVILIAN_POINTS.getD k 100 ∧
      c.pts = [900, 800, 700, 600, 500, 400, 300, 200].getD k 100 ∧
      (k < 8 → c.pts = 900 - 100 * (k : Int)) ∧ (8 ≤ k → c.pts = 100)) ∧
    (∀ (i j : Nat) (ci cj : Civilian), i ≤ j → roles.civilians[i]? = some ci → roles.civilians[j]? = some cj →
      cj.pts ≤ ci.pts) ∧
    (∀ c ∈ roles.civilians, 100 ≤ c.pts) := by
  have hpts : ∀ (k : Nat) (c : Civilian), roles.civilians[k]? = some c →
      c.pts = numOr CIVILIAN_POINTS[k]? 100 := by
    intro k c hk
    simp only [assignRoles, Option.some.injEq] at h
    subst h
    simp only [List.getElem?_mapIdx, Option.map_eq_some'] at hk
    obtain ⟨id, _, rfl⟩ := hk
    rfl
  refine ⟨?_, ?_, ?_⟩
  · intro k c hk
    obtain ⟨e1, e2, e3⟩ := civilianPoints_eq k
    rw [hpts k c hk]
    exact ⟨e1, e1, e2, e3⟩
  · intro i j ci cj hij hi hj
    rw [hpts i ci hi, hpts j cj hj]
    obtain ⟨_, a2, a3⟩ := civilianPoints_eq i
    obtain ⟨_, b2, b3⟩ := civilianPoints_eq j
    rcases Nat.lt_or_ge j 8 with hj8 | hj8
    · rw [a2 (by omega), b2 hj8]; omega
    · rw [b3 hj8]; exact civilianPoints_ge i
  · intro c hc
    obtain ⟨k, hk, rfl⟩ := List.mem_iff_getElem.mp hc
    rw [hpts k _ (List.getElem?_eq_getElem hk)]
    exact civilianPoints_ge k

/-- The ten civilians among twelve players. -/
theorem assignRoles_points_witness :
    (assignRoles demoDraws demoCrowd).roles = some demoCrowdRoles ∧
    demoCrowdRoles.civilians.map (fun c => c.pts)
      = [900, 800, 700, 600, 500, 400, 300, 200, 100, 100] ∧
    (∀ k c, demoCrowdRoles.civilians[k]? = some c →
      c.pts = CIVILIAN_POINTS.getD k 100 ∧
      c.pts = [900, 800, 700, 600, 500, 400, 300, 200].getD k 100 ∧
      (k < 8 → c.pts = 900 - 100 * (k : Int)) ∧ (8 ≤ k → c.pts = 100)) ∧
    (∀ (i j : Nat) (ci cj : Civilian), i ≤ j → demoCrowdRoles.civilians[i]? = some ci →
      demoCrowdRoles.civilians[j]? = some cj → cj.pts ≤ ci.pts) ∧
    (∀ c ∈ demoCrowdRoles.civilians, 100 ≤ c.pts) :=
  ⟨by decide, by decide, assignRoles_points demoDraws demoCrowd demoCrowdRoles (by decide)⟩

/-! ## Joining a session -/

/-- C16: in a reachable registry, a join on an existing session (whatever its status) with
an id no player of the session carries leaves the players of before followed by one new
player with score 0 and connected, and the turn order of before followed by the new id, so
every position of the old order is kept and the order is not empty; every player of before
is unchanged, and so are status, round, roles, history, total rounds and host. -/
theorem lobbyJoin_frame {games : Games} (h : Reachable games) (socket : SocketId)
    (teamCode : TeamCode) (uuid : PlayerId) (playerName : Option String) (s : State)
    (hs : games.get teamCode = some s) (hfresh : uuid ∉ s.players.keys) :
    ∃ after, (lobbyJoin games socket teamCode uuid playerName).1 = games.set teamCode after ∧
      (lobbyJoin games socket teamCode uuid playerName).1.get teamCode = some after ∧
      after.players = s.players ++
        [(uuid, { id := uuid, name := strOr playerName "Player", socketId := some socket
                  score := 0, connected := true })] ∧
      after.order = s.order ++ [uuid] ∧ after.order ≠ [] ∧
      (∀ k, k < s.order.length → after.order[k]? = s.order[k]?) ∧
      (∀ k p, s.players.get k = some p → after.players.get k = some p) ∧
      after.status = s.status ∧ after.round = s.round ∧ after.roles = s.roles ∧
      after.history = s.history ∧ after.totalRounds = s.totalRounds ∧
      after.hostId = s.hostId ∧ after.teamCode = s.teamCode := by
  have hinv := h.session hs
  have hset : ∀ p : Player, s.players.set uuid p = s.players ++ [(uuid, p)] :=
    fun p => JsMap.set_of_not_mem p hfresh
  have hout : (lobbyJoin games socket teamCode uuid playerName).1 =
      games.set teamCode
        { s with
          players := s.players.set uuid
            { id := uuid, name := strOr playerName "Player", socketId := some socket
              score := 0, connected := true }
          order := (s.players.set uuid
            { id := uuid, name := strOr playerName "Player", socketId := some socket
              score := 0, connected := true }).keys } := by
    unfold lobbyJoin
    rw [findGame_of_get hs]
  have hord : (s.players.set uuid
      { id := uuid, name := strOr playerName "Player", socketId := some socket
        score := 0, connected := true }).keys = s.order ++ [uuid] := by
    rw [hset, hinv.order_eq]; simp [JsMap.keys]
  refine ⟨_, hout, by rw [hout]; exact JsMap.get_set_self _ _ _, hset _, hord, ?_, ?_, ?_,
    rfl, rfl, rfl, rfl, rfl, rfl, rfl⟩
  · show (s.players.set uuid _).keys ≠ []
    rw [hord]; simp
  · intro k hk
    show (s.players.set uuid _).keys[k]? = _
    rw [hord, List.getElem?_append_left hk]
  · intro k p hk
    show (s.players.set uuid _).get k = some p
    have hne : uuid ≠ k := by
      intro heq
      subst heq
      exact hfresh ((JsMap.get_isSome_iff _ _).mp (by rw [hk]; rfl))
    rw [JsMap.get_set_ne _ _ hne, hk]

/-- Player `4` joins the sample session while its round is in guessing. -/
theorem lobbyJoin_frame_witness :
    Reachable demoGames4 ∧ demoGames4.get "AAAAAA" = some demoGuessing ∧
    4 ∉ demoGuessing.players.keys ∧
    ∃ after, (lobbyJoin demoGames4 103 "AAAAAA" 4 (some "Dan")).1
        = demoGames4.set "AAAAAA" after ∧
      (lobbyJoin demoGames4 103 "AAAAAA" 4 (some "Dan")).1.get "AAAAAA" = some after ∧
      after.players = demoGuessing.players ++
        [(4, { id := 4, name := strOr (some "Dan") "Player", socketId := some 103
               score := 0, connected := true })] ∧
      after.order = demoGuessing.order ++ [4] ∧ after.order ≠ [] ∧
      (∀ k, k < demoGuessing.order.length → after.order[k]? = demoGuessing.order[k]?) ∧
      (∀ k p, demoGuessing.players.get k = some p → after.players.get k = some p) ∧
      after.status = demoGuessing.status ∧ after.round = demoGuessing.round ∧
      after.roles = demoGuessing.roles ∧
      after.history = demoGuessing.history ∧ after.totalRounds = demoGuessing.totalRounds ∧
      after.hostId = demoGuessing.hostId ∧ after.teamCode = demoGuessing.teamCode :=
  ⟨demoGames4_reachable, demoGames4_get, by decide,
    lobbyJoin_frame demoGames4_reachable 103 "AAAAAA" 4 (some "Dan") demoGuessing
      demoGames4_get (by decide)⟩

/-! ## The number of rounds -/

/-- A round count of 0 is treated like an absent one: the session gets 10 rounds, not the
clamped value 1. -/
theorem lobbyCreate_zero_rounds :
    ((lobbyCreate [] 100 demoCodeDraws 1 (some "Ann") (some 0)).1.get "AAAAAA").map
      (fun s => s.totalRounds) = some 10 ∧
    min 50 (max 1 (0 : Int)) = 1 :=
  ⟨by decide, by decide⟩

/-- C17, amended: for every non-zero integer `n` supplied as the total rounds, the created
session has `totalRounds = min(50, max(1, n))`; for `n = 0` and for no numeric value it has
10; in every case, whatever number is supplied, `totalRounds` lies in `[1, 50]`. -/
theorem lobbyCreate_totalRounds (games : Games) (socket : SocketId) (rnd : Nat → Fin 32)
    (uuid : PlayerId) (hostName : Option String) (n : Int) (hn : n ≠ 0) :
    ((lobbyCreate games socket rnd uuid hostName (some (n : ℚ))).1.get (makeTeamCode rnd)).map
      (fun s => s.totalRounds) = some ((min 50 (max 1 n) : Int) : ℚ) ∧
    ((lobbyCreate games socket rnd uuid hostName (some 0)).1.get (makeTeamCode rnd)).map
      (fun s => s.totalRounds) = some 10 ∧
    ((lobbyCreate games socket rnd uuid hostName none).1.get (makeTeamCode rnd)).map
      (fun s => s.totalRounds) = some 10 ∧
    (∀ t : Option ℚ, ∃ state,
      (lobbyCreate games socket rnd uuid hostName t).1.get (makeTeamCode rnd) = some state ∧
      1 ≤ state.totalRounds ∧ state.totalRounds ≤ 50) := by
  have hget : ∀ t : Option ℚ,
      ((lobbyCreate games socket rnd uuid hostName t).1.get (makeTeamCode rnd)).map
        (fun s => s.totalRounds) = some (max 1 (min 50 (ratOr t 10))) := by
    intro t
    simp only [lobbyCreate, JsMap.get_set_self, Option.map_some']
  refine ⟨?_, ?_, ?_, ?_⟩
  · rw [hget]
    have hq : (n : ℚ) ≠ 0 := Int.cast_ne_zero.mpr hn
    simp only [ratOr, hq, if_false, Option.some.injEq]
    rw [max_comm (1 : ℚ), min_comm (50 : ℚ)]
    push_cast
    rcases le_total (n : ℚ) 50 with h50 | h50
    · rw [min_eq_left h50]
      rcases le_total (n : ℚ) 1 with h1 | h1
      · rw [max_eq_right h1, max_eq_left h1, min_eq_right (by norm_num)]
      · rw [max_eq_left h1, max_eq_right h1, min_eq_right h50]
    · have h1 : (1 : ℚ) ≤ n := le_trans (by norm_num) h50
      rw [min_eq_right h50, max_eq_left (by norm_num), max_eq_right h1, min_eq_left h50]
  · rw [hget]
    simp only [ratOr, if_true, max_def, min_def]
    norm_num
  · rw [hget]
    simp only [ratOr, max_def, min_def]
    norm_num
  · intro t
    obtain ⟨state, h1, h2⟩ := Option.map_eq_some'.mp (hget t)
    have h3 : state.totalRounds = max 1 (min 50 (ratOr t 10)) := h2
    refine ⟨state, h1, ?_, ?_⟩
    · rw [h3]; exact le_max_left _ _
    · rw [h3]; exact max_le (by norm_num) (min_le_left _ _)

/-- Seventy-seven rounds are asked for and fifty are granted. -/
theorem lobbyCreate_totalRounds_witness :
    (77 : Int) ≠ 0 ∧
    ((lobbyCreate [] 100 demoCodeDraws 1 (some "Ann") (some ((77 : Int) : ℚ))).1.get
      (makeTeamCode demoCodeDraws)).map (fun s => s.totalRounds)
        = some ((min 50 (max 1 77) : Int) : ℚ) ∧
    ((lobbyCreate [] 100 demoCodeDraws 1 (some "Ann") (some 0)).1.get
      (makeTeamCode demoCodeDraws)).map (fun s => s.totalRounds) = some 10 ∧
    ((lobbyCreate [] 100 demoCodeDraws 1 (some "Ann") none).1.get
      (makeTeamCode demoCodeDraws)).map (fun s => s.totalRounds) = some 10 ∧
    (∀ t : Option ℚ, ∃ state,
      (lobbyCreate [] 100 demoCodeDraws 1 (some "Ann") t).1.get (makeTeamCode demoCodeDraws)
        = some state ∧
      1 ≤ state.totalRounds ∧ state.totalRounds ≤ 50) :=
  ⟨by decide, lobbyCreate_totalRounds [] 100 demoCodeDraws 1 (some "Ann") 77 (by decide)⟩

/-! ## Dismantling a session -/

/-- Every handler that looks a session up answers `Game not found` for an unregistered code
and leaves the registry as it is. -/
theorem not_found (games : Games) (code : TeamCode) (hnone : games.get code = none)
    (socket : SocketId) (playerId targetId uuid : PlayerId) (playerName : Option String)
    (rnd : Draws) :
    lobbyJoin games socket code uuid playerName = (games, [toast socket "Game not found"]) ∧
    playerReconnect games socket code playerId = (games, [toast socket "Game not found"]) ∧
    roundStart games socket code playerId rnd = (games, [toast socket "Game not found"]) ∧
    policeGuess games socket code playerId targetId
      = (games, [toast socket "Game not found"]) ∧
    lobbyDismantle games socket code playerId = (games, [toast socket "Game not found"]) := by
  have hf := findGame_of_none hnone
  refine ⟨?_, ?_, ?_, ?_, ?_⟩
  · unfold lobbyJoin; rw [hf]; rfl
  · unfold playerReconnect; rw [hf]; rfl
  · unfold roundStart; rw [hf]; rfl
  · unfold policeGuess; rw [hf]; rfl
  · unfold lobbyDismantle; rw [hf]; rfl

/-- A request other than a create drawing `code` leaves `code` unregistered. -/
theorem absent_step (games : Games) (hn : games.keys.Nodup) (code : TeamCode)
    (hnone : games.get code = none) (a : Action)
    (hcreate : ∀ socket rnd uuid hostName totalRounds,
      a = .create socket rnd uuid hostName totalRounds → makeTeamCode rnd ≠ code) :
    (handle games a).1.get code = none := by
  cases a with
  | create socket rnd uuid hostName totalRounds =>
    simp only [handle, lobbyCreate]
    rw [JsMap.get_set_ne _ _ (hcreate _ _ _ _ _ rfl)]; exact hnone
  | dismantle socket teamCode playerId =>
    simp only [handle]
    by_cases hc : teamCode = code
    · subst hc
      rw [(not_found games teamCode hnone socket playerId 0 0 none demoDraws).2.2.2.2]
      exact hnone
    · rw [lobbyDismantle_get_other _ _ _ _ _ hc]; exact hnone
  | join socket teamCode uuid playerName =>
    simp only [handle]
    by_cases hc : teamCode = code
    · subst hc
      rw [(not_found games teamCode hnone socket 0 0 uuid playerName demoDraws).1]
      exact hnone
    · rw [lobbyJoin_get_other _ _ _ _ _ _ hc]; exact hnone
  | reconnect socket teamCode playerId =>
    simp only [handle]
    by_cases hc : teamCode = code
    · subst hc
      rw [(not_found games teamCode hnone socket playerId 0 0 none demoDraws).2.1]
      exact hnone
    · rw [playerReconnect_get_other _ _ _ _ _ hc]; exact hnone
  | start socket teamCode playerId rnd =>
    simp only [handle]
    by_cases hc : teamCode = code
    · subst hc
      rw [(not_found games teamCode hnone socket playerId 0 0 none rnd).2.2.1]
      exact hnone
    · rw [roundStart_get_other _ _ _ _ _ _ hc]; exact hnone
  | guess socket teamCode playerId targetId =>
    simp only [handle]
    by_cases hc : teamCode = code
    · subst hc
      rw [(not_found games teamCode hnone socket playerId targetId 0 none demoDraws).2.2.2.1]
      exact hnone
    · rw [policeGuess_get_other _ _ _ _ _ _ hc]; exact hnone
  | disconnect socket =>
    simp only [handle]
    rw [disconnect_get games socket hn code, hnone]; rfl

/-- C18: for an existing session, a dismantle by the host removes it from the registry and
sends the dismantled notice to its room; a dismantle by anyone else is answered with
`Only the host can dismantle the lobby.`, the registry unchanged and no notice sent; so the
session is removed exactly when the requester is the host, and the sessions under other
codes are untouched either way. In any registry where the code is not registered, join,
reconnect, start, guess and dismantle on it are answered with `Game not found`, and the code
stays unregistered under every request but a create that draws it. -/
theorem lobbyDismantle_spec (games : Games) (socket : SocketId) (teamCode : TeamCode)
    (playerId : PlayerId) (s : State) (hs : games.get teamCode = some s) :
    (playerId = s.hostId →
      lobbyDismantle games socket teamCode playerId =
        (games.delete teamCode,
          [{ dest := .room s.teamCode
             payload := .gameDismantled "The host has dismantled the lobby." }]) ∧
      (games.delete teamCode).get teamCode = none) ∧
    (playerId ≠ s.hostId →
      lobbyDismantle games socket teamCode playerId =
        (games, [toast socket "Only the host can dismantle the lobby."])) ∧
    ((lobbyDismantle games socket teamCode playerId).1.get teamCode = none ↔
      playerId = s.hostId) ∧
    (∀ code, code ≠ teamCode →
      (lobbyDismantle games socket teamCode playerId).1.get code = games.get code) ∧
    (∀ later : Games, later.get teamCode = none →
      ∀ (sock : SocketId) (pid tid uuid : PlayerId) (name : Option String) (rnd : Draws),
        lobbyJoin later sock teamCode uuid name = (later, [toast sock "Game not found"]) ∧
        playerReconnect later sock teamCode pid = (later, [toast sock "Game not found"]) ∧
        roundStart later sock teamCode pid rnd = (later, [toast sock "Game not found"]) ∧
        policeGuess later sock teamCode pid tid = (later, [toast sock "Game not found"]) ∧
        lobbyDismantle later sock teamCode pid = (later, [toast sock "Game not found"])) ∧
    (∀ (later : Games) (a : Action), later.keys.Nodup → later.get teamCode = none →
      (∀ sock rnd uuid hostName totalRounds,
        a = .create sock rnd uuid hostName totalRounds → makeTeamCode rnd ≠ teamCode) →
      (handle later a).1.get teamCode = none) := by
  have hhost : playerId = s.hostId →
      lobbyDismantle games socket teamCode playerId =
        (games.delete teamCode,
          [{ dest := .room s.teamCode
             payload := .gameDismantled "The host has dismantled the lobby." }]) := by
    intro hp
    unfold lobbyDismantle
    rw [findGame_of_get hs]
    simp only
    rw [if_neg (fun hne => hne hp)]
  have hother : playerId ≠ s.hostId →
      lobbyDismantle games socket teamCode playerId =
        (games, [toast socket "Only the host can dismantle the lobby."]) := by
    intro hp
    unfold lobbyDismantle
    rw [findGame_of_get hs]
    simp only
    rw [if_pos hp]
  refine ⟨fun hp => ⟨hhost hp, JsMap.get_delete_self _ _⟩, hother, ?_, ?_, ?_, ?_⟩
  · by_cases hp : playerId = s.hostId
    · rw [hhost hp]
      exact ⟨fun _ => hp, fun _ => JsMap.get_delete_self _ _⟩
    · rw [hother hp]
      constructor
      · intro hnone
        rw [hs] at hnone; cases hnone
      · intro h; exact absurd h hp
  · intro code hc
    exact lobbyDismantle_get_other _ _ _ _ _ (fun h => hc h.symm)
  · intro later hnone sock pid tid uuid name rnd
    exact not_found later teamCode hnone sock pid tid uuid name rnd
  · intro later a hn hnone hcreate
    exact absent_step later hn teamCode hnone a hcreate

/-- The host of the sample lobby dismantles it. -/
theorem lobbyDismantle_spec_witness :
    demoGames3.get "AAAAAA" = some demoLobby ∧
    (lobbyDismantle demoGames3 100 "AAAAAA" 1).1 = [] ∧
    (lobbyDismantle demoGames3 101 "AAAAAA" 2).1 = demoGames3 ∧
    ((1 = demoLobby.hostId →
      lobbyDismantle demoGames3 100 "AAAAAA" 1 =
        (demoGames3.delete "AAAAAA",
          [{ dest := .room demoLobby.teamCode
             payload := .gameDismantled "The host has dismantled the lobby." }]) ∧
      (demoGames3.delete "AAAAAA").get "AAAAAA" = none) ∧
    (1 ≠ demoLobby.hostId →
      lobbyDismantle demoGames3 100 "AAAAAA" 1 =
        (demoGames3, [toast 100 "Only the host can dismantle the lobby."])) ∧
    ((lobbyDismantle demoGames3 100 "AAAAAA" 1).1.get "AAAAAA" = none ↔
      1 = demoLobby.hostId) ∧
    (∀ code, code ≠ "AAAAAA" →
      (lobbyDismantle demoGames3 100 "AAAAAA" 1).1.get code = demoGames3.get code) ∧
    (∀ later : Games, later.get "AAAAAA" = none →
      ∀ (sock : SocketId) (pid tid uuid : PlayerId) (name : Option String) (rnd : Draws),
        lobbyJoin later sock "AAAAAA" uuid name = (later, [toast sock "Game not found"]) ∧
        playerReconnect later sock "AAAAAA" pid = (later, [toast sock "Game not found"]) ∧
        roundStart later sock "AAAAAA" pid rnd = (later, [toast sock "Game not found"]) ∧
        policeGuess later sock "AAAAAA" pid tid = (later, [toast sock "Game not found"]) ∧
        lobbyDismantle later sock "AAAAAA" pid = (later, [toast sock "Game not found"])) ∧
    (∀ (later : Games) (a : Action), later.keys.Nodup → later.get "AAAAAA" = none →
      (∀ sock rnd uuid hostName totalRounds,
        a = .create sock rnd uuid hostName totalRounds → makeTeamCode rnd ≠ "AAAAAA") →
      (handle later a).1.get "AAAAAA" = none)) :=
  ⟨demoGames3_get, by decide, by decide,
    lobbyDismantle_spec demoGames3 100 "AAAAAA" 1 demoLobby demoGames3_get⟩

/-! ## The roles of a running round -/

theorem demoGames4j_reachable : Reachable demoGames4j :=
  Reachable.step _ demoGames4_reachable
    (by show ∀ e ∈ demoGames4, 4 ∉ e.2.players.keys; decide)

/-- A player who joins while the round is in guessing is a current player outside the three
groups: the roles name `2`, `3` and `1`, the players are `1, 2, 3, 4`. -/
theorem join_during_round :
    Reachable demoGames4j ∧
    (demoGames4j.get "AAAAAA").map
      (fun s => (s.status, s.roles.map roleIds, s.players.keys))
      = some (Status.guessing, some [2, 3, 1], [1, 2, 3, 4]) ∧
    4 ∉ [2, 3, 1] :=
  ⟨demoGames4j_reachable, by decide, by decide⟩

/-- C19, amended: in every reachable registry a session has a roles object exactly while its
status is guessing; the police is defined and differs from the thief; the police, the thief
(when there is one) and the civilians are pairwise distinct players of the session, and they
are a rearrangement of an initial segment of the turn order, the players after it (those who
joined during the round) being in no group. Right after `startRound` that segment is the
whole player list. -/
theorem roles_invariant {games : Games} (h : Reachable games) :
    (∀ e ∈ games,
      (e.2.roles.isSome = true ↔ e.2.status = Status.guessing) ∧
      ∀ roles, e.2.roles = some roles →
        roles.policeId.isSome = true ∧ roles.policeId ≠ roles.thiefId ∧
        (roleIds roles).Nodup ∧ (∀ k ∈ roleIds roles, k ∈ e.2.players.keys) ∧
        ∃ present later, e.2.order = present ++ later ∧ e.2.players.keys = present ++ later ∧
          (roleIds roles).Perm present) ∧
    (∀ (rnd : Draws) (s : State) (roles : Roles), (startRound rnd s).1.roles = some roles →
      (roleIds roles).Perm (startRound rnd s).1.players.keys) := by
  constructor
  · intro e he
    have hinv := h.inv e he
    refine ⟨hinv.roles_iff, ?_⟩
    intro roles hr
    have hnd := hinv.roleIds_nodup roles hr
    obtain ⟨present, later, h1, h2⟩ := hinv.roles_prefix roles hr
    have hpol := hinv.police_some roles hr
    refine ⟨hpol, ?_, hnd, ?_, present, later, by rw [hinv.order_eq, h1], h1, h2⟩
    · intro heq
      obtain ⟨p, hp⟩ := Option.isSome_iff_exists.mp hpol
      unfold roleIds at hnd
      rw [← heq, hp] at hnd
      simp at hnd
    · intro k hk
      rw [h1]
      exact List.mem_append_left _ (h2.subset hk)
  · intro rnd s roles hr
    rw [startRound_state] at hr ⊢
    exact assignRoles_roleIds rnd s roles hr

/-- The sample round after player `4` joined it. -/
theorem roles_invariant_witness :
    Reachable demoGames4j ∧
    (∀ e ∈ demoGames4j,
      (e.2.roles.isSome = true ↔ e.2.status = Status.guessing) ∧
      ∀ roles, e.2.roles = some roles →
        roles.policeId.isSome = true ∧ roles.policeId ≠ roles.thiefId ∧
        (roleIds roles).Nodup ∧ (∀ k ∈ roleIds roles, k ∈ e.2.players.keys) ∧
        ∃ present later, e.2.order = present ++ later ∧ e.2.players.keys = present ++ later ∧
          (roleIds roles).Perm present) ∧
    (∀ (rnd : Draws) (s : State) (roles : Roles), (startRound rnd s).1.roles = some roles →
      (roleIds roles).Perm (startRound rnd s).1.players.keys) :=
  ⟨demoGames4j_reachable, roles_invariant demoGames4j_reachable⟩

/-! ## Reconnect and disconnect change liveness only -/

theorem JsMap.set_eq_map {κ ν : Type} [DecidableEq κ] (m : JsMap κ ν) (k : κ) (v : ν)
    (hn : m.keys.Nodup) (hk : k ∈ m.keys) :
    JsMap.set m k v = m.map (fun e => if e.1 = k then (e.1, v) else e) := by
  induction m with
  | nil => simp [JsMap.keys] at hk
  | cons e rest ih =>
    obtain ⟨k0, v0⟩ := e
    simp only [JsMap.keys, List.map_cons, List.nodup_cons] at hn
    by_cases h0 : k0 = k
    · subst h0
      have hrest : rest.map (fun e => if e.1 = k0 then (e.1, v) else e) = rest := by
        conv_rhs => rw [← List.map_id rest]
        apply List.map_congr_left
        intro e he
        have : e.1 ≠ k0 := fun h => hn.1 (h ▸ List.mem_map.mpr ⟨e, he, rfl⟩)
        simp [this]
      simp only [JsMap.set, if_true, List.map_cons, hrest]
    · have hk2 : k ∈ JsMap.keys rest := by
        simp only [JsMap.keys, List.map_cons, List.mem_cons] at hk
        rcases hk with hk | hk
        · exact absurd hk.symm h0
        · exact hk
      simp only [JsMap.set, h0, if_false, List.map_cons]
      exact congrArg _ (ih hn.2 hk2)

theorem dropChannel_frame (socket : SocketId) (e : PlayerId × Player) :
    (dropChannel socket e).1 = e.1 ∧ (dropChannel socket e).2.id = e.2.id ∧
    (dropChannel socket e).2.name = e.2.name ∧ (dropChannel socket e).2.score = e.2.score ∧
    (e.2.socketId = some socket →
      (dropChannel socket e).2.socketId = none ∧ (dropChannel socket e).2.connected = false) ∧
    (e.2.socketId ≠ some socket → dropChannel socket e = e) := by
  unfold dropChannel
  split
  · rename_i h
    exact ⟨rfl, rfl, rfl, rfl, fun _ => ⟨rfl, rfl⟩, fun hne => absurd h hne⟩
  · exact ⟨rfl, rfl, rfl, rfl, fun h => by contradiction, fun _ => rfl⟩

/-- C20: in a reachable registry, a successful reconnect changes, in the session it names,
exactly the entry of the requesting player, whose channel becomes the new one and whose
connected flag becomes true; the closing of channel `socket` changes, in every session,
exactly the entries of the players whose channel is `socket`, which lose the channel and
become disconnected, so that it changes nothing when no player has that channel. Keys, ids,
names, scores, the number and order of the players and every other field of every session
are as before. -/
theorem liveness_only {games : Games} (h : Reachable games) :
    (∀ (socket : SocketId) (teamCode : TeamCode) (playerId : PlayerId) (s : State)
        (p : Player), games.get teamCode = some s → s.players.get playerId = some p →
      (playerReconnect games socket teamCode playerId).1 =
        games.map (fun e => if e.1 = teamCode then
          (e.1, { s with players := s.players.map (fun q =>
            if q.1 = playerId then
              (q.1, { q.2 with socketId := some socket, connected := true })
            else q) })
          else e)) ∧
    (∀ socket : SocketId,
      (disconnect games socket).1 =
        games.map (fun e =>
          (e.1, { e.2 with players := e.2.players.map (dropChannel socket) }))) ∧
    (∀ socket : SocketId,
      (∀ e ∈ games, ∀ q ∈ e.2.players, q.2.socketId ≠ some socket) →
      (disconnect games socket).1 = games) ∧
    (∀ (socket : SocketId) (q : PlayerId × Player),
      (dropChannel socket q).1 = q.1 ∧ (dropChannel socket q).2.id = q.2.id ∧
      (dropChannel socket q).2.name = q.2.name ∧ (dropChannel socket q).2.score = q.2.score ∧
      (q.2.socketId = some socket →
        (dropChannel socket q).2.socketId = none ∧
        (dropChannel socket q).2.connected = false) ∧
      (q.2.socketId ≠ some socket → dropChannel socket q = q)) := by
  have hdis : ∀ socket : SocketId,
      (disconnect games socket).1 =
        games.map (fun e =>
          (e.1, { e.2 with players := e.2.players.map (dropChannel socket) })) := by
    intro socket
    rw [disconnect_eq games socket h.keys_nodup]
    apply List.map_congr_left
    intro e he
    rw [disconnectState_eq socket e.2 (h.inv e he).keys_nodup]
  refine ⟨?_, hdis, ?_, dropChannel_frame⟩
  · intro socket teamCode playerId s p hs hp
    have hinv := h.session hs
    rw [playerReconnect_eq games socket teamCode playerId s p hs hp]
    simp only
    rw [JsMap.set_eq_map games teamCode _ h.keys_nodup
      ((JsMap.get_isSome_iff _ _).mp (by rw [hs]; rfl)),
      JsMap.set_eq_map s.players playerId _ hinv.keys_nodup
      ((JsMap.get_isSome_iff _ _).mp (by rw [hp]; rfl))]
    have hmap : s.players.map (fun e => if e.1 = playerId then (e.1, rebind socket p) else e) =
        s.players.map (fun q => if q.1 = playerId then
          (q.1, { q.2 with socketId := some socket, connected := true }) else q) := by
      apply List.map_congr_left
      intro q hq
      by_cases hk : q.1 = playerId
      · have hget := JsMap.get_of_mem_nodup hinv.keys_nodup hq
        rw [hk, hp] at hget
        cases hget
        simp [hk, rebind]
      · simp [hk]
    rw [hmap]
  · intro socket hno
    rw [hdis socket]
    conv_rhs => rw [← List.map_id games]
    apply List.map_congr_left
    intro e he
    have hp : e.2.players.map (dropChannel socket) = e.2.players := by
      conv_rhs => rw [← List.map_id e.2.players]
      apply List.map_congr_left
      intro q hq
      exact (dropChannel_frame socket q).2.2.2.2.2 (hno e he q hq)
    rw [hp]
    rfl

/-- In the sample round the thief `3` moves from channel `102` to channel `200`; the closing
of `102` afterwards changes nothing, while closing it before would have disconnected `3`. -/
theorem liveness_only_witness :
    Reachable demoGames4 ∧
    (disconnect (playerReconnect demoGames4 200 "AAAAAA" 3).1 102).1
      = (playerReconnect demoGames4 200 "AAAAAA" 3).1 ∧
    ((disconnect demoGames4 102).1.get "AAAAAA").map
      (fun s => s.players.values.map (fun p => (p.id, p.socketId, p.connected, p.score)))
      = some [(1, some 100, true, 0), (2, some 101, true, 0), (3, none, false, 0)] ∧
    (∀ (socket : SocketId) (teamCode : TeamCode) (playerId : PlayerId) (s : State)
        (p : Player), demoGames4.get teamCode = some s → s.players.get playerId = some p →
      (playerReconnect demoGames4 socket teamCode playerId).1 =
        demoGames4.map (fun e => if e.1 = teamCode then
          (e.1, { s with players := s.players.map (fun q =>
            if q.1 = playerId then
              (q.1, { q.2 with socketId := some socket, connected := true })
            else q) })
          else e)) ∧
    (∀ socket : SocketId,
      (disconnect demoGames4 socket).1 =
        demoGames4.map (fun e =>
          (e.1, { e.2 with players := e.2.players.map (dropChannel socket) }))) ∧
    (∀ socket : SocketId,
      (∀ e ∈ demoGames4, ∀ q ∈ e.2.players, q.2.socketId ≠ some socket) →
      (disconnect demoGames4 socket).1 = demoGames4) ∧
    (∀ (socket : SocketId) (q : PlayerId × Player),
      (dropChannel socket q).1 = q.1 ∧ (dropChannel socket q).2.id = q.2.id ∧
      (dropChannel socket q).2.name = q.2.name ∧ (dropChannel socket q).2.score = q.2.score ∧
      (q.2.socketId = some socket →
        (dropChannel socket q).2.socketId = none ∧
        (dropChannel socket q).2.connected = false) ∧
      (q.2.socketId ≠ some socket → dropChannel socket q = q)) :=
  ⟨demoGames4_reachable, by decide, by decide, liveness_only demoGames4_reachable⟩

/-! ## The round counter stays within the number of rounds -/

/-- The clamped round count is an integer when the count supplied is an integer or absent. -/
theorem clamp_integer (t : Option ℚ) (ht : ∀ q, t = some q → ∃ n : ℤ, q = (n : ℚ)) :
    ∃ n : ℤ, max 1 (min 50 (ratOr t 10)) = (n : ℚ) := by
  have hm : ∃ m : ℤ, ratOr t 10 = (m : ℚ) := by
    cases t with
    | none => exact ⟨10, by simp [ratOr]⟩
    | some q =>
      obtain ⟨n, hn⟩ := ht q rfl
      by_cases h0 : q = 0
      · exact ⟨10, by simp [ratOr, h0]⟩
      · exact ⟨n, by show (if q = 0 then 10 else q) = _; rw [if_neg h0]; exact hn⟩
  obtain ⟨m, hm⟩ := hm
  exact ⟨max 1 (min 50 m), by rw [hm]; push_cast; rfl⟩

/-- Where the `totalRounds` of a session registered after a request comes from: the session
was registered before with the same `totalRounds`, or the request is the create that drew
its code, and `totalRounds` is the clamped count of that request. -/
theorem handle_totalRounds {games : Games} (h : Reachable games) (a : Action)
    (code : TeamCode) (after : State) (ha : (handle games a).1.get code = some after) :
    (∃ s, games.get code = some s ∧ after.totalRounds = s.totalRounds) ∨
    (∃ socket rnd uuid hostName t, a = Action.create socket rnd uuid hostName t ∧
      makeTeamCode rnd = code ∧ after.totalRounds = max 1 (min 50 (ratOr t 10))) := by
  cases hg : games.get code with
  | none =>
    right
    by_contra hno
    have habs := absent_step games h.keys_nodup code hg a (by
      intro socket rnd uuid hostName t hat hc
      subst hat
      apply hno
      refine ⟨socket, rnd, uuid, hostName, t, rfl, hc, ?_⟩
      simp only [handle, lobbyCreate] at ha
      rw [hc, JsMap.get_set_self] at ha
      cases ha
      rfl)
    rw [habs] at ha
    cases ha
  | some s =>
    have hinv := h.session hg
    cases a with
    | create socket rnd uuid hostName t =>
      by_cases hc : makeTeamCode rnd = code
      · right
        refine ⟨socket, rnd, uuid, hostName, t, rfl, hc, ?_⟩
        simp only [handle, lobbyCreate] at ha
        rw [hc, JsMap.get_set_self] at ha
        cases ha
        rfl
      · left
        simp only [handle, lobbyCreate] at ha
        rw [JsMap.get_set_ne _ _ hc, hg] at ha
        cases ha
        exact ⟨_, rfl, rfl⟩
    | dismantle socket teamCode playerId =>
      left
      simp only [handle] at ha
      by_cases hc : teamCode = code
      · subst hc
        unfold lobbyDismantle at ha
        rw [findGame_of_get hg] at ha
        simp only at ha
        split at ha
        · rw [hg] at ha; cases ha; exact ⟨_, rfl, rfl⟩
        · rw [JsMap.get_delete_self] at ha; cases ha
      · rw [lobbyDismantle_get_other _ _ _ _ _ hc, hg] at ha
        cases ha; exact ⟨_, rfl, rfl⟩
    | join socket teamCode uuid playerName =>
      left
      simp only [handle] at ha
      by_cases hc : teamCode = code
      · subst hc
        unfold lobbyJoin at ha
        rw [findGame_of_get hg] at ha
        simp only at ha
        rw [JsMap.get_set_self] at ha
        cases ha; exact ⟨_, rfl, rfl⟩
      · rw [lobbyJoin_get_other _ _ _ _ _ _ hc, hg] at ha
        cases ha; exact ⟨_, rfl, rfl⟩
    | reconnect socket teamCode playerId =>
      left
      simp only [handle] at ha
      by_cases hc : teamCode = code
      · subst hc
        cases hp : s.players.get playerId with
        | none =>
          unfold playerReconnect at ha
          rw [findGame_of_get hg] at ha
          simp only [hp] at ha
          rw [hg] at ha; cases ha; exact ⟨_, rfl, rfl⟩
        | some p =>
          rw [playerReconnect_eq games socket teamCode playerId s p hg hp] at ha
          simp only at ha
          rw [JsMap.get_set_self] at ha
          cases ha; exact ⟨_, rfl, rfl⟩
      · rw [playerReconnect_get_other _ _ _ _ _ hc, hg] at ha
        cases ha; exact ⟨_, rfl, rfl⟩
    | start socket teamCode playerId rnd =>
      left
      simp only [handle] at ha
      by_cases hc : teamCode = code
      · subst hc
        rw [roundStart_eq games socket teamCode playerId rnd s hg] at ha
        split at ha
        · rw [hg] at ha; cases ha; exact ⟨_, rfl, rfl⟩
        · split at ha
          · rw [hg] at ha; cases ha; exact ⟨_, rfl, rfl⟩
          · split at ha
            · rw [hg] at ha; cases ha; exact ⟨_, rfl, rfl⟩
            · simp only at ha
              rw [JsMap.get_set_self, startRound_state] at ha
              cases ha; exact ⟨_, rfl, rfl⟩
      · rw [roundStart_get_other _ _ _ _ _ _ hc, hg] at ha
        cases ha; exact ⟨_, rfl, rfl⟩
    | guess socket teamCode playerId targetId =>
      left
      simp only [handle] at ha
      by_cases hc : teamCode = code
      · subst hc
        rw [policeGuess_eq games socket teamCode playerId targetId s hg] at ha
        cases hr : s.roles with
        | none =>
          rw [hr] at ha
          simp only at ha
          rw [hg] at ha; cases ha; exact ⟨_, rfl, rfl⟩
        | some roles =>
          rw [hr] at ha
          simp only at ha
          split at ha
          · rw [hg] at ha; cases ha; exact ⟨_, rfl, rfl⟩
          · split at ha
            · rw [hg] at ha; cases ha; exact ⟨_, rfl, rfl⟩
            · simp only at ha
              rw [JsMap.get_set_self] at ha
              cases ha; exact ⟨_, rfl, rfl⟩
      · rw [policeGuess_get_other _ _ _ _ _ _ hc, hg] at ha
        cases ha; exact ⟨_, rfl, rfl⟩
    | disconnect socket =>
      left
      simp only [handle] at ha
      rw [disconnect_get games socket h.keys_nodup code, hg] at ha
      obtain ⟨players, hp, _, _⟩ := disconnectState_players socket s
      simp only [Option.map_some', Option.some.injEq] at ha
      rw [hp] at ha
      cases ha; exact ⟨_, rfl, rfl⟩

/-- C8: in every reachable registry, a session whose `totalRounds` is an integer has `round`
at most `totalRounds`, and a `round:start` request that is not refused finds `round` strictly
below `totalRounds`. `totalRounds` is an integer in every session created with an integer or
absent round count: a session registered after a request was either registered before with
the same `totalRounds`, or has just been created by the request, with the clamped count as
`totalRounds`, which is an integer when the count supplied is an integer or absent. -/
theorem round_le_totalRounds {games : Games} (h : Reachable games) :
    (∀ e ∈ games, (∃ n : ℤ, e.2.totalRounds = (n : ℚ)) →
      (e.2.round : ℚ) ≤ e.2.totalRounds) ∧
    (∀ (socket : SocketId) (teamCode : TeamCode) (playerId : PlayerId) (rnd : Draws)
      (s : State), games.get teamCode = some s →
      rejected games socket (roundStart games socket teamCode playerId rnd) = false →
      (s.round : ℚ) < s.totalRounds) ∧
    (∀ (a : Action) (code : TeamCode) (after : State),
      (handle games a).1.get code = some after →
      (∃ s, games.get code = some s ∧ after.totalRounds = s.totalRounds) ∨
      (∃ socket rnd uuid hostName t, a = Action.create socket rnd uuid hostName t ∧
        makeTeamCode rnd = code ∧ after.totalRounds = max 1 (min 50 (ratOr t 10)) ∧
        ((∀ q, t = some q → ∃ n : ℤ, q = (n : ℚ)) →
          ∃ n : ℤ, after.totalRounds = (n : ℚ)))) := by
  refine ⟨?_, ?_, ?_⟩
  · rintro e he ⟨n, hn⟩
    have hpred := (h.inv e he).round_pred
    rw [hn] at hpred ⊢
    have h2 : (e.2.round : ℤ) < n + 1 := by exact_mod_cast hpred
    have h3 : (e.2.round : ℤ) ≤ n := by omega
    exact_mod_cast h3
  · intro socket teamCode playerId rnd s hs hrej
    have hinv := h.session hs
    rw [roundStart_eq games socket teamCode playerId rnd s hs] at hrej
    by_cases h1 : some playerId ≠ starterOf s
    · rw [if_pos h1, rejected_of_toast] at hrej; cases hrej
    · rw [if_neg h1] at hrej
      rcases hinv.status_cases with hst | hst | hst | hst
      · exact hinv.round_lt (Or.inl hst)
      · exact hinv.round_lt (Or.inr hst)
      · simp [hst, rejected_of_toast] at hrej
      · simp [hst, rejected_of_toast] at hrej
  · intro a code after ha
    rcases handle_totalRounds h a code after ha with hl | ⟨socket, rnd, uuid, hostName, t, h1, h2, h3⟩
    · exact Or.inl hl
    · refine Or.inr ⟨socket, rnd, uuid, hostName, t, h1, h2, h3, fun ht => ?_⟩
      rw [h3]
      exact clamp_integer t ht

/-- The sample run, whose only session was created for one round and has played it. -/
theorem round_le_totalRounds_witness :
    Reachable demoGames5 ∧
    (demoGames5.get "AAAAAA").map (fun s => (s.round, s.totalRounds)) = some (1, 1) ∧
    (∀ e ∈ demoGames5, (∃ n : ℤ, e.2.totalRounds = (n : ℚ)) →
      (e.2.round : ℚ) ≤ e.2.totalRounds) ∧
    (∀ (socket : SocketId) (teamCode : TeamCode) (playerId : PlayerId) (rnd : Draws)
      (s : State), demoGames5.get teamCode = some s →
      rejected demoGames5 socket (roundStart demoGames5 socket teamCode playerId rnd) = false →
      (s.round : ℚ) < s.totalRounds) ∧
    (∀ (a : Action) (code : TeamCode) (after : State),
      (handle demoGames5 a).1.get code = some after →
      (∃ s, demoGames5.get code = some s ∧ after.totalRounds = s.totalRounds) ∨
      (∃ socket rnd uuid hostName t, a = Action.create socket rnd uuid hostName t ∧
        makeTeamCode rnd = code ∧ after.totalRounds = max 1 (min 50 (ratOr t 10)) ∧
        ((∀ q, t = some q → ∃ n : ℤ, q = (n : ℚ)) →
          ∃ n : ℤ, after.totalRounds = (n : ℚ)))) :=
  ⟨demoGames5_reachable, by decide, round_le_totalRounds demoGames5_reachable⟩

end PoliceVsThief
